import Mathlib

/-! # floatmix: a shallow embedding of `src/modules/module-media-session/floatmix.c`

The node mixes any number of mono float input streams into one output stream.
This file embeds the data model (`struct buffer`, `struct port`, `struct impl`)
and the operations of the node as pure state-passing functions, and proves
properties of them.

Conventions of the embedding.

* C arrays indexed by a bounded integer (`in_ports[MAX_PORTS]`,
  `buffers[MAX_BUFFERS]`, `empty[MAX_SAMPLES]`) are total functions on `Nat`;
  the code guards every index it uses.
* Host memory reached through a pointer is held by value next to the pointer's
  owner: `port.io` is the content of the bound `struct spa_io_buffers` (or
  `none` for `NULL`), `buffer.buffer` is the content of the host's
  `struct spa_buffer` the slot points at.  Distinct ports and slots are taken
  to point at distinct host objects.
* The intrusive list `port.queue` (with `buffer.link`) is the list of the slot
  indices linked in it, head first.  The list macros of `spa/utils/list.h` are
  not part of the source file; they are modelled from the specification
  ("appends to the tail of the free list", "returns and removes the head of
  the free list").  A list of distinct slots stands for a C list; a
  `spa_list_append` of a slot that is still linked corrupts the C list, and
  the list with a slot occurring twice that the model then shows stands for
  no C list.  Statements about the order of the queue therefore assume a list
  of distinct slots and a slot that is not linked.
* Sample data pointers are values of `DataPtr`; sample memory is a function
  `Mem α` from pointers and indices to samples.  The sample type `α` and its
  addition are parameters: nothing is assumed about `+` (in particular not
  associativity), so every statement holds for IEEE single precision addition.
* `int` fields are `Int`, `uint32_t` fields are `Nat`; where C compares an `int`
  with a `uint32_t` the conversion to 32 bit unsigned is explicit (`toU32`).
-/

namespace Floatmix

set_option linter.dupNamespace false
set_option linter.unusedVariables false

/-! ## Constants -/

def MAX_BUFFERS : Nat := 64
def MAX_PORTS : Nat := 128
def MAX_SAMPLES : Nat := 1024

/-- The byte size of a `float`. -/
def sizeof_float : Nat := 4

def BUFFER_FLAG_QUEUED : Nat := 1

def EINVAL : Int := 22
/-- The errno value `EIO` (5). -/
def EIO_ : Int := 5
def EPIPE : Int := 32
def ENOTSUP : Int := 95
def ENOENT : Int := 2

def SPA_STATUS_OK : Int := 0
def SPA_STATUS_NEED_BUFFER : Int := 1
def SPA_STATUS_HAVE_BUFFER : Int := 2

def SPA_ID_INVALID : Nat := 0xffffffff

/-- Conversion of a C `int` to `uint32_t`. -/
def toU32 (x : Int) : Nat := (x % 4294967296).toNat

/-- The macro `SPA_FLAG_CHECK(field, flag)`: `((field) & (flag)) == (flag)`. -/
def SPA_FLAG_CHECK (field flag : Nat) : Bool := (field &&& flag) == flag

/-- The macro `SPA_FLAG_SET(field, flag)`: `(field) |= (flag)`. -/
def SPA_FLAG_SET (field flag : Nat) : Nat := field ||| flag

/-- The macro `SPA_FLAG_UNSET(field, flag)`: `(field) &= ~(flag)` on 32 bits. -/
def SPA_FLAG_UNSET (field flag : Nat) : Nat := field &&& (0xffffffff ^^^ flag)

/-! ## Data model -/

inductive spa_direction where
  | INPUT
  | OUTPUT
  deriving DecidableEq, Repr

/-- Modelled from the spec: the memory kinds of `enum spa_data_type`
(plain memory, shared-fd-backed, DMA-capable); `Invalid` stands for every
other value. -/
inductive spa_data_type where
  | Invalid
  | MemPtr
  | MemFd
  | DmaBuf
  deriving DecidableEq, Repr

/-- The values of a sample data pointer: `NULL`, a block of host memory
(named by its address), or the node's scratch array `this->empty`. -/
inductive DataPtr where
  | null
  | host (addr : Nat)
  | scratch
  deriving DecidableEq, Repr

/-- The host's `struct spa_chunk`. -/
structure spa_chunk where
  offset : Nat
  size : Nat
  stride : Nat
  deriving DecidableEq, Repr

/-- The host's `struct spa_data`, with the chunk it points at held by value. -/
structure spa_data where
  type : spa_data_type
  maxsize : Nat
  data : DataPtr
  chunk : spa_chunk
  deriving DecidableEq, Repr

/-- The host's `struct spa_buffer`, with the `datas` array it points at held by
value.  `header` is what `spa_buffer_find_meta_data(b, SPA_META_Header, ..)`
finds in its metadata (the address of the header, if any). -/
structure spa_buffer where
  id : Nat
  header : Option Nat
  n_datas : Nat
  datas : List spa_data
  deriving DecidableEq, Repr

def spa_chunk.zero : spa_chunk := ⟨0, 0, 0⟩
def spa_data.zero : spa_data := ⟨.Invalid, 0, .null, spa_chunk.zero⟩
def spa_buffer.zero : spa_buffer := ⟨0, none, 0, []⟩

/-- The C expression `b->datas[0]`.  (For a descriptor without any data block
the C read is out of bounds; the embedding then reads the zero block.) -/
def spa_buffer.datas0 (b : spa_buffer) : spa_data := b.datas.headD spa_data.zero

/-- The record `struct buffer`: one slot of a port's buffer pool.  `link` is
represented by the port's `queue`; the unused field `buf` is left out. -/
structure buffer where
  flags : Nat
  buffer : spa_buffer
  h : Option Nat
  id : Nat
  datas : spa_data
  chunk : spa_chunk
  deriving DecidableEq, Repr

def buffer.zero : Floatmix.buffer :=
  ⟨0, spa_buffer.zero, none, 0, spa_data.zero, spa_chunk.zero⟩

/-- The host's `struct spa_io_buffers`. -/
structure spa_io_buffers where
  status : Int
  buffer_id : Nat
  deriving DecidableEq, Repr

/-- The host's `struct spa_io_range`. -/
structure spa_io_range where
  offset : Nat
  min_size : Nat
  max_size : Nat
  deriving DecidableEq, Repr

/-- The record `struct port_props`; the `double` volume is a rational. -/
structure port_props where
  volume : ℚ
  mute : Int
  deriving DecidableEq

def PORT_DEFAULT_VOLUME : ℚ := 1
def PORT_DEFAULT_MUTE : Int := 0

def port_props.zero : port_props := ⟨0, 0⟩

def port_props_reset (_props : port_props) : port_props :=
  { volume := PORT_DEFAULT_VOLUME, mute := PORT_DEFAULT_MUTE }

/-- The bits of `spa_port_info.flags` the node uses. -/
inductive port_info_flag where
  | CAN_USE_BUFFERS
  | REMOVABLE
  | OPTIONAL
  | IN_PLACE
  | NO_REF
  deriving DecidableEq, Repr

/-- The record `struct port`.  `io_volume` and `io_mute` tell whether the two
pointers are set (they only ever point at the port's own `props`). -/
structure port where
  valid : Bool
  id : Nat
  props : port_props
  io : Option spa_io_buffers
  range : Option spa_io_range
  io_volume : Bool
  io_mute : Bool
  info_flags : List port_info_flag
  have_format : Bool
  buffers : Nat → buffer
  n_buffers : Nat
  queue : List Nat
  queued_bytes : Nat

/-- A zeroed `struct port` (the result of `spa_memzero`). -/
def port.zero : port :=
  { valid := false, id := 0, props := port_props.zero, io := none, range := none,
    io_volume := false, io_mute := false, info_flags := [], have_format := false,
    buffers := fun _ => buffer.zero, n_buffers := 0, queue := [], queued_bytes := 0 }

/-- Modelled from the spec: the sample representations of
`enum spa_audio_format`; only 32-bit float is named by the code. -/
inductive spa_audio_format where
  | UNKNOWN
  | F32
  | other (code : Nat)
  deriving DecidableEq, Repr

/-- Modelled from the spec: `enum spa_media_type`. -/
inductive spa_media_type where
  | unknown
  | audio
  | other (code : Nat)
  deriving DecidableEq, Repr

/-- Modelled from the spec: `enum spa_media_subtype`. -/
inductive spa_media_subtype where
  | unknown
  | raw
  | other (code : Nat)
  deriving DecidableEq, Repr

/-- Modelled from the spec: the fields of `struct spa_audio_info_raw` a format
carries (sample format, layout, rate, channels). -/
structure spa_audio_info_raw where
  format : spa_audio_format
  layout : Nat
  rate : Nat
  channels : Nat
  deriving DecidableEq, Repr

/-- The record `struct spa_audio_info`. -/
structure spa_audio_info where
  media_type : spa_media_type
  media_subtype : spa_media_subtype
  raw : spa_audio_info_raw
  deriving DecidableEq, Repr

def spa_audio_info_raw.zero : spa_audio_info_raw := ⟨.UNKNOWN, 0, 0, 0⟩
def spa_audio_info.zero : spa_audio_info := ⟨.unknown, .unknown, spa_audio_info_raw.zero⟩

/-- A format proposal (`const struct spa_pod *format`), given by what the two
external parsers make of it: `spa_format_parse` returns `parse_res` and, when
that is not negative, the media type and subtype; `spa_format_audio_raw_parse`
returns `raw_res` and, when that is not negative, the raw audio fields. -/
structure spa_pod_format where
  parse_res : Int
  media_type : spa_media_type
  media_subtype : spa_media_subtype
  raw_res : Int
  raw : spa_audio_info_raw
  deriving DecidableEq, Repr

/-- Sample memory: the content of every block a data pointer can name. -/
abbrev Mem (α : Type) := DataPtr → Nat → α

/-- The record `struct impl`, the node.  `empty` is the scratch array. -/
structure impl (α : Type) where
  port_count : Int
  last_port : Int
  in_ports : Nat → port
  out_ports : port
  have_format : Bool
  n_formats : Int
  format : spa_audio_info
  stride : Nat
  started : Bool
  empty : Nat → α

/-- Modelled from the spec: the parameter categories of `enum spa_param_type`
(list, format enumeration, format, buffer geometry, metadata, IO layout). -/
inductive spa_param_type where
  | ParamList
  | EnumFormat
  | Format
  | Buffers
  | Meta
  | ParamIo
  | other (code : Nat)
  deriving DecidableEq, Repr

/-- Modelled from the spec: the IO region kinds of `enum spa_io_type`
(buffer-exchange, range hint, control sequence). -/
inductive spa_io_type where
  | Buffers
  | Range
  | Control
  | other (code : Nat)
  deriving DecidableEq, Repr

/-- Modelled from the spec: the command identifiers of `SPA_NODE_COMMAND_ID`. -/
inductive spa_node_command where
  | Start
  | Pause
  | other (code : Nat)
  deriving DecidableEq, Repr

/-! ## The free list -/

/-- Modelled from the spec: the macro `spa_list_init` of `spa/utils/list.h`,
which is not part of the source file: the free list without any slot. -/
@[reducible] def spa_list_init : List Nat := []

/-- Modelled from the spec: the macro `spa_list_append` of `spa/utils/list.h`,
which is not part of the source file ("appends to the tail of the free list").
The element is meant not to be linked in the list; for one that is, the C
macro corrupts the list, and the result here (the slot occurs twice) stands
for no C list. -/
@[reducible] def spa_list_append (list : List Nat) (elem : Nat) : List Nat := list ++ [elem]

/-- Modelled from the spec: the macro `spa_list_is_empty` of
`spa/utils/list.h`, which is not part of the source file. -/
@[reducible] def spa_list_is_empty (list : List Nat) : Bool := list.isEmpty

/-- Modelled from the spec: the macro `spa_list_first` of `spa/utils/list.h`,
which is not part of the source file: the head of the free list.  (It is only
used on a list that is not empty.) -/
@[reducible] def spa_list_first (list : List Nat) : Nat := list.headD 0

/-- Modelled from the spec: the macro `spa_list_remove` of `spa/utils/list.h`,
which is not part of the source file ("removes the head of the free list"):
the list without the element, which is meant to be linked in it once. -/
@[reducible] def spa_list_remove (list : List Nat) (elem : Nat) : List Nat := list.erase elem

/-! ## Port table -/

/-- The macro `CHECK_FREE_IN_PORT(this,d,p)`. -/
def CHECK_FREE_IN_PORT {α : Type} (this : impl α) (d : spa_direction) (p : Nat) : Bool :=
  d == .INPUT && decide (p < MAX_PORTS) && !(this.in_ports p).valid

/-- The macro `CHECK_IN_PORT(this,d,p)`. -/
def CHECK_IN_PORT {α : Type} (this : impl α) (d : spa_direction) (p : Nat) : Bool :=
  d == .INPUT && decide (p < MAX_PORTS) && (this.in_ports p).valid

/-- The macro `CHECK_OUT_PORT(this,d,p)`. -/
def CHECK_OUT_PORT {α : Type} (_this : impl α) (d : spa_direction) (p : Nat) : Bool :=
  d == .OUTPUT && p == 0

/-- The macro `CHECK_PORT(this,d,p)`. -/
def CHECK_PORT {α : Type} (this : impl α) (d : spa_direction) (p : Nat) : Bool :=
  CHECK_OUT_PORT this d p || CHECK_IN_PORT this d p

/-- The macro `GET_PORT(this,d,p)`, read.  The output array has the single
element 0; every caller has checked `p == 0` for the output direction. -/
def GET_PORT {α : Type} (this : impl α) (d : spa_direction) (p : Nat) : port :=
  match d with
  | .INPUT => this.in_ports p
  | .OUTPUT => this.out_ports

/-- Writing through the pointer `GET_PORT(this,d,p)`. -/
def SET_PORT {α : Type} (this : impl α) (d : spa_direction) (p : Nat) (q : port) : impl α :=
  match d with
  | .INPUT => { this with in_ports := Function.update this.in_ports p q }
  | .OUTPUT => { this with out_ports := q }

/-- The node after `impl_init` on zeroed handle memory: only the output port
is set up. -/
def impl_init {α : Type} [Zero α] : impl α :=
  { port_count := 0, last_port := 0, in_ports := fun _ => port.zero,
    out_ports := { port.zero with valid := true, id := 0,
                                  info_flags := [.CAN_USE_BUFFERS, .NO_REF],
                                  queue := spa_list_init },
    have_format := false, n_formats := 0, format := spa_audio_info.zero, stride := 0,
    started := false, empty := fun _ => 0 }

/-- The function `impl_node_send_command`. -/
def impl_node_send_command {α : Type} (this : impl α) (command : spa_node_command) :
    Int × impl α :=
  match command with
  | .Start => (0, { this with started := true })
  | .Pause => (0, { this with started := false })
  | .other _ => (-ENOTSUP, this)

/-- The function `impl_node_add_port`. -/
def impl_node_add_port {α : Type} (this : impl α) (direction : spa_direction) (port_id : Nat) :
    Int × impl α :=
  if CHECK_FREE_IN_PORT this direction port_id then
    let pt := this.in_ports port_id
    let pt := { pt with
      id := port_id
      props := port_props_reset pt.props
      io_volume := true
      io_mute := true
      queue := spa_list_init
      info_flags := [.CAN_USE_BUFFERS, .REMOVABLE, .OPTIONAL, .IN_PLACE] }
    let port_count := this.port_count + 1
    let last_port := if toU32 this.last_port ≤ port_id then (port_id : Int) + 1 else this.last_port
    let pt := { pt with valid := true }
    (0, { this with port_count := port_count, last_port := last_port,
                    in_ports := Function.update this.in_ports port_id pt })
  else (-EINVAL, this)

/-- The downward scan of `impl_node_remove_port`:
`for (i = this->last_port - 1; i >= 0; i--) if (GET_IN_PORT(this, i)->valid) break;`
run from `i = n - 1`; the result is the final `i + 1`. -/
def scan_last_port (in_ports : Nat → port) : Nat → Nat
  | 0 => 0
  | n + 1 => if (in_ports n).valid then n + 1 else scan_last_port in_ports n

/-- The function `impl_node_remove_port`. -/
def impl_node_remove_port {α : Type} (this : impl α) (direction : spa_direction) (port_id : Nat) :
    Int × impl α :=
  if CHECK_IN_PORT this direction port_id then
    let pt := this.in_ports port_id
    let port_count := this.port_count - 1
    let dec := pt.have_format && this.have_format
    let n_formats := if dec then this.n_formats - 1 else this.n_formats
    let have_format := if dec && decide (n_formats = 0) then false else this.have_format
    let in_ports := Function.update this.in_ports port_id port.zero
    let last_port :=
      if port_id = toU32 (this.last_port - 1) then
        -- the scan starts at `i = this->last_port - 1`, which is `port_id` here
        (scan_last_port in_ports (port_id + 1) : Int)
      else this.last_port
    (0, { this with port_count := port_count, n_formats := n_formats,
                    have_format := have_format, in_ports := in_ports,
                    last_port := last_port })
  else (-EINVAL, this)

/-! ## Buffer pool and queue -/

/-- The function `clear_buffers`. -/
def clear_buffers (pt : port) : port :=
  if pt.n_buffers > 0 then { pt with n_buffers := 0, queue := spa_list_init } else pt

/-- The function `queue_buffer`, on the slot `&port->buffers[idx]`. -/
def queue_buffer (pt : port) (idx : Nat) : Int × port :=
  let b := pt.buffers idx
  if SPA_FLAG_CHECK b.flags BUFFER_FLAG_QUEUED then (-EINVAL, pt)
  else
    (0, { pt with
      queue := spa_list_append pt.queue idx
      buffers := Function.update pt.buffers idx
        { b with flags := SPA_FLAG_SET b.flags BUFFER_FLAG_QUEUED } })

/-- The function `dequeue_buffer`; the result is the index of the slot
returned, `none` for `NULL`. -/
def dequeue_buffer (pt : port) : Option Nat × port :=
  if spa_list_is_empty pt.queue then (none, pt)
  else
    let idx := spa_list_first pt.queue
    let b := pt.buffers idx
    (some idx, { pt with
      queue := spa_list_remove pt.queue idx
      buffers := Function.update pt.buffers idx
        { b with flags := SPA_FLAG_UNSET b.flags BUFFER_FLAG_QUEUED } })

/-! ## Format negotiation -/

/-- The function `port_set_format`; `format = none` is the `NULL` format. -/
def port_set_format {α : Type} (this : impl α) (direction : spa_direction) (port_id : Nat)
    (flags : Nat) (format : Option spa_pod_format) : Int × impl α :=
  let pt := GET_PORT this direction port_id
  match format with
  | none =>
    if pt.have_format then
      let pt := { pt with have_format := false }
      let n_formats := this.n_formats - 1
      let have_format := if n_formats = 0 then false else this.have_format
      let pt := clear_buffers pt
      (0, SET_PORT { this with n_formats := n_formats, have_format := have_format }
            direction port_id pt)
    else (0, this)
  | some f =>
    if f.parse_res < 0 then (f.parse_res, this)
    else if f.media_type ≠ .audio ∨ f.media_subtype ≠ .raw then (-EINVAL, this)
    else if f.raw_res < 0 then (-EINVAL, this)
    else
      let info : spa_audio_info := ⟨f.media_type, f.media_subtype, f.raw⟩
      if this.have_format then
        if info ≠ this.format then (-EINVAL, this)
        else if !pt.have_format then
          (0, SET_PORT { this with n_formats := this.n_formats + 1 } direction port_id
                { pt with have_format := true })
        else (0, this)
      else
        if info.raw.format ≠ .F32 then (-EINVAL, this)
        else
          let this1 := { this with stride := sizeof_float, have_format := true, format := info }
          if !pt.have_format then
            (0, SET_PORT { this1 with n_formats := this1.n_formats + 1 } direction port_id
                  { pt with have_format := true })
          else (0, this1)

/-- The function `impl_node_port_set_param`. -/
def impl_node_port_set_param {α : Type} (this : impl α) (direction : spa_direction)
    (port_id : Nat) (id : spa_param_type) (flags : Nat) (param : Option spa_pod_format) :
    Int × impl α :=
  if CHECK_PORT this direction port_id then
    if id = .Format then port_set_format this direction port_id flags param
    else (-ENOENT, this)
  else (-EINVAL, this)

/-- The validity test of `impl_node_port_use_buffers` on `d[0]`. -/
def data_ok (d : spa_data) : Bool :=
  (d.type == .MemPtr || d.type == .MemFd || d.type == .DmaBuf) && d.data != .null

/-- The first statements of the loop body of `impl_node_port_use_buffers`:
slot `i` is pointed at the supplied buffer `sb`, its flags are cleared, its id
is `i` and `h` is the header metadata found in `sb`. -/
def install_slot (pt : port) (i : Nat) (sb : spa_buffer) : port :=
  let b := { pt.buffers i with buffer := sb, flags := 0, id := i, h := sb.header }
  { pt with buffers := Function.update pt.buffers i b }

/-- The loop of `impl_node_port_use_buffers`, from index `i` over the
remaining supplied buffers. -/
def use_buffers_loop (direction : spa_direction) : List spa_buffer → Nat → port → Int × port
  | [], _, pt => (0, pt)
  | sb :: rest, i, pt =>
    let d := sb.datas0
    let pt := install_slot pt i sb
    if !data_ok d then (-EINVAL, pt)
    else
      let pt := if direction = .OUTPUT then (queue_buffer pt i).2 else pt
      use_buffers_loop direction rest (i + 1) pt

/-- The function `impl_node_port_use_buffers`; `buffers` is the supplied
array, `n_buffers` its length. -/
def impl_node_port_use_buffers {α : Type} (this : impl α) (direction : spa_direction)
    (port_id : Nat) (buffers : List spa_buffer) : Int × impl α :=
  if CHECK_PORT this direction port_id then
    let pt := GET_PORT this direction port_id
    if pt.have_format then
      let pt := clear_buffers pt
      let r := use_buffers_loop direction buffers 0 pt
      if r.1 = 0 then (0, SET_PORT this direction port_id { r.2 with n_buffers := buffers.length })
      else (r.1, SET_PORT this direction port_id r.2)
    else (-EIO_, this)
  else (-EINVAL, this)

/-- The function `impl_node_port_set_io`.  The region `data` points at is
given under both of its readings, as a `struct spa_io_buffers` and as a
`struct spa_io_range` (`none` for `NULL`). -/
def impl_node_port_set_io {α : Type} (this : impl α) (direction : spa_direction)
    (port_id : Nat) (id : spa_io_type) (data_buffers : Option spa_io_buffers)
    (data_range : Option spa_io_range) : Int × impl α :=
  if CHECK_PORT this direction port_id then
    let pt := GET_PORT this direction port_id
    match id with
    | .Buffers => (0, SET_PORT this direction port_id { pt with io := data_buffers })
    | .Range => (0, SET_PORT this direction port_id { pt with range := data_range })
    | _ => (-ENOENT, this)
  else (-EINVAL, this)

/-- The function `impl_node_port_reuse_buffer`. -/
def impl_node_port_reuse_buffer {α : Type} (this : impl α) (port_id : Nat) (buffer_id : Nat) :
    Int × impl α :=
  if CHECK_PORT this .OUTPUT port_id then
    let pt := this.out_ports
    if buffer_id ≥ pt.n_buffers then (-EINVAL, this)
    else
      let r := queue_buffer pt buffer_id
      (r.1, { this with out_ports := r.2 })
  else (-EINVAL, this)

/-! ## Mixing -/

/-- The store `p[i] = v`. -/
def store {α : Type} (m : Mem α) (p : DataPtr) (i : Nat) (v : α) : Mem α :=
  fun q j => if q = p ∧ j = i then v else m q j

/-- The loop of the scalar `mix_2`, with `k` iterations left at index `i`:
`dst[i] = src1[i] + src2[i]`. -/
def mix_2_loop {α : Type} [Add α] (dst src1 src2 : DataPtr) : Nat → Nat → Mem α → Mem α
  | 0, _, m => m
  | k + 1, i, m => mix_2_loop dst src1 src2 k (i + 1) (store m dst i (m src1 i + m src2 i))

/-- The scalar `mix_2` (the `#else` branch). -/
def mix_2 {α : Type} [Add α] (m : Mem α) (dst src1 src2 : DataPtr) (n_samples : Nat) : Mem α :=
  mix_2_loop dst src1 src2 n_samples 0 m

/-- One iteration of the first loop of the vectorised `mix_2`: both four-lane
loads happen before the four-lane store. -/
def mix_2_sse_block {α : Type} [Add α] (dst src1 src2 : DataPtr) (i : Nat) (m : Mem α) : Mem α :=
  let a0 := m src1 i
  let a1 := m src1 (i + 1)
  let a2 := m src1 (i + 2)
  let a3 := m src1 (i + 3)
  let b0 := m src2 i
  let b1 := m src2 (i + 1)
  let b2 := m src2 (i + 2)
  let b3 := m src2 (i + 3)
  store (store (store (store m dst i (a0 + b0)) dst (i + 1) (a1 + b1)) dst (i + 2) (a2 + b2))
    dst (i + 3) (a3 + b3)

/-- The first loop of the vectorised `mix_2`: `for (i = 0; unrolled--; i += 4)`;
the result carries the final `i`. -/
def mix_2_sse_unrolled {α : Type} [Add α] (dst src1 src2 : DataPtr) :
    Nat → Nat → Mem α → Nat × Mem α
  | 0, i, m => (i, m)
  | k + 1, i, m => mix_2_sse_unrolled dst src1 src2 k (i + 4) (mix_2_sse_block dst src1 src2 i m)

/-- The second loop of the vectorised `mix_2`: `for (; n_samples--; i++)`, one
lane at a time. -/
def mix_2_sse_rest {α : Type} [Add α] (dst src1 src2 : DataPtr) : Nat → Nat → Mem α → Mem α
  | 0, _, m => m
  | k + 1, i, m => mix_2_sse_rest dst src1 src2 k (i + 1) (store m dst i (m src1 i + m src2 i))

/-- The vectorised `mix_2` (the `__SSE__` branch), for `n_samples >= 0`. -/
def mix_2_sse {α : Type} [Add α] (m : Mem α) (dst src1 src2 : DataPtr) (n_samples : Nat) :
    Mem α :=
  let unrolled := n_samples / 4
  let n_samples := n_samples &&& 3
  let r := mix_2_sse_unrolled dst src1 src2 unrolled 0 m
  mix_2_sse_rest dst src1 src2 n_samples r.1 r.2

/-- The function `mix_2` as compiled: `sse` tells whether `__SSE__` is defined. -/
def mix_2_compiled {α : Type} [Add α] (sse : Bool) (m : Mem α) (dst src1 src2 : DataPtr)
    (n_samples : Nat) : Mem α :=
  if sse then mix_2_sse m dst src1 src2 n_samples else mix_2 m dst src1 src2 n_samples

/-- The call `memset(dst, 0, n_samples * sizeof(float))`: the all-zero bytes of
a float are the sample `0.0`. -/
def memset_zero {α : Type} [Zero α] (m : Mem α) (dst : DataPtr) (n_samples : Nat) : Mem α :=
  fun q j => if q = dst ∧ j < n_samples then 0 else m q j

/-- The sample memory a cycle sees: host blocks, and the scratch array of the
node.  (A read through `NULL` has no meaning in C; it reads zero here.) -/
def node_mem {α : Type} [Zero α] (hostmem : Nat → Nat → α) (empty : Nat → α) : Mem α
  | .null => fun _ => 0
  | .host a => hostmem a
  | .scratch => empty

/-- The state of the input scan of `impl_node_process`: the input ports, the
array `buffers` (its length is `n_buffers`) and `maxsize`. -/
structure scan_state where
  in_ports : Nat → port
  buffers : List buffer
  maxsize : Nat

/-- The test of the input scan: the port contributes to this cycle. -/
def input_ready (inport : port) : Bool :=
  match inport.io with
  | none => false
  | some inio =>
    inport.valid && decide (inio.buffer_id < inport.n_buffers) &&
      decide (inio.status = SPA_STATUS_HAVE_BUFFER)

/-- One iteration of the input scan of `impl_node_process`, for port `i`. -/
def scan_input (st : scan_state) (i : Nat) : scan_state :=
  let inport := st.in_ports i
  if !inport.valid then st
  else
    match inport.io with
    | none => st
    | some inio =>
      if inio.buffer_id ≥ inport.n_buffers ∨ inio.status ≠ SPA_STATUS_HAVE_BUFFER then st
      else
        let inb := inport.buffers inio.buffer_id
        { in_ports := Function.update st.in_ports i
            { inport with io := some { inio with status := SPA_STATUS_NEED_BUFFER } }
          buffers := st.buffers ++ [inb]
          maxsize := min inb.buffer.datas0.chunk.size st.maxsize }

/-- The recycle step of `impl_node_process`, on the output port and the
content of its IO region. -/
def recycle (outport : port) (outio : spa_io_buffers) : port × spa_io_buffers :=
  if outio.buffer_id < outport.n_buffers then
    ((queue_buffer outport outio.buffer_id).2, { outio with buffer_id := SPA_ID_INVALID })
  else (outport, outio)

/-- The initial `maxsize` of a cycle: the global cap, lowered to the range
hint of the output port when one is bound. -/
def initial_maxsize (outport : port) : Nat :=
  let maxsize := MAX_SAMPLES * sizeof_float
  match outport.range with
  | some range => min range.max_size maxsize
  | none => maxsize

/-- The input scan of `impl_node_process`: `for (i = 0; i < this->last_port; i++)`. -/
def scan_inputs {α : Type} (this : impl α) (outport : port) : scan_state :=
  (List.range this.last_port.toNat).foldl scan_input
    { in_ports := this.in_ports, buffers := [], maxsize := initial_maxsize outport }

/-- The mixing of two or more inputs into the scratch array: the first two are
added and stored, each further one is accumulated in place. -/
def mix_buffers {α : Type} [Add α] (sse : Bool) (m : Mem α) (buffers : List buffer)
    (n_samples : Nat) : Mem α :=
  let m1 := mix_2_compiled sse m .scratch (buffers.getD 0 buffer.zero).buffer.datas0.data
    (buffers.getD 1 buffer.zero).buffer.datas0.data n_samples
  (buffers.drop 2).foldl
    (fun m b => mix_2_compiled sse m .scratch .scratch b.buffer.datas0.data n_samples) m1

/-- The output stage of `impl_node_process`, after slot `k` of the output port
was dequeued: the new slot and the new scratch array. -/
def produce {α : Type} [Add α] [Zero α] (sse : Bool) (hostmem : Nat → Nat → α)
    (empty : Nat → α) (outb : buffer) (buffers : List buffer) (maxsize : Nat) :
    buffer × (Nat → α) :=
  let n_samples := maxsize / sizeof_float
  if buffers.length = 1 then
    ({ outb with buffer := { (buffers.getD 0 buffer.zero).buffer with id := outb.id } }, empty)
  else
    let chunk : spa_chunk :=
      { offset := 0, size := n_samples * sizeof_float, stride := sizeof_float }
    let datas : spa_data := { outb.datas with data := .scratch, chunk := chunk }
    let outb := { outb with
      chunk := chunk
      datas := datas
      buffer := { outb.buffer with id := outb.id, n_datas := 1, datas := [datas] } }
    let m := node_mem hostmem empty
    if buffers.length = 0 then (outb, memset_zero m .scratch n_samples .scratch)
    else (outb, mix_buffers sse m buffers n_samples .scratch)

/-- The function `impl_node_process`.  `sse` tells which `mix_2` was compiled
in, `hostmem` is the sample memory of the host. -/
def impl_node_process {α : Type} [Add α] [Zero α] (sse : Bool) (hostmem : Nat → Nat → α)
    (this : impl α) : Int × impl α :=
  match this.out_ports.io with
  | none => (-EIO_, this)
  | some outio =>
    if outio.status = SPA_STATUS_HAVE_BUFFER then (outio.status, this)
    else
      let rc := recycle this.out_ports outio
      let st := scan_inputs this rc.1
      let dq := dequeue_buffer rc.1
      match dq.1 with
      | none =>
        (-EPIPE, { this with in_ports := st.in_ports,
                             out_ports := { dq.2 with io := some rc.2 } })
      | some k =>
        let r := produce sse hostmem this.empty (dq.2.buffers k) st.buffers st.maxsize
        let outio : spa_io_buffers :=
          { buffer_id := r.1.buffer.id, status := SPA_STATUS_HAVE_BUFFER }
        (((SPA_STATUS_HAVE_BUFFER.toNat ||| SPA_STATUS_NEED_BUFFER.toNat : Nat) : Int),
          { this with in_ports := st.in_ports,
                      out_ports := { dq.2 with buffers := Function.update dq.2.buffers k r.1,
                                               io := some outio },
                      empty := r.2 })

/-! ## Vocabulary of the statements -/

/-- The port after the scan has acknowledged its buffer: the status of its IO
region is "need buffer". -/
def consumed (pt : port) : port :=
  match pt.io with
  | none => pt
  | some inio => { pt with io := some { inio with status := SPA_STATUS_NEED_BUFFER } }

/-- The slot the IO region of a port names. -/
def named_buffer (pt : port) : buffer :=
  match pt.io with
  | none => buffer.zero
  | some inio => pt.buffers inio.buffer_id

/-- The ids below `n` of the input ports that are ready, ascending. -/
def ready_ids (in_ports : Nat → port) (n : Nat) : List Nat :=
  (List.range n).filter (fun i => input_ready (in_ports i))

/-- The slots the ready input ports below `n` deliver, in ascending port id. -/
def ready_buffers (in_ports : Nat → port) (n : Nat) : List buffer :=
  (ready_ids in_ports n).map (fun i => named_buffer (in_ports i))

/-- The chunk size in bytes of the first data block of a slot's buffer. -/
def chunk_size (b : buffer) : Nat := b.buffer.datas0.chunk.size

/-- The status field of an optional IO region. -/
def io_status (io : Option spa_io_buffers) : Option Int := io.map (fun x => x.status)

/-! ## Scenarios -/

/-- A host buffer with one plain-memory data block at address `addr` whose
chunk carries `size` bytes. -/
def host_buffer (addr size : Nat) : spa_buffer :=
  { id := 0, header := none, n_datas := 1,
    datas := [{ type := .MemPtr, maxsize := 4096, data := .host addr, chunk := ⟨0, size, 4⟩ }] }

/-- The proposal float / non-interleaved / 48000 Hz / 1 channel, accepted by
both parsers. -/
def f32_mono : spa_pod_format :=
  { parse_res := 0, media_type := .audio, media_subtype := .raw, raw_res := 0,
    raw := { format := .F32, layout := 1, rate := 48000, channels := 1 } }

/-- Host sample memory holding zeros everywhere. -/
def silent_host : Nat → Nat → ℚ := fun _ _ => 0

/-- A node with one input port and a one-buffer output pool, after a first
successful cycle whose output buffer the host still holds: the host has reset
the output IO region (status "need buffer", no buffer id) without returning the
buffer, and has handed a new buffer to the input port. -/
def held_output_state : impl ℚ :=
  let s := (impl_node_add_port impl_init .INPUT 0).2
  let s := (impl_node_port_set_param s .INPUT 0 .Format 0 (some f32_mono)).2
  let s := (impl_node_port_set_param s .OUTPUT 0 .Format 0 (some f32_mono)).2
  let s := (impl_node_port_use_buffers s .INPUT 0 [host_buffer 1 16]).2
  let s := (impl_node_port_use_buffers s .OUTPUT 0 [host_buffer 2 0]).2
  let s := (impl_node_port_set_io s .INPUT 0 .Buffers (some ⟨SPA_STATUS_HAVE_BUFFER, 0⟩) none).2
  let s := (impl_node_port_set_io s .OUTPUT 0 .Buffers
    (some ⟨SPA_STATUS_NEED_BUFFER, SPA_ID_INVALID⟩) none).2
  let s := (impl_node_process false silent_host s).2
  let s := (impl_node_port_set_io s .INPUT 0 .Buffers (some ⟨SPA_STATUS_HAVE_BUFFER, 0⟩) none).2
  (impl_node_port_set_io s .OUTPUT 0 .Buffers (some ⟨SPA_STATUS_NEED_BUFFER, SPA_ID_INVALID⟩) none).2

/-- A host buffer whose data block has a null data pointer. -/
def null_data_buffer : spa_buffer :=
  { id := 0, header := none, n_datas := 1,
    datas := [{ type := .MemPtr, maxsize := 4096, data := .null, chunk := ⟨0, 0, 0⟩ }] }

/-- A node whose output port holds a format and one installed buffer, queued
as free. -/
def installed_output_state : impl ℚ :=
  let s := (impl_node_port_set_param impl_init .OUTPUT 0 .Format 0 (some f32_mono)).2
  (impl_node_port_use_buffers s .OUTPUT 0 [host_buffer 2 0]).2

/-- The proposal float / non-interleaved / 44100 Hz / 1 channel. -/
def f32_mono_44100 : spa_pod_format :=
  { f32_mono with raw := { f32_mono.raw with rate := 44100 } }

/-- A node with input port 0 added, whose output port has established the
format `f32_mono`. -/
def negotiated_state : impl ℚ :=
  let s := (impl_node_add_port impl_init .INPUT 0).2
  (impl_node_port_set_param s .OUTPUT 0 .Format 0 (some f32_mono)).2

/-- The memory after `dst[j] = src1[j] + src2[j]` for `lo <= j < hi`, every
sum taken from the memory before. -/
def mixed {α : Type} [Add α] (m : Mem α) (dst src1 src2 : DataPtr) (lo hi : Nat) : Mem α :=
  fun q j => if q = dst ∧ lo ≤ j ∧ j < hi then m src1 j + m src2 j else m q j

/-- The value of `maxsize` when a cycle reaches the output stage; `outio` is
the content of the output IO region on entry. -/
def cycle_maxsize {α : Type} (this : impl α) (outio : spa_io_buffers) : Nat :=
  (scan_inputs this (recycle this.out_ports outio).1).maxsize

/-- The value of `n_samples` of a cycle: `maxsize / sizeof(float)`. -/
def cycle_n_samples {α : Type} (this : impl α) (outio : spa_io_buffers) : Nat :=
  cycle_maxsize this outio / sizeof_float

/-- The inputs of a cycle: the slots delivered by the ready input ports, in
ascending port id. -/
def cycle_inputs {α : Type} (this : impl α) : List buffer :=
  ready_buffers this.in_ports this.last_port.toNat

/-- Sample `i` of the first data block of a slot's buffer. -/
def input_sample {α : Type} [Zero α] (hostmem : Nat → Nat → α) (empty : Nat → α)
    (b : buffer) (i : Nat) : α :=
  node_mem hostmem empty b.buffer.datas0.data i

/-- The sum of a list of samples taken from the left: `((x0 + x1) + x2) + ...`. -/
def sum_left {α : Type} [Add α] [Zero α] : List α → α
  | [] => 0
  | x :: xs => xs.foldl (fun acc y => acc + y) x

/-- The data pointer names a block of host memory. -/
def DataPtr.is_host : DataPtr → Bool
  | .host _ => true
  | _ => false

/-- Host sample memory of the concrete scenario: block 1 holds
`[1.0, 2.0, 3.0, 4.0]`, block 2 holds `[0.5, 0.5, 0.5, 0.5]`. -/
def scenario_host : Nat → Nat → ℚ := fun a i =>
  if a = 1 then (i : ℚ) + 1 else if a = 2 then 1 / 2 else 0

/-- The concrete scenario of the specification: format float / non-interleaved
/ 48000 Hz / 1 channel on every port, three buffers installed on the output
port, input ports 0 and 1 each delivering a 4-sample buffer (blocks 1 and 2 of
`scenario_host`). -/
def two_inputs_state : impl ℚ :=
  let s := (impl_node_add_port impl_init .INPUT 0).2
  let s := (impl_node_add_port s .INPUT 1).2
  let s := (impl_node_port_set_param s .INPUT 0 .Format 0 (some f32_mono)).2
  let s := (impl_node_port_set_param s .INPUT 1 .Format 0 (some f32_mono)).2
  let s := (impl_node_port_set_param s .OUTPUT 0 .Format 0 (some f32_mono)).2
  let s := (impl_node_port_use_buffers s .INPUT 0
    [host_buffer 1 16, host_buffer 3 16, host_buffer 5 16]).2
  let s := (impl_node_port_use_buffers s .INPUT 1
    [host_buffer 2 16, host_buffer 4 16, host_buffer 6 16]).2
  let s := (impl_node_port_use_buffers s .OUTPUT 0
    [host_buffer 10 0, host_buffer 11 0, host_buffer 12 0]).2
  let s := (impl_node_port_set_io s .INPUT 0 .Buffers (some ⟨SPA_STATUS_HAVE_BUFFER, 0⟩) none).2
  let s := (impl_node_port_set_io s .INPUT 1 .Buffers (some ⟨SPA_STATUS_HAVE_BUFFER, 0⟩) none).2
  (impl_node_port_set_io s .OUTPUT 0 .Buffers (some ⟨SPA_STATUS_NEED_BUFFER, SPA_ID_INVALID⟩) none).2

/-- A node with one input port delivering buffer 0 (host block 1, 16 bytes) and
a one-buffer output pool whose buffer is free. -/
def one_input_state : impl ℚ :=
  let s := (impl_node_add_port impl_init .INPUT 0).2
  let s := (impl_node_port_set_param s .INPUT 0 .Format 0 (some f32_mono)).2
  let s := (impl_node_port_set_param s .OUTPUT 0 .Format 0 (some f32_mono)).2
  let s := (impl_node_port_use_buffers s .INPUT 0 [host_buffer 1 16]).2
  let s := (impl_node_port_use_buffers s .OUTPUT 0 [host_buffer 2 0]).2
  let s := (impl_node_port_set_io s .INPUT 0 .Buffers (some ⟨SPA_STATUS_HAVE_BUFFER, 0⟩) none).2
  (impl_node_port_set_io s .OUTPUT 0 .Buffers (some ⟨SPA_STATUS_NEED_BUFFER, SPA_ID_INVALID⟩) none).2

/-- A node without input ports, with a two-buffer output pool and a range hint
of 40 bytes bound to the output port. -/
def no_input_state : impl ℚ :=
  let s := (impl_node_port_set_param impl_init .OUTPUT 0 .Format 0 (some f32_mono)).2
  let s := (impl_node_port_use_buffers s .OUTPUT 0 [host_buffer 2 0, host_buffer 3 0]).2
  let s := (impl_node_port_set_io s .OUTPUT 0 .Range none (some ⟨0, 0, 40⟩)).2
  (impl_node_port_set_io s .OUTPUT 0 .Buffers (some ⟨SPA_STATUS_NEED_BUFFER, SPA_ID_INVALID⟩) none).2

/-! ## Reachable states -/

/-- The states of the node a host can bring about: the node after `impl_init`,
followed by any calls of the node's methods (with at most `MAX_BUFFERS` buffers
per installed set, so that every slot written exists), and by the host writing
to the memory it shares with the node: the content of a bound IO region, of a
bound range hint, or of the buffer descriptor a slot of an existing port
points at. -/
inductive Reachable {α : Type} [Add α] [Zero α] : impl α → Prop where
  | init : Reachable impl_init
  | send_command (s : impl α) (c : spa_node_command) :
      Reachable s → Reachable (impl_node_send_command s c).2
  | add_port (s : impl α) (d : spa_direction) (p : Nat) :
      Reachable s → Reachable (impl_node_add_port s d p).2
  | remove_port (s : impl α) (d : spa_direction) (p : Nat) :
      Reachable s → Reachable (impl_node_remove_port s d p).2
  | port_set_param (s : impl α) (d : spa_direction) (p : Nat) (id : spa_param_type)
      (flags : Nat) (param : Option spa_pod_format) :
      Reachable s → Reachable (impl_node_port_set_param s d p id flags param).2
  | port_use_buffers (s : impl α) (d : spa_direction) (p : Nat) (buffers : List spa_buffer) :
      buffers.length ≤ MAX_BUFFERS →
      Reachable s → Reachable (impl_node_port_use_buffers s d p buffers).2
  | port_set_io (s : impl α) (d : spa_direction) (p : Nat) (id : spa_io_type)
      (data_buffers : Option spa_io_buffers) (data_range : Option spa_io_range) :
      Reachable s → Reachable (impl_node_port_set_io s d p id data_buffers data_range).2
  | port_reuse_buffer (s : impl α) (p : Nat) (buffer_id : Nat) :
      Reachable s → Reachable (impl_node_port_reuse_buffer s p buffer_id).2
  | process (s : impl α) (sse : Bool) (hostmem : Nat → Nat → α) :
      Reachable s → Reachable (impl_node_process sse hostmem s).2
  | host_io (s : impl α) (d : spa_direction) (p : Nat) (io : spa_io_buffers) :
      CHECK_PORT s d p = true → (GET_PORT s d p).io ≠ none →
      Reachable s → Reachable (SET_PORT s d p { GET_PORT s d p with io := some io })
  | host_range (s : impl α) (d : spa_direction) (p : Nat) (range : spa_io_range) :
      CHECK_PORT s d p = true → (GET_PORT s d p).range ≠ none →
      Reachable s → Reachable (SET_PORT s d p { GET_PORT s d p with range := some range })
  | host_buffer (s : impl α) (d : spa_direction) (p : Nat) (k : Nat) (sb : spa_buffer) :
      CHECK_PORT s d p = true →
      Reachable s →
      Reachable (SET_PORT s d p { GET_PORT s d p with
        buffers := Function.update (GET_PORT s d p).buffers k
          { (GET_PORT s d p).buffers k with buffer := sb } })

/-- The invariant of the port table: a free input slot is zeroed, and
`last_port` is one more than the largest valid input port id (0 without any). -/
def port_table_inv {α : Type} (s : impl α) : Prop :=
  (∀ i, (s.in_ports i).valid = false → s.in_ports i = port.zero) ∧
  0 ≤ s.last_port ∧ s.last_port ≤ (MAX_PORTS : Int) ∧
  (∀ i, (s.in_ports i).valid = true → (i : Int) < s.last_port) ∧
  (0 < s.last_port → (s.in_ports (s.last_port - 1).toNat).valid = true)

/-- The operation from `s` to `t` neither adds nor removes an input port: the
watermark is kept, and every input slot is either untouched or was and stays
valid. -/
def same_port_table {α : Type} (s t : impl α) : Prop :=
  t.last_port = s.last_port ∧
  ∀ i, t.in_ports i = s.in_ports i ∨
    ((s.in_ports i).valid = true ∧ (t.in_ports i).valid = true)

/-! ## Vocabulary of the queue statements -/

/-- The slot has its `BUFFER_FLAG_QUEUED` flag set. -/
def is_queued (b : buffer) : Bool := SPA_FLAG_CHECK b.flags BUFFER_FLAG_QUEUED

/-- A node whose output port holds the format `f32_mono` and has no buffers
installed. -/
def output_format_state : impl ℚ :=
  (impl_node_port_set_param impl_init .OUTPUT 0 .Format 0 (some f32_mono)).2

/-- A set of 65 valid host buffers, one more than `MAX_BUFFERS`. -/
def oversized_set : List spa_buffer := List.replicate 65 (host_buffer 7 0)

/-- The slot `j` after a successful pass of the loop of
`impl_node_port_use_buffers` over it: it points at the supplied buffer `sb`,
carries id `j`, and is flagged queued exactly on an output port. -/
def installed_slot (direction : spa_direction) (old : buffer) (sb : spa_buffer) (j : Nat) :
    buffer :=
  { old with
    buffer := sb
    flags := if direction = .OUTPUT then SPA_FLAG_SET 0 BUFFER_FLAG_QUEUED else 0
    id := j
    h := sb.header }

/-- A node whose output port holds a format, after an installation of two
buffers that was rejected because the second one has a null data pointer. -/
def failed_install_state : impl ℚ :=
  (impl_node_port_use_buffers output_format_state .OUTPUT 0
    [host_buffer 2 0, null_data_buffer]).2

/-- The consistency of a port's buffer pool: no slot is linked twice in the
free queue, only installed slots (index below `n_buffers`) are linked, and an
installed slot is linked exactly when its QUEUED flag is set. -/
def pool_inv (pt : port) : Prop :=
  pt.queue.Nodup ∧
  (∀ k ∈ pt.queue, k < pt.n_buffers) ∧
  (∀ k, k < pt.n_buffers → (k ∈ pt.queue ↔ is_queued (pt.buffers k) = true))

/-- The port `b` has the queue, the installed count and the slot flags of the
port `a`. -/
def same_pool (a b : port) : Prop :=
  b.queue = a.queue ∧ b.n_buffers = a.n_buffers ∧
  ∀ k, (b.buffers k).flags = (a.buffers k).flags

/-- The pool consistency of every port of the node. -/
def queue_inv {α : Type} (s : impl α) : Prop :=
  pool_inv s.out_ports ∧ ∀ i, pool_inv (s.in_ports i)

/-- The states of `Reachable` that are reached without any rejected buffer:
as `Reachable`, but every buffer handed to `impl_node_port_use_buffers` has
a recognised memory kind and a data pointer that is not null. -/
inductive CleanReachable {α : Type} [Add α] [Zero α] : impl α → Prop where
  | init : CleanReachable impl_init
  | send_command (s : impl α) (c : spa_node_command) :
      CleanReachable s → CleanReachable (impl_node_send_command s c).2
  | add_port (s : impl α) (d : spa_direction) (p : Nat) :
      CleanReachable s → CleanReachable (impl_node_add_port s d p).2
  | remove_port (s : impl α) (d : spa_direction) (p : Nat) :
      CleanReachable s → CleanReachable (impl_node_remove_port s d p).2
  | port_set_param (s : impl α) (d : spa_direction) (p : Nat) (id : spa_param_type)
      (flags : Nat) (param : Option spa_pod_format) :
      CleanReachable s → CleanReachable (impl_node_port_set_param s d p id flags param).2
  | port_use_buffers (s : impl α) (d : spa_direction) (p : Nat) (buffers : List spa_buffer) :
      buffers.length ≤ MAX_BUFFERS →
      (∀ b ∈ buffers, data_ok b.datas0 = true) →
      CleanReachable s → CleanReachable (impl_node_port_use_buffers s d p buffers).2
  | port_set_io (s : impl α) (d : spa_direction) (p : Nat) (id : spa_io_type)
      (data_buffers : Option spa_io_buffers) (data_range : Option spa_io_range) :
      CleanReachable s →
      CleanReachable (impl_node_port_set_io s d p id data_buffers data_range).2
  | port_reuse_buffer (s : impl α) (p : Nat) (buffer_id : Nat) :
      CleanReachable s → CleanReachable (impl_node_port_reuse_buffer s p buffer_id).2
  | process (s : impl α) (sse : Bool) (hostmem : Nat → Nat → α) :
      CleanReachable s → CleanReachable (impl_node_process sse hostmem s).2
  | host_io (s : impl α) (d : spa_direction) (p : Nat) (io : spa_io_buffers) :
      CHECK_PORT s d p = true → (GET_PORT s d p).io ≠ none →
      CleanReachable s → CleanReachable (SET_PORT s d p { GET_PORT s d p with io := some io })
  | host_range (s : impl α) (d : spa_direction) (p : Nat) (range : spa_io_range) :
      CHECK_PORT s d p = true → (GET_PORT s d p).range ≠ none →
      CleanReachable s →
      CleanReachable (SET_PORT s d p { GET_PORT s d p with range := some range })
  | host_buffer (s : impl α) (d : spa_direction) (p : Nat) (k : Nat) (sb : spa_buffer) :
      CHECK_PORT s d p = true →
      CleanReachable s →
      CleanReachable (SET_PORT s d p { GET_PORT s d p with
        buffers := Function.update (GET_PORT s d p).buffers k
          { (GET_PORT s d p).buffers k with buffer := sb } })

/-- A node whose output port has had three buffers installed and then a new
set of one buffer. -/
def reinstalled_state : impl ℚ :=
  let s := (impl_node_port_use_buffers output_format_state .OUTPUT 0
    [host_buffer 2 0, host_buffer 3 0, host_buffer 4 0]).2
  (impl_node_port_use_buffers s .OUTPUT 0 [host_buffer 5 0]).2

/-- The node `failed_install_state` after a further installation, of one valid
buffer, on its output port. -/
def relinked_state : impl ℚ :=
  (impl_node_port_use_buffers failed_install_state .OUTPUT 0 [host_buffer 3 0]).2

/-! ## Runs of cycles -/

/-- The host's action on the output side between two cycles of a recycling run:
it resets the status of the output IO region to "need buffer" and leaves the
buffer id the cycle delivered in place. -/
def host_reset_output {α : Type} (s : impl α) : impl α :=
  { s with out_ports := { s.out_ports with
      io := s.out_ports.io.map (fun io => { io with status := SPA_STATUS_NEED_BUFFER }) } }

/-- What the host supplies on the input side before a cycle: its sample memory
and any state of the input ports. -/
structure host_feed (α : Type) where
  hostmem : Nat → Nat → α
  in_ports : Nat → port
  last_port : Int

/-- One cycle on the node `s` with the input side supplied by the host. -/
def fed_cycle {α : Type} [Add α] [Zero α] (sse : Bool) (s : impl α) (f : host_feed α) :
    Int × impl α :=
  impl_node_process sse f.hostmem { s with in_ports := f.in_ports, last_port := f.last_port }

/-- A recycling run: for each feed in turn, one cycle followed by the host's
reset of the output IO status. -/
def recycling_run {α : Type} [Add α] [Zero α] (sse : Bool) : List (host_feed α) → impl α → impl α
  | [], s => s
  | f :: fs, s => recycling_run sse fs (host_reset_output (fed_cycle sse s f).2)

/-- The output side during a recycling run: the IO region is bound with a status
other than "have buffer", at least one buffer is installed, every installed slot
carries its index as id, the pool is consistent, and every installed slot is
either in the free queue or the one the IO region names. -/
def recycling_inv {α : Type} (s : impl α) : Prop :=
  ∃ outio, s.out_ports.io = some outio ∧ outio.status ≠ SPA_STATUS_HAVE_BUFFER ∧
    1 ≤ s.out_ports.n_buffers ∧
    (∀ k, k < s.out_ports.n_buffers → (s.out_ports.buffers k).id = k) ∧
    pool_inv s.out_ports ∧
    (∀ k, k < s.out_ports.n_buffers → k ∈ s.out_ports.queue ∨ k = outio.buffer_id)

/-- A node with a one-buffer output pool, all of it free, and the output IO
region bound. -/
def single_buffer_state : impl ℚ :=
  (impl_node_port_set_io installed_output_state .OUTPUT 0 .Buffers
    (some ⟨SPA_STATUS_NEED_BUFFER, SPA_ID_INVALID⟩) none).2

/-- A feed with silent host memory and no input port. -/
def silent_feed : host_feed ℚ :=
  { hostmem := silent_host, in_ports := fun _ => port.zero, last_port := 0 }

/-! ## Port ids -/

/-- The loop of `impl_node_get_port_ids`, with `fuel` iterations left:
`for (i = 0, idx = 0; i < this->last_port && idx < n_input_ids; i++)`.
The caller's array `input_ids` is a function on indices; the result is the
final `idx` and the array.  (The loop ends after at most `last_port`
iterations, which is the fuel `impl_node_get_port_ids` gives it.) -/
def get_port_ids_loop (in_ports : Nat → port) (last_port : Int) (n_input_ids : Nat) :
    Nat → Nat → Nat → (Nat → Nat) → Nat × (Nat → Nat)
  | 0, _, idx, input_ids => (idx, input_ids)
  | fuel + 1, i, idx, input_ids =>
    if (i : Int) < last_port ∧ idx < n_input_ids then
      if (in_ports i).valid then
        get_port_ids_loop in_ports last_port n_input_ids fuel (i + 1) (idx + 1)
          (Function.update input_ids idx i)
      else get_port_ids_loop in_ports last_port n_input_ids fuel (i + 1) idx input_ids
    else (idx, input_ids)

/-- The function `impl_node_get_port_ids`.  `input_ids` and `output_ids` are
the caller's arrays (`none` for `NULL`), given with their capacities; the
result carries the arrays after the call. -/
def impl_node_get_port_ids {α : Type} (this : impl α) (input_ids : Option (Nat → Nat))
    (n_input_ids : Nat) (output_ids : Option (Nat → Nat)) (n_output_ids : Nat) :
    Int × Option (Nat → Nat) × Option (Nat → Nat) :=
  let input_ids := match input_ids with
    | some ids =>
      some (get_port_ids_loop this.in_ports this.last_port n_input_ids
        this.last_port.toNat 0 0 ids).2
    | none => none
  let output_ids := match output_ids with
    | some ids => if n_output_ids > 0 then some (Function.update ids 0 0) else some ids
    | none => none
  (0, input_ids, output_ids)

/-- The array `ids` with the elements of `l` written from index `start` on. -/
def write_list (ids : Nat → Nat) (start : Nat) (l : List Nat) : Nat → Nat :=
  fun j => if start ≤ j ∧ j < start + l.length then l.getD (j - start) 0 else ids j

/-- The ids of the valid input ports, ascending. -/
def valid_input_ids {α : Type} (s : impl α) : List Nat :=
  (List.range MAX_PORTS).filter (fun i => (s.in_ports i).valid)

/-- A node with the input ports 3 and 1. -/
def sparse_ports_state : impl ℚ :=
  (impl_node_add_port (impl_node_add_port impl_init .INPUT 3).2 .INPUT 1).2

/-! ## Capability enumeration -/

/-- The negotiable object a pass of `impl_node_port_enum_params` builds with
`spa_pod_builder_object`, by category: an entry of the parameter list; the
format enumeration (the node format when one is established, else the default
proposal); the format of the port; the buffer geometry for the node stride; the
header metadata; an IO region kind. -/
inductive param_object where
  | param_list (id : spa_param_type)
  | enum_format (raw : spa_audio_info_raw)
  | enum_format_default
  | format (raw : spa_audio_info_raw)
  | buffers (stride : Nat)
  | meta_header
  | io_region (kind : spa_io_type)
  deriving DecidableEq, Repr

/-- What the `switch (id)` of one pass does: it returns from the function with
`res`, or it leaves a candidate in `param`. -/
inductive build_step where
  | ret (res : Int)
  | candidate (param : param_object)
  deriving DecidableEq, Repr

/-- The function `port_enum_formats`, as used by its caller: a result `<= 0`
is returned at once. -/
def port_enum_formats {α : Type} (this : impl α) (index : Nat) : build_step :=
  match index with
  | 0 =>
    if this.have_format then .candidate (.enum_format this.format.raw)
    else .candidate .enum_format_default
  | _ => .ret 0

/-- The function `port_get_format`, as used by its caller. -/
def port_get_format {α : Type} (this : impl α) (pt : port) (index : Nat) : build_step :=
  if !pt.have_format then .ret (-EIO_)
  else if index > 0 then .ret 0
  else .candidate (.format this.format.raw)

/-- The `switch (id)` of `impl_node_port_enum_params` for the cursor value
`index`. -/
def build_param {α : Type} (this : impl α) (pt : port) (id : spa_param_type) (index : Nat) :
    build_step :=
  match id with
  | .ParamList =>
    match [spa_param_type.EnumFormat, .Format, .Buffers, .Meta, .ParamIo][index]? with
    | some entry => .candidate (.param_list entry)
    | none => .ret 0
  | .EnumFormat => port_enum_formats this index
  | .Format => port_get_format this pt index
  | .Buffers =>
    if !pt.have_format then .ret (-EIO_)
    else if index > 0 then .ret 0
    else .candidate (.buffers this.stride)
  | .Meta =>
    if !pt.have_format then .ret (-EIO_)
    else
      match index with
      | 0 => .candidate .meta_header
      | _ => .ret 0
  | .ParamIo =>
    match index with
    | 0 => .candidate (.io_region .Buffers)
    | 1 => .candidate (.io_region .Range)
    | 2 => .candidate (.io_region .Control)
    | _ => .ret 0
  | .other _ => .ret (-ENOENT)

/-- The passes of `impl_node_port_enum_params` from the label `next` on, with
`fuel` passes allowed (`none` when they do not suffice).  `filter_res` gives
the return value of `spa_pod_filter` on a candidate, for the caller's filter.
The result is the return value, the cursor `*index` and the candidate handed to
`*result`. -/
def enum_params_next {α : Type} (filter_res : param_object → Int) (this : impl α) (pt : port)
    (id : spa_param_type) : Nat → Nat → Option (Int × Nat × Option param_object)
  | 0, _ => none
  | fuel + 1, index =>
    match build_param this pt id index with
    | .ret res => some (res, index, none)
    | .candidate param =>
      if filter_res param < 0 then enum_params_next filter_res this pt id fuel (index + 1)
      else some (1, index + 1, some param)

/-- The function `impl_node_port_enum_params`, with `fuel` passes allowed. -/
def impl_node_port_enum_params {α : Type} (this : impl α) (direction : spa_direction)
    (port_id : Nat) (id : spa_param_type) (index : Nat) (filter_res : param_object → Int)
    (fuel : Nat) : Option (Int × Nat × Option param_object) :=
  if CHECK_PORT this direction port_id then
    enum_params_next filter_res this (GET_PORT this direction port_id) id fuel index
  else some (-EINVAL, index, none)

/-- The length of the list a parameter category enumerates, for a port that
holds a format: 5 for the list, 3 for IO, 1 for the others. -/
def params_end (id : spa_param_type) : Nat :=
  match id with
  | .ParamList => 5
  | .ParamIo => 3
  | .other _ => 0
  | _ => 1

/-- A filter that rejects the first entry of the parameter list and accepts
everything else. -/
def reject_first_entry : param_object → Int
  | .param_list .EnumFormat => -1
  | _ => 0

/-- A filter that accepts every candidate. -/
def accept_all : param_object → Int := fun _ => 0

/-! ## The format reference count -/

/-- The number of ports that hold the format: the output port and the input
slots below `MAX_PORTS` whose `have_format` flag is set. -/
def format_count {α : Type} (s : impl α) : Nat :=
  s.out_ports.have_format.toNat +
    (List.range MAX_PORTS).countP (fun i => (s.in_ports i).have_format)

/-- The invariant of the format reference count: `n_formats` counts the ports
that hold the format, and the node has a format exactly when it is positive. -/
def format_inv {α : Type} (s : impl α) : Prop :=
  s.n_formats = (format_count s : Int) ∧ (s.have_format = true ↔ 0 < s.n_formats)

/-- The operation from `s` to `t` leaves the format state alone: the count, the
node flag and the flag of every port. -/
def same_formats {α : Type} (s t : impl α) : Prop :=
  t.n_formats = s.n_formats ∧ t.have_format = s.have_format ∧
  t.out_ports.have_format = s.out_ports.have_format ∧
  ∀ i, (t.in_ports i).have_format = (s.in_ports i).have_format

/-- Both parsers accept the proposal as raw audio. -/
def parses_as_raw_audio (f : spa_pod_format) : Prop :=
  0 ≤ f.parse_res ∧ f.media_type = .audio ∧ f.media_subtype = .raw ∧ 0 ≤ f.raw_res

/-- The `struct spa_audio_info` the parsers fill in for an accepted proposal. -/
def parsed_info (f : spa_pod_format) : spa_audio_info :=
  ⟨f.media_type, f.media_subtype, f.raw⟩

/-- A node with the input ports 0 and 1 and no format. -/
def two_ports_state : impl ℚ :=
  (impl_node_add_port (impl_node_add_port impl_init .INPUT 0).2 .INPUT 1).2

/-- The number of ports whose `have_format` flag is set, counted over the
output port and the valid input ports. -/
def format_holders {α : Type} (s : impl α) : Nat :=
  s.out_ports.have_format.toNat +
    (List.range MAX_PORTS).countP
      (fun i => (s.in_ports i).valid && (s.in_ports i).have_format)

/-- The invariant of the port counter: `port_count` is the number of valid
input ports. -/
def port_count_inv {α : Type} (s : impl α) : Prop :=
  s.port_count = ((valid_input_ids s).length : Int)

/-- The ids that `impl_node_get_port_ids` has written to the caller's input
array of capacity `n_input_ids`: the entries below the final `idx` of its loop.
The loop body writes the id of every valid port it gets to, so these are the
valid input ports the scan has visited. -/
def reported_input_ids {α : Type} (s : impl α) (n_input_ids : Nat) : List Nat :=
  let r := get_port_ids_loop s.in_ports s.last_port n_input_ids s.last_port.toNat 0 0
    (fun _ => 0)
  (List.range r.1).map r.2

/-- A host buffer whose data block is the scratch array of the node (the block
the node publishes in the output buffer of a mixing cycle), with a chunk of
`size` bytes. -/
def scratch_buffer (size : Nat) : spa_buffer :=
  { id := 0, header := none, n_datas := 1,
    datas := [{ type := .MemPtr, maxsize := 4096, data := .scratch, chunk := ⟨0, size, 4⟩ }] }

/-- The concrete scenario of the specification with a third input port, whose
buffer has the scratch array of the node as its data block: input ports 0 and 1
deliver blocks 1 and 2 of `scenario_host`, input port 2 delivers the scratch
array (all zeros after `impl_init`), one buffer is installed on the output
port. -/
def scratch_input_state : impl ℚ :=
  let s := (impl_node_add_port impl_init .INPUT 0).2
  let s := (impl_node_add_port s .INPUT 1).2
  let s := (impl_node_add_port s .INPUT 2).2
  let s := (impl_node_port_set_param s .INPUT 0 .Format 0 (some f32_mono)).2
  let s := (impl_node_port_set_param s .INPUT 1 .Format 0 (some f32_mono)).2
  let s := (impl_node_port_set_param s .INPUT 2 .Format 0 (some f32_mono)).2
  let s := (impl_node_port_set_param s .OUTPUT 0 .Format 0 (some f32_mono)).2
  let s := (impl_node_port_use_buffers s .INPUT 0 [host_buffer 1 16]).2
  let s := (impl_node_port_use_buffers s .INPUT 1 [host_buffer 2 16]).2
  let s := (impl_node_port_use_buffers s .INPUT 2 [scratch_buffer 16]).2
  let s := (impl_node_port_use_buffers s .OUTPUT 0 [host_buffer 10 0]).2
  let s := (impl_node_port_set_io s .INPUT 0 .Buffers (some ⟨SPA_STATUS_HAVE_BUFFER, 0⟩) none).2
  let s := (impl_node_port_set_io s .INPUT 1 .Buffers (some ⟨SPA_STATUS_HAVE_BUFFER, 0⟩) none).2
  let s := (impl_node_port_set_io s .INPUT 2 .Buffers (some ⟨SPA_STATUS_HAVE_BUFFER, 0⟩) none).2
  (impl_node_port_set_io s .OUTPUT 0 .Buffers (some ⟨SPA_STATUS_NEED_BUFFER, SPA_ID_INVALID⟩) none).2

/-! # Theorems -/

/-! ## The input scan -/

theorem scan_input_eq (st : scan_state) (i : Nat) :
    scan_input st i =
      if input_ready (st.in_ports i) then
        { in_ports := Function.update st.in_ports i (consumed (st.in_ports i))
          buffers := st.buffers ++ [named_buffer (st.in_ports i)]
          maxsize := min (chunk_size (named_buffer (st.in_ports i))) st.maxsize }
      else st := by
  unfold scan_input input_ready consumed named_buffer chunk_size
  cases hv : (st.in_ports i).valid
  · cases hio : (st.in_ports i).io <;> simp [hv, hio]
  · cases hio : (st.in_ports i).io with
    | none => simp [hv, hio]
    | some inio =>
      by_cases h1 : inio.buffer_id < (st.in_ports i).n_buffers <;>
        by_cases h2 : inio.status = SPA_STATUS_HAVE_BUFFER <;> simp [hv, hio, h1, h2]

/-- The input scan over the ports below `n`, in closed form. -/
theorem scan_fold (p0 : Nat → port) (m0 : Nat) (n : Nat) :
    (List.range n).foldl scan_input { in_ports := p0, buffers := [], maxsize := m0 } =
      { in_ports := fun j => if j < n ∧ input_ready (p0 j) = true then consumed (p0 j) else p0 j
        buffers := ready_buffers p0 n
        maxsize := ((ready_buffers p0 n).map chunk_size).foldl (fun acc c => min c acc) m0 } := by
  induction n with
  | zero => simp [ready_buffers, ready_ids]
  | succ n ih =>
    rw [List.range_succ, List.foldl_append, ih]
    simp only [List.foldl_cons, List.foldl_nil]
    rw [scan_input_eq]
    simp only [lt_self_iff_false, false_and, if_false]
    by_cases hr : input_ready (p0 n) = true
    · rw [if_pos hr]
      congr 1
      · funext j
        by_cases hj : j = n
        · subst hj; simp [hr]
        · simp only [Function.update_noteq hj]
          have : (j < n + 1) = (j < n) := by
            apply propext; constructor <;> intro h <;> omega
          simp [this]
      · simp [ready_buffers, ready_ids, List.range_succ, List.filter_append, hr]
      · simp [ready_buffers, ready_ids, List.range_succ, List.filter_append, hr,
          List.foldl_append]
    · rw [if_neg hr]
      congr 1
      · funext j
        by_cases hj : j = n
        · subst hj; simp [hr]
        · have : (j < n + 1) = (j < n) := by
            apply propext; constructor <;> intro h <;> omega
          simp [this]
      · simp [ready_buffers, ready_ids, List.range_succ, List.filter_append, hr]
      · simp [ready_buffers, ready_ids, List.range_succ, List.filter_append, hr]

theorem scan_inputs_eq {α : Type} (this : impl α) (outport : port) :
    scan_inputs this outport =
      { in_ports := fun j =>
          if j < this.last_port.toNat ∧ input_ready (this.in_ports j) = true
          then consumed (this.in_ports j) else this.in_ports j
        buffers := ready_buffers this.in_ports this.last_port.toNat
        maxsize := ((ready_buffers this.in_ports this.last_port.toNat).map chunk_size).foldl
          (fun acc c => min c acc) (initial_maxsize outport) } := by
  unfold scan_inputs
  exact scan_fold _ _ _

theorem dequeue_buffer_nil (pt : port) (h : pt.queue = []) : dequeue_buffer pt = (none, pt) := by
  unfold dequeue_buffer
  rw [h]
  rfl

theorem consumed_status (pt : port) (h : input_ready pt = true) :
    io_status (consumed pt).io = some SPA_STATUS_NEED_BUFFER := by
  unfold input_ready at h
  unfold consumed io_status
  cases hio : pt.io with
  | none => simp [hio] at h
  | some inio => simp

/-! ## C1: back-pressure -/

/-- C1 (as amended): when the output IO region is bound with a status other
than "have buffer" and the free queue of the output port is empty after the
recycle step, `impl_node_process` returns `-EPIPE`; every ready input port
below the watermark has been consumed (its IO status is "need buffer"), and
every other input port is unchanged. -/
theorem process_backpressure {α : Type} [Add α] [Zero α] (sse : Bool)
    (hostmem : Nat → Nat → α) (this : impl α) (outio : spa_io_buffers)
    (hio : this.out_ports.io = some outio)
    (hst : outio.status ≠ SPA_STATUS_HAVE_BUFFER)
    (hq : (recycle this.out_ports outio).1.queue = []) :
    (impl_node_process sse hostmem this).1 = -EPIPE ∧
    (∀ i, i < this.last_port.toNat → input_ready (this.in_ports i) = true →
      io_status ((impl_node_process sse hostmem this).2.in_ports i).io
        = some SPA_STATUS_NEED_BUFFER) ∧
    (∀ i, ¬ (i < this.last_port.toNat ∧ input_ready (this.in_ports i) = true) →
      (impl_node_process sse hostmem this).2.in_ports i = this.in_ports i) := by
  have hp : impl_node_process sse hostmem this =
      (-EPIPE, { this with
        in_ports := (scan_inputs this (recycle this.out_ports outio).1).in_ports
        out_ports := { (recycle this.out_ports outio).1 with
          io := some (recycle this.out_ports outio).2 } }) := by
    unfold impl_node_process
    simp only [hio, if_neg hst, dequeue_buffer_nil _ hq]
  rw [hp, scan_inputs_eq]
  refine ⟨rfl, ?_, ?_⟩
  · intro i hi hr
    simp only [hi, hr, and_self, if_true]
    exact consumed_status _ hr
  · intro i hn
    simp only [if_neg hn]

/-- Witness of `process_backpressure`: the node whose single output buffer is
held by the host. -/
theorem process_backpressure_witness :
    (impl_node_process false silent_host held_output_state).1 = -EPIPE ∧
    (∀ i, i < held_output_state.last_port.toNat →
      input_ready (held_output_state.in_ports i) = true →
      io_status ((impl_node_process false silent_host held_output_state).2.in_ports i).io
        = some SPA_STATUS_NEED_BUFFER) ∧
    (∀ i, ¬ (i < held_output_state.last_port.toNat ∧
        input_ready (held_output_state.in_ports i) = true) →
      (impl_node_process false silent_host held_output_state).2.in_ports i
        = held_output_state.in_ports i) :=
  process_backpressure false silent_host held_output_state
    ⟨SPA_STATUS_NEED_BUFFER, SPA_ID_INVALID⟩ (by decide) (by decide) (by decide)

/-- C1 (as stated) fails: in `held_output_state` the output IO region is bound
with status "need buffer", input port 0 is ready and the free queue of the
output port is empty after the recycle step; the cycle returns `-EPIPE`, but the
IO status of input port 0 has gone from "have buffer" to "need buffer". -/
theorem process_backpressure_consumes_input :
    held_output_state.out_ports.io = some ⟨SPA_STATUS_NEED_BUFFER, SPA_ID_INVALID⟩ ∧
    (recycle held_output_state.out_ports ⟨SPA_STATUS_NEED_BUFFER, SPA_ID_INVALID⟩).1.queue = [] ∧
    input_ready (held_output_state.in_ports 0) = true ∧
    (impl_node_process false silent_host held_output_state).1 = -EPIPE ∧
    io_status (held_output_state.in_ports 0).io = some SPA_STATUS_HAVE_BUFFER ∧
    io_status ((impl_node_process false silent_host held_output_state).2.in_ports 0).io
      = some SPA_STATUS_NEED_BUFFER := by
  decide

/-! ## C2: errors of buffer installation -/

theorem queue_buffer_n_buffers (pt : port) (idx : Nat) :
    (queue_buffer pt idx).2.n_buffers = pt.n_buffers := by
  unfold queue_buffer
  dsimp only
  split <;> rfl

theorem use_buffers_loop_spec (direction : spa_direction) (buffers : List spa_buffer) :
    ∀ (i : Nat) (pt : port),
      (use_buffers_loop direction buffers i pt).2.n_buffers = pt.n_buffers ∧
      ((use_buffers_loop direction buffers i pt).1 = 0 ∨
        ((use_buffers_loop direction buffers i pt).1 = -EINVAL ∧
          ∃ b ∈ buffers, data_ok b.datas0 = false)) := by
  induction buffers with
  | nil => intro i pt; simp [use_buffers_loop]
  | cons sb rest ih =>
    intro i pt
    unfold use_buffers_loop
    by_cases hok : data_ok sb.datas0 = true
    · simp only [hok, Bool.not_true, Bool.false_eq_true, if_false]
      obtain ⟨h1, h2⟩ := ih (i + 1)
        (if direction = .OUTPUT then (queue_buffer (install_slot pt i sb) i).2
         else install_slot pt i sb)
      refine ⟨?_, ?_⟩
      · rw [h1]
        split
        · rw [queue_buffer_n_buffers]; rfl
        · rfl
      · rcases h2 with h2 | ⟨h2, b, hb, hbad⟩
        · exact Or.inl h2
        · exact Or.inr ⟨h2, b, List.mem_cons_of_mem _ hb, hbad⟩
    · have hbad : data_ok sb.datas0 = false := by
        cases h : data_ok sb.datas0
        · rfl
        · exact absurd h hok
      simp only [hbad, Bool.not_false, if_true]
      exact ⟨rfl, Or.inr ⟨trivial, sb, List.mem_cons_self _ _, hbad⟩⟩

theorem clear_buffers_n_buffers (pt : port) : (clear_buffers pt).n_buffers = 0 := by
  unfold clear_buffers
  split
  · rfl
  · omega

theorem GET_SET_PORT {α : Type} (this : impl α) (d : spa_direction) (p : Nat) (q : port) :
    GET_PORT (SET_PORT this d p q) d p = q := by
  cases d <;> simp [GET_PORT, SET_PORT]

/-- C2 (as amended): when `impl_node_port_use_buffers` returns an error, then
either the port check failed or the port has no format, and the node is exactly
what it was before the call; or some supplied buffer has an unrecognised memory
kind or a null data pointer, the error is `-EINVAL`, and the previously
installed set of the port has been discarded (its installed count is 0). -/
theorem use_buffers_error {α : Type} (this : impl α) (direction : spa_direction)
    (port_id : Nat) (buffers : List spa_buffer)
    (herr : (impl_node_port_use_buffers this direction port_id buffers).1 ≠ 0) :
    ((CHECK_PORT this direction port_id = false ∨
        (GET_PORT this direction port_id).have_format = false) ∧
      (impl_node_port_use_buffers this direction port_id buffers).2 = this) ∨
    (CHECK_PORT this direction port_id = true ∧
      (GET_PORT this direction port_id).have_format = true ∧
      (∃ b ∈ buffers, data_ok b.datas0 = false) ∧
      (impl_node_port_use_buffers this direction port_id buffers).1 = -EINVAL ∧
      (GET_PORT (impl_node_port_use_buffers this direction port_id buffers).2
        direction port_id).n_buffers = 0) := by
  unfold impl_node_port_use_buffers at herr ⊢
  cases hc : CHECK_PORT this direction port_id
  · left; simp
  · cases hf : (GET_PORT this direction port_id).have_format
    · left; simp [hf]
    · right
      simp only [hc, hf, if_true] at herr ⊢
      obtain ⟨hn, hres⟩ := use_buffers_loop_spec direction buffers 0
        (clear_buffers (GET_PORT this direction port_id))
      rcases hres with h0 | ⟨hE, hb⟩
      · simp [h0] at herr
      · have hne : (use_buffers_loop direction buffers 0
            (clear_buffers (GET_PORT this direction port_id))).1 ≠ 0 := by
          rw [hE]; decide
        simp only [if_neg hne]
        refine ⟨trivial, trivial, hb, hE, ?_⟩
        rw [GET_SET_PORT, hn, clear_buffers_n_buffers]

/-- Witness of `use_buffers_error`: a buffer with a null data pointer offered
to an output port that holds a format and one installed buffer. -/
theorem use_buffers_error_witness :
    ((CHECK_PORT installed_output_state .OUTPUT 0 = false ∨
        (GET_PORT installed_output_state .OUTPUT 0).have_format = false) ∧
      (impl_node_port_use_buffers installed_output_state .OUTPUT 0 [null_data_buffer]).2
        = installed_output_state) ∨
    (CHECK_PORT installed_output_state .OUTPUT 0 = true ∧
      (GET_PORT installed_output_state .OUTPUT 0).have_format = true ∧
      (∃ b ∈ [null_data_buffer], data_ok b.datas0 = false) ∧
      (impl_node_port_use_buffers installed_output_state .OUTPUT 0 [null_data_buffer]).1
        = -EINVAL ∧
      (GET_PORT (impl_node_port_use_buffers installed_output_state .OUTPUT 0
        [null_data_buffer]).2 .OUTPUT 0).n_buffers = 0) :=
  use_buffers_error installed_output_state .OUTPUT 0 [null_data_buffer] (by decide)

/-- C2 (as stated) fails: the output port of `installed_output_state` has one
installed buffer, linked in its free queue; installing a set whose buffer has a
null data pointer returns `-EINVAL`, and afterwards the installed count is 0,
the free queue is empty and slot 0 points at the rejected buffer. -/
theorem use_buffers_error_discards_set :
    (impl_node_port_use_buffers installed_output_state .OUTPUT 0 [null_data_buffer]).1
      = -EINVAL ∧
    installed_output_state.out_ports.n_buffers = 1 ∧
    installed_output_state.out_ports.queue = [0] ∧
    (installed_output_state.out_ports.buffers 0).buffer = host_buffer 2 0 ∧
    (impl_node_port_use_buffers installed_output_state .OUTPUT 0
      [null_data_buffer]).2.out_ports.n_buffers = 0 ∧
    (impl_node_port_use_buffers installed_output_state .OUTPUT 0
      [null_data_buffer]).2.out_ports.queue = [] ∧
    ((impl_node_port_use_buffers installed_output_state .OUTPUT 0
      [null_data_buffer]).2.out_ports.buffers 0).buffer = null_data_buffer := by
  decide

/-! ## C3: a differing proposal is rejected -/

/-- C3: when the node holds a format `F`, `port_set_format` on any port with a
proposal both parsers accept and whose sample format, layout, rate or channel
count differs from that of `F` returns `-EINVAL` and leaves the whole node
unchanged (so the node format, the stride, `n_formats` and every port's
`have_format` flag and buffers are what they were). -/
theorem port_set_format_mismatch {α : Type} (this : impl α) (direction : spa_direction)
    (port_id : Nat) (flags : Nat) (f : spa_pod_format)
    (hhave : this.have_format = true)
    (hparse : 0 ≤ f.parse_res) (hraw : 0 ≤ f.raw_res)
    (hdiff : f.raw.format ≠ this.format.raw.format ∨ f.raw.layout ≠ this.format.raw.layout ∨
      f.raw.rate ≠ this.format.raw.rate ∨ f.raw.channels ≠ this.format.raw.channels) :
    port_set_format this direction port_id flags (some f) = (-EINVAL, this) := by
  have hne : (⟨f.media_type, f.media_subtype, f.raw⟩ : spa_audio_info) ≠ this.format := by
    intro h
    have hr : f.raw = this.format.raw := by rw [← h]
    rw [hr] at hdiff
    simp at hdiff
  unfold port_set_format
  simp only [not_lt.mpr hparse, not_lt.mpr hraw, if_false, hhave, if_true]
  split
  · rfl
  · rfl

/-- Witness of `port_set_format_mismatch`: 44100 Hz proposed on input port 0
after 48000 Hz was established. -/
theorem port_set_format_mismatch_witness :
    port_set_format negotiated_state .INPUT 0 0 (some f32_mono_44100)
      = (-EINVAL, negotiated_state) :=
  port_set_format_mismatch negotiated_state .INPUT 0 0 f32_mono_44100 (by decide) (by decide)
    (by decide) (by decide)

/-! ## C5: the vectorised and the scalar `mix_2` -/

theorem mixed_store {α : Type} [Add α] (m : Mem α) (dst src1 src2 : DataPtr) (i hi : Nat)
    (h : i < hi) :
    mixed (store m dst i (m src1 i + m src2 i)) dst src1 src2 (i + 1) hi
      = mixed m dst src1 src2 i hi := by
  funext q j
  unfold mixed store
  by_cases hq : q = dst
  · subst hq
    by_cases h1 : i + 1 ≤ j ∧ j < hi
    · have h2 : i ≤ j ∧ j < hi := ⟨by omega, h1.2⟩
      have h3 : j ≠ i := by omega
      simp [h1, h2, h3]
    · by_cases h4 : j = i
      · subst h4
        simp [h]
      · have h2 : ¬ (i ≤ j ∧ j < hi) := by omega
        simp [h1, h2, h4]
  · simp [hq]

theorem mixed_empty {α : Type} [Add α] (m : Mem α) (dst src1 src2 : DataPtr) (i : Nat) :
    mixed m dst src1 src2 i i = m := by
  funext q j
  unfold mixed
  have : ¬ (i ≤ j ∧ j < i) := by omega
  simp [this]

theorem mixed_mixed {α : Type} [Add α] (m : Mem α) (dst src1 src2 : DataPtr) (lo mid hi : Nat)
    (h1 : lo ≤ mid) (h2 : mid ≤ hi) :
    mixed (mixed m dst src1 src2 lo mid) dst src1 src2 mid hi = mixed m dst src1 src2 lo hi := by
  funext q j
  unfold mixed
  by_cases hq : q = dst
  · subst hq
    by_cases ha : mid ≤ j ∧ j < hi
    · have hb : ¬ (lo ≤ j ∧ j < mid) := by omega
      have hc : lo ≤ j ∧ j < hi := by omega
      have hd : ¬ j < mid := by omega
      simp [ha, hc, hd]
    · by_cases hb : lo ≤ j ∧ j < mid
      · have hc : lo ≤ j ∧ j < hi := by omega
        simp [ha, hb, hc]
      · have hc : ¬ (lo ≤ j ∧ j < hi) := by omega
        simp [ha, hb, hc]
  · simp [hq]

theorem mix_2_loop_eq {α : Type} [Add α] (dst src1 src2 : DataPtr) :
    ∀ (k i : Nat) (m : Mem α),
      mix_2_loop dst src1 src2 k i m = mixed m dst src1 src2 i (i + k) := by
  intro k
  induction k with
  | zero => intro i m; simp [mix_2_loop, mixed_empty]
  | succ k ih =>
    intro i m
    unfold mix_2_loop
    rw [ih, show i + 1 + k = i + (k + 1) by omega]
    exact mixed_store m dst src1 src2 i (i + (k + 1)) (by omega)

theorem mix_2_sse_rest_eq {α : Type} [Add α] (dst src1 src2 : DataPtr) :
    ∀ (k i : Nat) (m : Mem α),
      mix_2_sse_rest dst src1 src2 k i m = mixed m dst src1 src2 i (i + k) := by
  intro k
  induction k with
  | zero => intro i m; simp [mix_2_sse_rest, mixed_empty]
  | succ k ih =>
    intro i m
    unfold mix_2_sse_rest
    rw [ih, show i + 1 + k = i + (k + 1) by omega]
    exact mixed_store m dst src1 src2 i (i + (k + 1)) (by omega)

theorem mix_2_sse_block_eq {α : Type} [Add α] (dst src1 src2 : DataPtr) (i : Nat) (m : Mem α) :
    mix_2_sse_block dst src1 src2 i m = mixed m dst src1 src2 i (i + 4) := by
  funext q j
  unfold mix_2_sse_block mixed store
  by_cases hq : q = dst
  · subst hq
    by_cases h0 : j = i
    · subst h0; simp
    · by_cases h1 : j = i + 1
      · subst h1; simp
      · by_cases h2 : j = i + 2
        · subst h2; simp
        · by_cases h3 : j = i + 3
          · subst h3; simp
          · have : ¬ (i ≤ j ∧ j < i + 4) := by omega
            simp [h0, h1, h2, h3, this]
  · simp [hq]

theorem mix_2_sse_unrolled_eq {α : Type} [Add α] (dst src1 src2 : DataPtr) :
    ∀ (k i : Nat) (m : Mem α),
      mix_2_sse_unrolled dst src1 src2 k i m
        = (i + 4 * k, mixed m dst src1 src2 i (i + 4 * k)) := by
  intro k
  induction k with
  | zero => intro i m; simp [mix_2_sse_unrolled, mixed_empty]
  | succ k ih =>
    intro i m
    unfold mix_2_sse_unrolled
    rw [ih, mix_2_sse_block_eq, mixed_mixed _ _ _ _ _ _ _ (by omega) (by omega)]
    rw [show i + 4 + 4 * k = i + 4 * (k + 1) by omega]

theorem mix_2_eq {α : Type} [Add α] (m : Mem α) (dst src1 src2 : DataPtr) (n : Nat) :
    mix_2 m dst src1 src2 n = mixed m dst src1 src2 0 n := by
  unfold mix_2
  rw [mix_2_loop_eq, Nat.zero_add]

theorem mix_2_sse_eq {α : Type} [Add α] (m : Mem α) (dst src1 src2 : DataPtr) (n : Nat) :
    mix_2_sse m dst src1 src2 n = mixed m dst src1 src2 0 n := by
  unfold mix_2_sse
  have h3 : n &&& 3 = n % 4 := Nat.and_pow_two_sub_one_eq_mod n 2
  simp only [mix_2_sse_unrolled_eq, mix_2_sse_rest_eq, h3, Nat.zero_add]
  rw [mixed_mixed _ _ _ _ _ _ _ (by omega) (by omega), Nat.div_add_mod]

theorem mix_2_compiled_eq {α : Type} [Add α] (sse : Bool) (m : Mem α)
    (dst src1 src2 : DataPtr) (n : Nat) :
    mix_2_compiled sse m dst src1 src2 n = mixed m dst src1 src2 0 n := by
  unfold mix_2_compiled
  cases sse
  · simp [mix_2_eq]
  · simp [mix_2_sse_eq]

/-- C5: for every sample count `n`, every memory and every choice of `dst`,
`src1`, `src2` (any of them may be the same block), the vectorised `mix_2`
leaves exactly the memory the scalar `mix_2` leaves; in it `dst[i]` is
`src1[i] + src2[i]` (the values before the call) for `i < n`, and every other
location, in particular `dst[i]` for `i >= n`, is what it was. -/
theorem mix_2_sse_refines_scalar {α : Type} [Add α] (m : Mem α) (dst src1 src2 : DataPtr)
    (n : Nat) :
    mix_2_sse m dst src1 src2 n = mix_2 m dst src1 src2 n ∧
    (∀ i, i < n → mix_2 m dst src1 src2 n dst i = m src1 i + m src2 i) ∧
    (∀ p i, p ≠ dst ∨ n ≤ i →
      mix_2 m dst src1 src2 n p i = m p i ∧ mix_2_sse m dst src1 src2 n p i = m p i) := by
  rw [mix_2_sse_eq, mix_2_eq]
  refine ⟨rfl, ?_, ?_⟩
  · intro i hi
    simp [mixed, hi]
  · intro p i h
    have : ¬ (p = dst ∧ 0 ≤ i ∧ i < n) := by
      rintro ⟨h1, _, h3⟩
      rcases h with h | h
      · exact h h1
      · omega
    simp only [mixed, if_neg this, and_self]

/-! ## The output stage -/

theorem queue_buffer_slot (pt : port) (idx k : Nat) :
    ((queue_buffer pt idx).2.buffers k).id = (pt.buffers k).id ∧
    ((queue_buffer pt idx).2.buffers k).buffer = (pt.buffers k).buffer ∧
    ((queue_buffer pt idx).2.buffers k).datas = (pt.buffers k).datas := by
  unfold queue_buffer
  dsimp only
  split
  · exact ⟨rfl, rfl, rfl⟩
  · by_cases h : k = idx
    · subst h; simp
    · simp [Function.update_noteq h]

theorem recycle_slot (pt : port) (outio : spa_io_buffers) (k : Nat) :
    (((recycle pt outio).1).buffers k).id = (pt.buffers k).id ∧
    (((recycle pt outio).1).buffers k).buffer = (pt.buffers k).buffer ∧
    (((recycle pt outio).1).buffers k).datas = (pt.buffers k).datas := by
  unfold recycle
  split
  · exact queue_buffer_slot pt _ k
  · exact ⟨rfl, rfl, rfl⟩

theorem recycle_range (pt : port) (outio : spa_io_buffers) :
    (recycle pt outio).1.range = pt.range := by
  unfold recycle queue_buffer
  dsimp only
  split
  · split <;> rfl
  · rfl

theorem dequeue_buffer_cons (pt : port) (k : Nat) (rest : List Nat) (h : pt.queue = k :: rest) :
    dequeue_buffer pt = (some k, { pt with
      queue := rest
      buffers := Function.update pt.buffers k
        { pt.buffers k with flags := SPA_FLAG_UNSET (pt.buffers k).flags BUFFER_FLAG_QUEUED } }) := by
  unfold dequeue_buffer
  rw [h]
  simp [spa_list_is_empty, spa_list_first, spa_list_remove]

/-- The slot of the output port handed to the output stage of a cycle: slot
`k` after the recycle step and after its removal from the free queue. -/
theorem dequeued_slot (pt : port) (outio : spa_io_buffers) (k : Nat) (rest : List Nat)
    (h : (recycle pt outio).1.queue = k :: rest) :
    ((dequeue_buffer (recycle pt outio).1).2.buffers k).id = (pt.buffers k).id ∧
    ((dequeue_buffer (recycle pt outio).1).2.buffers k).buffer = (pt.buffers k).buffer ∧
    ((dequeue_buffer (recycle pt outio).1).2.buffers k).datas = (pt.buffers k).datas := by
  rw [dequeue_buffer_cons _ k rest h]
  simp only [Function.update_same]
  exact recycle_slot pt outio k

/-- A cycle that reaches the output stage with slot `k` at the head of the free
queue, in closed form. -/
theorem process_output_stage {α : Type} [Add α] [Zero α] (sse : Bool)
    (hostmem : Nat → Nat → α) (this : impl α) (outio : spa_io_buffers) (k : Nat)
    (rest : List Nat)
    (hio : this.out_ports.io = some outio)
    (hst : outio.status ≠ SPA_STATUS_HAVE_BUFFER)
    (hq : (recycle this.out_ports outio).1.queue = k :: rest) :
    impl_node_process sse hostmem this =
      (3, { this with
        in_ports := fun j =>
          if j < this.last_port.toNat ∧ input_ready (this.in_ports j) = true
          then consumed (this.in_ports j) else this.in_ports j
        out_ports := { (dequeue_buffer (recycle this.out_ports outio).1).2 with
          buffers := Function.update (dequeue_buffer (recycle this.out_ports outio).1).2.buffers k
            (produce sse hostmem this.empty
              ((dequeue_buffer (recycle this.out_ports outio).1).2.buffers k)
              (cycle_inputs this) (cycle_maxsize this outio)).1
          io := some
            { buffer_id := (produce sse hostmem this.empty
                ((dequeue_buffer (recycle this.out_ports outio).1).2.buffers k)
                (cycle_inputs this) (cycle_maxsize this outio)).1.buffer.id
              status := SPA_STATUS_HAVE_BUFFER } }
        empty := (produce sse hostmem this.empty
              ((dequeue_buffer (recycle this.out_ports outio).1).2.buffers k)
              (cycle_inputs this) (cycle_maxsize this outio)).2 }) := by
  have hk : (dequeue_buffer (recycle this.out_ports outio).1).1 = some k := by
    rw [dequeue_buffer_cons _ k rest hq]
  unfold impl_node_process
  simp only [hio, if_neg hst, hk]
  unfold cycle_maxsize cycle_inputs
  rw [scan_inputs_eq]
  rfl

/-! ## C4: summation of two or more inputs -/

theorem mix_fold {α : Type} [Add α] (n : Nat) (ds : List DataPtr)
    (hds : ∀ d ∈ ds, d ≠ DataPtr.scratch) :
    ∀ m1 : Mem α,
      ds.foldl (fun m d => mixed m .scratch .scratch d 0 n) m1 =
        fun q j => if q = DataPtr.scratch ∧ j < n
          then (ds.map (fun d => m1 d j)).foldl (fun acc y => acc + y) (m1 .scratch j)
          else m1 q j := by
  induction ds with
  | nil =>
    intro m1
    funext q j
    by_cases hc : q = DataPtr.scratch ∧ j < n
    · simp [hc.1, hc.2]
    · simp [hc]
  | cons d rest ih =>
    intro m1
    have hd : d ≠ DataPtr.scratch := hds d (List.mem_cons_self _ _)
    have hrest : ∀ e ∈ rest, e ≠ DataPtr.scratch := fun e he => hds e (List.mem_cons_of_mem _ he)
    rw [List.foldl_cons, ih hrest]
    funext q j
    by_cases hc : q = DataPtr.scratch ∧ j < n
    · simp only [if_pos hc, List.map_cons, List.foldl_cons]
      have h1 : mixed m1 .scratch .scratch d 0 n .scratch j = m1 .scratch j + m1 d j := by
        simp [mixed, hc.2]
      have h2 : (rest.map fun e => mixed m1 .scratch .scratch d 0 n e j)
          = rest.map fun e => m1 e j := by
        apply List.map_congr_left
        intro e he
        simp [mixed, hrest e he]
      rw [h1, h2]
    · simp only [if_neg hc]
      unfold mixed
      have : ¬ (q = DataPtr.scratch ∧ 0 ≤ j ∧ j < n) := fun h => hc ⟨h.1, h.2.2⟩
      rw [if_neg this]

theorem is_host_ne_scratch (p : DataPtr) (h : p.is_host = true) : p ≠ DataPtr.scratch := by
  intro hp
  rw [hp] at h
  exact absurd h (by decide)

/-- The scratch array after the mixing of two or more host blocks. -/
theorem mix_buffers_eq {α : Type} [Add α] [Zero α] (sse : Bool) (hostmem : Nat → Nat → α)
    (empty : Nat → α) (b0 b1 : buffer) (rest : List buffer) (n i : Nat)
    (hhost : ∀ b ∈ b0 :: b1 :: rest, b.buffer.datas0.data.is_host = true) (hi : i < n) :
    mix_buffers sse (node_mem hostmem empty) (b0 :: b1 :: rest) n .scratch i
      = sum_left ((b0 :: b1 :: rest).map (fun b => input_sample hostmem empty b i)) := by
  have h0 : b0.buffer.datas0.data ≠ DataPtr.scratch :=
    is_host_ne_scratch _ (hhost b0 (by simp))
  have h1 : b1.buffer.datas0.data ≠ DataPtr.scratch :=
    is_host_ne_scratch _ (hhost b1 (by simp))
  have hr : ∀ d ∈ rest.map (fun b => b.buffer.datas0.data), d ≠ DataPtr.scratch := by
    intro d hd
    obtain ⟨b, hb, rfl⟩ := List.mem_map.mp hd
    exact is_host_ne_scratch _ (hhost b (by simp [hb]))
  unfold mix_buffers
  simp only [mix_2_compiled_eq, List.getD_cons_zero, List.getD_cons_succ, List.drop_succ_cons,
    List.drop_zero]
  rw [← List.foldl_map (fun b : buffer => b.buffer.datas0.data)
    (fun (m : Mem α) d => mixed m .scratch .scratch d 0 n)]
  rw [mix_fold n _ hr]
  simp only [hi, and_self, if_true, List.map_map]
  unfold sum_left
  simp only [List.map_cons, List.foldl_cons]
  have hm : mixed (node_mem hostmem empty) .scratch b0.buffer.datas0.data
      b1.buffer.datas0.data 0 n .scratch i
      = input_sample hostmem empty b0 i + input_sample hostmem empty b1 i := by
    simp [mixed, hi, input_sample]
  rw [hm]
  congr 1
  apply List.map_congr_left
  intro b hb
  have hb' : b.buffer.datas0.data ≠ DataPtr.scratch :=
    is_host_ne_scratch _ (hhost b (by simp [hb]))
  simp [mixed, hb', input_sample]

theorem ready_ids_sorted (in_ports : Nat → port) (n : Nat) :
    (ready_ids in_ports n).Pairwise (fun a b => a < b) := by
  unfold ready_ids
  exact List.Pairwise.filter _ (List.pairwise_lt_range n)

theorem ready_ids_ready (in_ports : Nat → port) (n p : Nat) (hp : p ∈ ready_ids in_ports n) :
    p < n ∧ input_ready (in_ports p) = true := by
  unfold ready_ids at hp
  rw [List.mem_filter, List.mem_range] at hp
  exact hp

/-- C4 (as amended): in a cycle that reaches the output stage with two or more
ready inputs whose data blocks are host memory (none of them is the scratch
array of the node), the cycle returns "have buffer | need buffer"; for every
`i` below the sample count of the cycle, sample `i` of the scratch array is the
sum, taken from the left in ascending port id, of sample `i` of the ready
inputs; the data block of the output buffer is the scratch array; the output IO
status is "have buffer" and the IO status of every contributing input port is
"need buffer".  This holds for either compiled variant of `mix_2`. -/
theorem process_mix {α : Type} [Add α] [Zero α] (sse : Bool) (hostmem : Nat → Nat → α)
    (this : impl α) (outio : spa_io_buffers) (k : Nat) (rest : List Nat)
    (hio : this.out_ports.io = some outio)
    (hst : outio.status ≠ SPA_STATUS_HAVE_BUFFER)
    (hq : (recycle this.out_ports outio).1.queue = k :: rest)
    (hN : 2 ≤ (cycle_inputs this).length)
    (hhost : ∀ b ∈ cycle_inputs this, b.buffer.datas0.data.is_host = true) :
    (impl_node_process sse hostmem this).1 = 3 ∧
    (∀ i, i < cycle_n_samples this outio →
      (impl_node_process sse hostmem this).2.empty i
        = sum_left ((cycle_inputs this).map (fun b => input_sample hostmem this.empty b i))) ∧
    (ready_ids this.in_ports this.last_port.toNat).Pairwise (fun a b => a < b) ∧
    ((impl_node_process sse hostmem this).2.out_ports.buffers k).buffer.datas0.data
      = DataPtr.scratch ∧
    io_status (impl_node_process sse hostmem this).2.out_ports.io
      = some SPA_STATUS_HAVE_BUFFER ∧
    (∀ p ∈ ready_ids this.in_ports this.last_port.toNat,
      io_status ((impl_node_process sse hostmem this).2.in_ports p).io
        = some SPA_STATUS_NEED_BUFFER) := by
  rw [process_output_stage sse hostmem this outio k rest hio hst hq]
  obtain ⟨b0, b1, bs, hbs⟩ : ∃ b0 b1 bs, cycle_inputs this = b0 :: b1 :: bs := by
    match h : cycle_inputs this with
    | [] => rw [h] at hN; simp at hN
    | [_] => rw [h] at hN; simp at hN
    | b0 :: b1 :: bs => exact ⟨b0, b1, bs, rfl⟩
  have hl1 : (cycle_inputs this).length ≠ 1 := by omega
  have hl0 : (cycle_inputs this).length ≠ 0 := by omega
  refine ⟨rfl, ?_, ready_ids_sorted _ _, ?_, rfl, ?_⟩
  · intro i hi
    simp only [produce, if_neg hl1, if_neg hl0]
    rw [hbs] at hhost ⊢
    exact mix_buffers_eq sse hostmem this.empty b0 b1 bs _ i hhost hi
  · simp only [produce, if_neg hl1, if_neg hl0, Function.update_same]
    rfl
  · intro p hp
    obtain ⟨h1, h2⟩ := ready_ids_ready _ _ _ hp
    simp only [h1, h2, and_self, if_true]
    exact consumed_status _ h2

/-- Witness of `process_mix`, the concrete scenario of the specification:
inputs `[1.0, 2.0, 3.0, 4.0]` and `[0.5, 0.5, 0.5, 0.5]` give
`[1.5, 2.5, 3.5, 4.5]` in the scratch array, the output status is "have
buffer" and both input statuses are "need buffer". -/
theorem process_mix_witness :
    (impl_node_process true scenario_host two_inputs_state).1 = 3 ∧
    (impl_node_process true scenario_host two_inputs_state).2.empty 0 = 3 / 2 ∧
    (impl_node_process true scenario_host two_inputs_state).2.empty 1 = 5 / 2 ∧
    (impl_node_process true scenario_host two_inputs_state).2.empty 2 = 7 / 2 ∧
    (impl_node_process true scenario_host two_inputs_state).2.empty 3 = 9 / 2 ∧
    io_status (impl_node_process true scenario_host two_inputs_state).2.out_ports.io
      = some SPA_STATUS_HAVE_BUFFER ∧
    io_status ((impl_node_process true scenario_host two_inputs_state).2.in_ports 0).io
      = some SPA_STATUS_NEED_BUFFER ∧
    io_status ((impl_node_process true scenario_host two_inputs_state).2.in_ports 1).io
      = some SPA_STATUS_NEED_BUFFER := by
  obtain ⟨h1, h2, _, _, h5, h6⟩ :=
    process_mix true scenario_host two_inputs_state ⟨SPA_STATUS_NEED_BUFFER, SPA_ID_INVALID⟩
      0 [1, 2] (by decide) (by decide) (by decide) (by decide) (by decide)
  have hn : cycle_n_samples two_inputs_state ⟨SPA_STATUS_NEED_BUFFER, SPA_ID_INVALID⟩ = 4 := by
    decide
  have hin : (cycle_inputs two_inputs_state).map (fun b => b.buffer.datas0.data)
      = [DataPtr.host 1, DataPtr.host 2] := by decide
  have hs : ∀ i, sum_left ((cycle_inputs two_inputs_state).map
      (fun b => input_sample scenario_host two_inputs_state.empty b i))
      = scenario_host 1 i + scenario_host 2 i := by
    intro i
    have : (cycle_inputs two_inputs_state).map
        (fun b => input_sample scenario_host two_inputs_state.empty b i)
        = ((cycle_inputs two_inputs_state).map (fun b => b.buffer.datas0.data)).map
            (fun d => node_mem scenario_host two_inputs_state.empty d i) := by
      rw [List.map_map]; rfl
    rw [this, hin]
    rfl
  rw [hn] at h2
  refine ⟨h1, ?_, ?_, ?_, ?_, h5, h6 0 (by decide), h6 1 (by decide)⟩
  · rw [h2 0 (by decide), hs]; norm_num [scenario_host]
  · rw [h2 1 (by decide), hs]; norm_num [scenario_host]
  · rw [h2 2 (by decide), hs]; norm_num [scenario_host]
  · rw [h2 3 (by decide), hs]; norm_num [scenario_host]

/-! ## C6: passthrough of a single input -/

/-- C6: in a cycle that reaches the output stage with slot `k` of the output
port dequeued and exactly one ready input port `p`, the descriptor of the output
buffer becomes the descriptor of the buffer port `p` delivers (the same data
blocks and chunks, so it names the input's data) with only `id` set to the id
of slot `k`; the output IO region names that id with status "have buffer", and
the scratch array is not written. -/
theorem process_passthrough {α : Type} [Add α] [Zero α] (sse : Bool)
    (hostmem : Nat → Nat → α) (this : impl α) (outio : spa_io_buffers) (k : Nat)
    (rest : List Nat) (p : Nat)
    (hio : this.out_ports.io = some outio)
    (hst : outio.status ≠ SPA_STATUS_HAVE_BUFFER)
    (hq : (recycle this.out_ports outio).1.queue = k :: rest)
    (hone : ready_ids this.in_ports this.last_port.toNat = [p]) :
    (impl_node_process sse hostmem this).1 = 3 ∧
    ((impl_node_process sse hostmem this).2.out_ports.buffers k).buffer
      = { (named_buffer (this.in_ports p)).buffer with id := (this.out_ports.buffers k).id } ∧
    (impl_node_process sse hostmem this).2.out_ports.io
      = some ⟨SPA_STATUS_HAVE_BUFFER, (this.out_ports.buffers k).id⟩ ∧
    (impl_node_process sse hostmem this).2.empty = this.empty := by
  rw [process_output_stage sse hostmem this outio k rest hio hst hq]
  have hin : cycle_inputs this = [named_buffer (this.in_ports p)] := by
    unfold cycle_inputs ready_buffers
    rw [hone]
    rfl
  have hid := (dequeued_slot this.out_ports outio k rest hq).1
  refine ⟨rfl, ?_, ?_, ?_⟩
  · simp only [produce, hin, List.length_singleton, if_true, Function.update_same,
      List.getD_cons_zero, hid]
  · simp only [produce, hin, List.length_singleton, if_true, List.getD_cons_zero, hid]
  · simp only [produce, hin, List.length_singleton, if_true]

/-- Witness of `process_passthrough`: one ready input, one free output buffer. -/
theorem process_passthrough_witness :
    (impl_node_process false silent_host one_input_state).1 = 3 ∧
    ((impl_node_process false silent_host one_input_state).2.out_ports.buffers 0).buffer
      = { (named_buffer (one_input_state.in_ports 0)).buffer with
          id := (one_input_state.out_ports.buffers 0).id } ∧
    (impl_node_process false silent_host one_input_state).2.out_ports.io
      = some ⟨SPA_STATUS_HAVE_BUFFER, (one_input_state.out_ports.buffers 0).id⟩ ∧
    (impl_node_process false silent_host one_input_state).2.empty = one_input_state.empty :=
  process_passthrough false silent_host one_input_state
    ⟨SPA_STATUS_NEED_BUFFER, SPA_ID_INVALID⟩ 0 [] 0 (by decide) (by decide) (by decide)
    (by decide)

/-! ## C7: silence without input -/

theorem memset_zero_eq {α : Type} [Zero α] (m : Mem α) (dst : DataPtr) (n i : Nat)
    (hi : i < n) : memset_zero m dst n dst i = 0 := by
  simp [memset_zero, hi]

/-- C7: in a cycle that reaches the output stage with slot `k` of the output
port dequeued and no ready input port, the output buffer has exactly one data
block, whose data pointer is the scratch array and whose chunk has offset 0,
size `4 * n_samples` and stride 4; samples `0 .. n_samples - 1` of the scratch
array are zero; the output IO status is "have buffer". -/
theorem process_silence {α : Type} [Add α] [Zero α] (sse : Bool)
    (hostmem : Nat → Nat → α) (this : impl α) (outio : spa_io_buffers) (k : Nat)
    (rest : List Nat)
    (hio : this.out_ports.io = some outio)
    (hst : outio.status ≠ SPA_STATUS_HAVE_BUFFER)
    (hq : (recycle this.out_ports outio).1.queue = k :: rest)
    (hnone : ready_ids this.in_ports this.last_port.toNat = []) :
    (impl_node_process sse hostmem this).1 = 3 ∧
    ((impl_node_process sse hostmem this).2.out_ports.buffers k).buffer.n_datas = 1 ∧
    ((impl_node_process sse hostmem this).2.out_ports.buffers k).buffer.datas
      = [{ (this.out_ports.buffers k).datas with
            data := DataPtr.scratch
            chunk := { offset := 0, size := 4 * cycle_n_samples this outio, stride := 4 } }] ∧
    (∀ i, i < cycle_n_samples this outio →
      (impl_node_process sse hostmem this).2.empty i = 0) ∧
    io_status (impl_node_process sse hostmem this).2.out_ports.io
      = some SPA_STATUS_HAVE_BUFFER := by
  rw [process_output_stage sse hostmem this outio k rest hio hst hq]
  have hin : cycle_inputs this = [] := by
    unfold cycle_inputs ready_buffers
    rw [hnone]
    rfl
  have hd := (dequeued_slot this.out_ports outio k rest hq).2.2
  refine ⟨rfl, ?_, ?_, ?_, rfl⟩
  · simp [produce, hin]
  · simp only [produce, hin, List.length_nil, if_true, Function.update_same, hd]
    simp [cycle_n_samples, sizeof_float, Nat.mul_comm]
  · intro i hi
    simp only [produce, hin, List.length_nil, if_true]
    simp only [show (0 : Nat) = 1 ↔ False from by decide, if_false]
    exact memset_zero_eq _ _ _ _ hi

/-- Witness of `process_silence`: no input port, a range hint of 40 bytes. -/
theorem process_silence_witness :
    (impl_node_process false silent_host no_input_state).1 = 3 ∧
    ((impl_node_process false silent_host no_input_state).2.out_ports.buffers 0).buffer.n_datas
      = 1 ∧
    ((impl_node_process false silent_host no_input_state).2.out_ports.buffers 0).buffer.datas
      = [{ (no_input_state.out_ports.buffers 0).datas with
            data := DataPtr.scratch
            chunk := { offset := 0
                       size := 4 * cycle_n_samples no_input_state
                         ⟨SPA_STATUS_NEED_BUFFER, SPA_ID_INVALID⟩
                       stride := 4 } }] ∧
    (∀ i, i < cycle_n_samples no_input_state ⟨SPA_STATUS_NEED_BUFFER, SPA_ID_INVALID⟩ →
      (impl_node_process false silent_host no_input_state).2.empty i = 0) ∧
    io_status (impl_node_process false silent_host no_input_state).2.out_ports.io
      = some SPA_STATUS_HAVE_BUFFER :=
  process_silence false silent_host no_input_state
    ⟨SPA_STATUS_NEED_BUFFER, SPA_ID_INVALID⟩ 0 [1] (by decide) (by decide) (by decide)
    (by decide)

/-! ## C8: the sample count of a cycle -/

theorem foldl_min_le_init (l : List Nat) :
    ∀ m0 : Nat, l.foldl (fun acc c => min c acc) m0 ≤ m0 := by
  induction l with
  | nil => intro m0; exact Nat.le_refl _
  | cons c rest ih =>
    intro m0
    rw [List.foldl_cons]
    exact Nat.le_trans (ih _) (Nat.min_le_right _ _)

theorem foldl_min_le_mem (l : List Nat) :
    ∀ m0 : Nat, ∀ c ∈ l, l.foldl (fun acc c => min c acc) m0 ≤ c := by
  induction l with
  | nil => intro m0 c hc; simp at hc
  | cons d rest ih =>
    intro m0 c hc
    rw [List.foldl_cons]
    rcases List.mem_cons.mp hc with h | h
    · subst h
      exact Nat.le_trans (foldl_min_le_init rest _) (Nat.min_le_left _ _)
    · exact ih _ c h

theorem foldl_min_attained (l : List Nat) :
    ∀ m0 : Nat, l.foldl (fun acc c => min c acc) m0 = m0 ∨
      l.foldl (fun acc c => min c acc) m0 ∈ l := by
  induction l with
  | nil => intro m0; exact Or.inl rfl
  | cons d rest ih =>
    intro m0
    rw [List.foldl_cons]
    rcases ih (min d m0) with h | h
    · rw [h]
      rcases Nat.le_total d m0 with hle | hle
      · right; rw [Nat.min_eq_left hle]; exact List.mem_cons_self _ _
      · left; exact Nat.min_eq_right hle
    · right; exact List.mem_cons_of_mem _ h

theorem cycle_maxsize_eq {α : Type} (this : impl α) (outio : spa_io_buffers) :
    cycle_maxsize this outio =
      ((cycle_inputs this).map chunk_size).foldl (fun acc c => min c acc)
        (initial_maxsize this.out_ports) := by
  unfold cycle_maxsize cycle_inputs
  rw [scan_inputs_eq]
  simp only [initial_maxsize, recycle_range]

/-- C8: in a cycle that reaches the output stage, `maxsize` is the minimum of
the cap of 4096 bytes, the `max_size` of the range hint of the output port when
one is bound, and the chunk sizes of the contributing input buffers: it is below
each of them and equal to one of them.  The sample count `n_samples` is
`maxsize / 4`, and it is what the cycle publishes: unless exactly one input
contributes, the chunk of the output slot has size `4 * n_samples`. -/
theorem cycle_sample_count {α : Type} [Add α] [Zero α] (sse : Bool)
    (hostmem : Nat → Nat → α) (this : impl α) (outio : spa_io_buffers) (k : Nat)
    (rest : List Nat)
    (hio : this.out_ports.io = some outio)
    (hst : outio.status ≠ SPA_STATUS_HAVE_BUFFER)
    (hq : (recycle this.out_ports outio).1.queue = k :: rest) :
    cycle_maxsize this outio ≤ 4096 ∧
    (∀ r, this.out_ports.range = some r → cycle_maxsize this outio ≤ r.max_size) ∧
    (∀ b ∈ cycle_inputs this, cycle_maxsize this outio ≤ chunk_size b) ∧
    (cycle_maxsize this outio = 4096 ∨
      (∃ r, this.out_ports.range = some r ∧ cycle_maxsize this outio = r.max_size) ∨
      (∃ b ∈ cycle_inputs this, cycle_maxsize this outio = chunk_size b)) ∧
    cycle_n_samples this outio = cycle_maxsize this outio / 4 ∧
    ((cycle_inputs this).length ≠ 1 →
      ((impl_node_process sse hostmem this).2.out_ports.buffers k).chunk.size
        = 4 * cycle_n_samples this outio) := by
  have hinit_le : initial_maxsize this.out_ports ≤ 4096 := by
    unfold initial_maxsize
    cases this.out_ports.range with
    | none => decide
    | some r => exact Nat.min_le_right _ _
  have hinit_range : ∀ r, this.out_ports.range = some r →
      initial_maxsize this.out_ports ≤ r.max_size := by
    intro r hr
    unfold initial_maxsize
    rw [hr]
    exact Nat.min_le_left _ _
  have hinit_att : initial_maxsize this.out_ports = 4096 ∨
      ∃ r, this.out_ports.range = some r ∧ initial_maxsize this.out_ports = r.max_size := by
    unfold initial_maxsize
    cases hr : this.out_ports.range with
    | none => left; rfl
    | some r =>
      rcases Nat.le_total r.max_size (MAX_SAMPLES * sizeof_float) with hle | hle
      · right; exact ⟨r, rfl, Nat.min_eq_left hle⟩
      · left; exact Nat.min_eq_right hle
  have hle := foldl_min_le_init ((cycle_inputs this).map chunk_size)
    (initial_maxsize this.out_ports)
  refine ⟨?_, ?_, ?_, ?_, rfl, ?_⟩
  · rw [cycle_maxsize_eq]; exact Nat.le_trans hle hinit_le
  · intro r hr
    rw [cycle_maxsize_eq]; exact Nat.le_trans hle (hinit_range r hr)
  · intro b hb
    rw [cycle_maxsize_eq]
    exact foldl_min_le_mem _ _ _ (List.mem_map_of_mem _ hb)
  · rw [cycle_maxsize_eq]
    rcases foldl_min_attained ((cycle_inputs this).map chunk_size)
      (initial_maxsize this.out_ports) with h | h
    · rw [h]
      rcases hinit_att with h1 | h1
      · exact Or.inl h1
      · exact Or.inr (Or.inl h1)
    · obtain ⟨b, hb, hbe⟩ := List.mem_map.mp h
      exact Or.inr (Or.inr ⟨b, hb, hbe.symm⟩)
  · intro hl1
    rw [process_output_stage sse hostmem this outio k rest hio hst hq]
    simp only [produce, if_neg hl1, Function.update_same]
    by_cases hl0 : (cycle_inputs this).length = 0
    · simp [hl0, cycle_n_samples, sizeof_float, Nat.mul_comm]
    · simp [hl0, cycle_n_samples, sizeof_float, Nat.mul_comm]

/-- Witness of `cycle_sample_count`: no input port and a range hint of 40
bytes, so 10 samples. -/
theorem cycle_sample_count_witness :
    cycle_n_samples no_input_state ⟨SPA_STATUS_NEED_BUFFER, SPA_ID_INVALID⟩ = 10 ∧
    ((impl_node_process true silent_host no_input_state).2.out_ports.buffers 0).chunk.size
      = 40 := by
  obtain ⟨_, _, _, _, _, h⟩ := cycle_sample_count true silent_host no_input_state
    ⟨SPA_STATUS_NEED_BUFFER, SPA_ID_INVALID⟩ 0 [1] (by decide) (by decide) (by decide)
  refine ⟨by decide, ?_⟩
  rw [h (by decide)]
  decide

/-! ## C9: a pending output buffer -/

theorem process_success_io {α : Type} [Add α] [Zero α] (sse : Bool)
    (hostmem : Nat → Nat → α) (this : impl α)
    (h3 : (impl_node_process sse hostmem this).1 = 3) :
    ∃ id, (impl_node_process sse hostmem this).2.out_ports.io
      = some ⟨SPA_STATUS_HAVE_BUFFER, id⟩ := by
  unfold impl_node_process at h3 ⊢
  cases hio : this.out_ports.io with
  | none => simp [hio, EIO_] at h3
  | some outio =>
    simp only [hio] at h3 ⊢
    by_cases hst : outio.status = SPA_STATUS_HAVE_BUFFER
    · simp [hst, SPA_STATUS_HAVE_BUFFER] at h3
    · simp only [if_neg hst] at h3 ⊢
      cases hd : (dequeue_buffer (recycle this.out_ports outio).1).1 with
      | none => simp [hd, EPIPE] at h3
      | some k => exact ⟨_, rfl⟩

/-- C9: when the bound output IO region has status "have buffer",
`impl_node_process` returns "have buffer" and leaves the whole node unchanged;
hence a cycle run right after a successful cycle (whatever the host memory
holds) returns "have buffer" and leaves the state the first cycle produced. -/
theorem process_pending_noop {α : Type} [Add α] [Zero α] (sse : Bool)
    (hostmem : Nat → Nat → α) (this : impl α) :
    (∀ outio, this.out_ports.io = some outio → outio.status = SPA_STATUS_HAVE_BUFFER →
      impl_node_process sse hostmem this = (SPA_STATUS_HAVE_BUFFER, this)) ∧
    ((impl_node_process sse hostmem this).1 = 3 →
      ∀ hostmem2 : Nat → Nat → α,
        impl_node_process sse hostmem2 (impl_node_process sse hostmem this).2
          = (SPA_STATUS_HAVE_BUFFER, (impl_node_process sse hostmem this).2)) := by
  have hnoop : ∀ (hm : Nat → Nat → α) (s : impl α) (outio : spa_io_buffers),
      s.out_ports.io = some outio → outio.status = SPA_STATUS_HAVE_BUFFER →
      impl_node_process sse hm s = (SPA_STATUS_HAVE_BUFFER, s) := by
    intro hm s outio hio hst
    unfold impl_node_process
    simp only [hio, hst, if_true]
  refine ⟨hnoop hostmem this, ?_⟩
  intro h3 hostmem2
  obtain ⟨id, hid⟩ := process_success_io sse hostmem this h3
  exact hnoop hostmem2 _ _ hid rfl

/-- Witness of `process_pending_noop`: a second cycle after the first cycle of
the two-input scenario. -/
theorem process_pending_noop_witness :
    (impl_node_process false scenario_host two_inputs_state).1 = 3 ∧
    impl_node_process false scenario_host
        (impl_node_process false scenario_host two_inputs_state).2
      = (SPA_STATUS_HAVE_BUFFER, (impl_node_process false scenario_host two_inputs_state).2) :=
  ⟨by decide,
    (process_pending_noop false scenario_host two_inputs_state).2 (by decide) scenario_host⟩

/-! ## C10: the port table -/

theorem same_port_table_refl {α : Type} (s : impl α) : same_port_table s s :=
  ⟨rfl, fun _ => Or.inl rfl⟩

theorem same_port_table_inv {α : Type} (s t : impl α) (h : same_port_table s t)
    (hinv : port_table_inv s) : port_table_inv t := by
  obtain ⟨hz, h0, hmax, hlt, hlast⟩ := hinv
  obtain ⟨hl, hp⟩ := h
  have hvalid : ∀ i, (t.in_ports i).valid = (s.in_ports i).valid := by
    intro i
    rcases hp i with h | ⟨h1, h2⟩
    · rw [h]
    · rw [h1, h2]
  refine ⟨?_, ?_, ?_, ?_, ?_⟩
  · intro i hi
    rcases hp i with h | ⟨h1, h2⟩
    · rw [h] at hi ⊢; exact hz i hi
    · rw [h2] at hi; exact absurd hi (by decide)
  · rw [hl]; exact h0
  · rw [hl]; exact hmax
  · intro i hi
    rw [hl]
    exact hlt i (by rw [← hvalid]; exact hi)
  · intro hpos
    rw [hl] at hpos ⊢
    rw [hvalid]
    exact hlast hpos

theorem same_port_table_SET_PORT {α : Type} (s s1 : impl α) (d : spa_direction) (p : Nat)
    (q : port) (hc : CHECK_PORT s d p = true) (hq : q.valid = (GET_PORT s d p).valid)
    (hin : s1.in_ports = s.in_ports) (hl : s1.last_port = s.last_port) :
    same_port_table s (SET_PORT s1 d p q) := by
  cases d with
  | OUTPUT =>
    refine ⟨hl, fun i => Or.inl ?_⟩
    simp [SET_PORT, hin]
  | INPUT =>
    have hv : (s.in_ports p).valid = true := by
      simp [CHECK_PORT, CHECK_OUT_PORT, CHECK_IN_PORT] at hc
      exact hc.2
    refine ⟨hl, fun i => ?_⟩
    by_cases hi : i = p
    · subst hi
      right
      refine ⟨hv, ?_⟩
      simp only [SET_PORT, Function.update_same]
      rw [hq]
      exact hv
    · left
      simp [SET_PORT, Function.update_noteq hi, hin]

theorem clear_buffers_valid (pt : port) : (clear_buffers pt).valid = pt.valid := by
  unfold clear_buffers
  split <;> rfl

theorem queue_buffer_valid (pt : port) (idx : Nat) :
    (queue_buffer pt idx).2.valid = pt.valid := by
  unfold queue_buffer
  dsimp only
  split <;> rfl

theorem use_buffers_loop_valid (direction : spa_direction) (buffers : List spa_buffer) :
    ∀ (i : Nat) (pt : port), (use_buffers_loop direction buffers i pt).2.valid = pt.valid := by
  induction buffers with
  | nil => intro i pt; rfl
  | cons sb rest ih =>
    intro i pt
    unfold use_buffers_loop
    dsimp only
    split
    · rfl
    · rw [ih]
      split
      · rw [queue_buffer_valid]; rfl
      · rfl

theorem send_command_same {α : Type} (s : impl α) (c : spa_node_command) :
    same_port_table s (impl_node_send_command s c).2 := by
  cases c <;> exact ⟨rfl, fun _ => Or.inl rfl⟩

theorem port_set_format_same {α : Type} (s : impl α) (d : spa_direction) (p : Nat)
    (flags : Nat) (param : Option spa_pod_format) (hc : CHECK_PORT s d p = true) :
    same_port_table s (port_set_format s d p flags param).2 := by
  unfold port_set_format
  cases param with
  | none =>
    dsimp only
    split
    · exact same_port_table_SET_PORT s _ d p _ hc (by rw [clear_buffers_valid]) rfl rfl
    · exact same_port_table_refl s
  | some f =>
    dsimp only
    repeat' split
    all_goals first
      | exact same_port_table_refl s
      | exact same_port_table_SET_PORT s _ d p _ hc rfl rfl rfl

theorem port_set_param_same {α : Type} (s : impl α) (d : spa_direction) (p : Nat)
    (id : spa_param_type) (flags : Nat) (param : Option spa_pod_format) :
    same_port_table s (impl_node_port_set_param s d p id flags param).2 := by
  unfold impl_node_port_set_param
  split
  · split
    · exact port_set_format_same s d p flags param (by assumption)
    · exact same_port_table_refl s
  · exact same_port_table_refl s

theorem port_use_buffers_same {α : Type} (s : impl α) (d : spa_direction) (p : Nat)
    (buffers : List spa_buffer) :
    same_port_table s (impl_node_port_use_buffers s d p buffers).2 := by
  unfold impl_node_port_use_buffers
  split
  · rename_i hc
    dsimp only
    split
    · split
      · exact same_port_table_SET_PORT s s d p _ hc
          (by simp only [use_buffers_loop_valid, clear_buffers_valid]) rfl rfl
      · exact same_port_table_SET_PORT s s d p _ hc
          (by simp only [use_buffers_loop_valid, clear_buffers_valid]) rfl rfl
    · exact same_port_table_refl s
  · exact same_port_table_refl s

theorem port_set_io_same {α : Type} (s : impl α) (d : spa_direction) (p : Nat)
    (id : spa_io_type) (data_buffers : Option spa_io_buffers)
    (data_range : Option spa_io_range) :
    same_port_table s (impl_node_port_set_io s d p id data_buffers data_range).2 := by
  unfold impl_node_port_set_io
  split
  · rename_i hc
    cases id
    · exact same_port_table_SET_PORT s s d p _ hc rfl rfl rfl
    · exact same_port_table_SET_PORT s s d p _ hc rfl rfl rfl
    · exact same_port_table_refl s
    · exact same_port_table_refl s
  · exact same_port_table_refl s

theorem port_reuse_buffer_same {α : Type} (s : impl α) (p : Nat) (buffer_id : Nat) :
    same_port_table s (impl_node_port_reuse_buffer s p buffer_id).2 := by
  unfold impl_node_port_reuse_buffer
  split
  · dsimp only
    split
    · exact same_port_table_refl s
    · exact ⟨rfl, fun _ => Or.inl rfl⟩
  · exact same_port_table_refl s

theorem input_ready_valid (pt : port) (h : input_ready pt = true) : pt.valid = true := by
  unfold input_ready at h
  cases hio : pt.io with
  | none => simp [hio] at h
  | some inio =>
    simp [hio] at h
    exact h.1.1

theorem consumed_valid (pt : port) : (consumed pt).valid = pt.valid := by
  unfold consumed
  cases pt.io <;> rfl

theorem scanned_same {α : Type} (s t : impl α) (outport : port)
    (hl : t.last_port = s.last_port)
    (hin : t.in_ports = (scan_inputs s outport).in_ports) : same_port_table s t := by
  refine ⟨hl, fun i => ?_⟩
  rw [hin, scan_inputs_eq]
  dsimp only
  split
  · rename_i h
    right
    exact ⟨input_ready_valid _ h.2, by rw [consumed_valid]; exact input_ready_valid _ h.2⟩
  · left; rfl

theorem process_same {α : Type} [Add α] [Zero α] (sse : Bool) (hostmem : Nat → Nat → α)
    (s : impl α) : same_port_table s (impl_node_process sse hostmem s).2 := by
  unfold impl_node_process
  split
  · exact same_port_table_refl s
  · rename_i outio hio
    split
    · exact same_port_table_refl s
    · dsimp only
      split
      · exact scanned_same s _ (recycle s.out_ports outio).1 rfl rfl
      · exact scanned_same s _ (recycle s.out_ports outio).1 rfl rfl

theorem toU32_of_small (x : Int) (h0 : 0 ≤ x) (h1 : x < 4294967296) : toU32 x = x.toNat := by
  unfold toU32
  rw [Int.emod_eq_of_lt h0 h1]

theorem scan_last_port_spec (f : Nat → port) (n : Nat) :
    scan_last_port f n ≤ n ∧
    (∀ i, i < n → (f i).valid = true → i < scan_last_port f n) ∧
    (0 < scan_last_port f n → (f (scan_last_port f n - 1)).valid = true) := by
  induction n with
  | zero => simp [scan_last_port]
  | succ n ih =>
    unfold scan_last_port
    by_cases hv : (f n).valid = true
    · simp only [hv, if_true]
      refine ⟨Nat.le_refl _, fun i hi _ => hi, fun _ => ?_⟩
      simpa using hv
    · simp only [hv, if_false]
      obtain ⟨h1, h2, h3⟩ := ih
      refine ⟨Nat.le_succ_of_le h1, ?_, h3⟩
      intro i hi hvi
      by_cases hin : i = n
      · subst hin; exact absurd hvi hv
      · exact h2 i (by omega) hvi

theorem add_port_inv {α : Type} (s : impl α) (d : spa_direction) (p : Nat)
    (hinv : port_table_inv s) : port_table_inv (impl_node_add_port s d p).2 := by
  unfold impl_node_add_port
  split
  · rename_i hc
    obtain ⟨hz, h0, hmax, hlt, hlast⟩ := hinv
    have hp : p < MAX_PORTS := by
      simp [CHECK_FREE_IN_PORT] at hc
      exact hc.1.2
    have hu : toU32 s.last_port = s.last_port.toNat :=
      toU32_of_small _ h0 (by unfold MAX_PORTS at hmax; omega)
    unfold MAX_PORTS at hp hmax
    dsimp only
    rw [hu]
    unfold port_table_inv
    dsimp only
    refine ⟨?_, ?_, ?_, ?_, ?_⟩
    · intro i hi
      by_cases hip : i = p
      · subst hip; simp at hi
      · rw [Function.update_noteq hip] at hi ⊢
        exact hz i hi
    · split <;> omega
    · unfold MAX_PORTS; split <;> omega
    · intro i hi
      by_cases hip : i = p
      · subst hip; split <;> omega
      · rw [Function.update_noteq hip] at hi
        have := hlt i hi
        split <;> omega
    · intro hpos
      by_cases hle : s.last_port.toNat ≤ p
      · rw [if_pos hle] at hpos ⊢
        have : ((p : Int) + 1 - 1).toNat = p := by omega
        rw [this]
        simp
      · rw [if_neg hle] at hpos ⊢
        by_cases hip : (s.last_port - 1).toNat = p
        · rw [hip]; simp
        · rw [Function.update_noteq hip]
          exact hlast hpos
  · exact hinv

theorem remove_port_inv {α : Type} (s : impl α) (d : spa_direction) (p : Nat)
    (hinv : port_table_inv s) : port_table_inv (impl_node_remove_port s d p).2 := by
  unfold impl_node_remove_port
  split
  · rename_i hc
    obtain ⟨hz, h0, hmax, hlt, hlast⟩ := hinv
    have hv : (s.in_ports p).valid = true := by
      simp [CHECK_IN_PORT] at hc
      exact hc.2
    have hpl := hlt p hv
    unfold MAX_PORTS at hmax
    have hu : toU32 (s.last_port - 1) = (s.last_port - 1).toNat :=
      toU32_of_small _ (by omega) (by omega)
    dsimp only
    rw [hu]
    obtain ⟨hs1, hs2, hs3⟩ := scan_last_port_spec (Function.update s.in_ports p port.zero) (p + 1)
    have hzero : port.zero.valid = false := rfl
    unfold port_table_inv
    dsimp only
    refine ⟨?_, ?_, ?_, ?_, ?_⟩
    · intro i hi
      by_cases hip : i = p
      · subst hip; simp
      · rw [Function.update_noteq hip] at hi ⊢
        exact hz i hi
    · split <;> omega
    · unfold MAX_PORTS; split <;> omega
    · intro i hi
      by_cases hip : i = p
      · subst hip
        rw [Function.update_same, hzero] at hi
        exact absurd hi (by decide)
      · have hi' := hi
        rw [Function.update_noteq hip] at hi'
        have hil := hlt i hi'
        split
        · rename_i hpe
          have := hs2 i (by omega) hi
          omega
        · exact hil
    · intro hpos
      by_cases hpe : p = (s.last_port - 1).toNat
      · rw [if_pos hpe] at hpos ⊢
        have hpos' : 0 < scan_last_port (Function.update s.in_ports p port.zero) (p + 1) := by
          omega
        have := hs3 hpos'
        have he : ((scan_last_port (Function.update s.in_ports p port.zero) (p + 1) : Nat) : Int) - 1
            = ((scan_last_port (Function.update s.in_ports p port.zero) (p + 1) - 1 : Nat) : Int) := by
          omega
        rw [he, Int.toNat_ofNat]
        exact this
      · rw [if_neg hpe] at hpos ⊢
        have hne : (s.last_port - 1).toNat ≠ p := fun h => hpe h.symm
        rw [Function.update_noteq hne]
        exact hlast hpos
  · exact hinv

theorem impl_init_inv {α : Type} [Zero α] : port_table_inv (impl_init : impl α) := by
  refine ⟨fun _ _ => rfl, by simp [impl_init], by simp [impl_init, MAX_PORTS], ?_, ?_⟩
  · intro i hi
    exact absurd hi (by simp [impl_init, port.zero])
  · intro h
    exact absurd h (by simp [impl_init])

theorem reachable_inv {α : Type} [Add α] [Zero α] (s : impl α) (h : Reachable s) :
    port_table_inv s := by
  induction h with
  | init => exact impl_init_inv
  | send_command s c _ ih => exact same_port_table_inv _ _ (send_command_same s c) ih
  | add_port s d p _ ih => exact add_port_inv s d p ih
  | remove_port s d p _ ih => exact remove_port_inv s d p ih
  | port_set_param s d p id flags param _ ih =>
    exact same_port_table_inv _ _ (port_set_param_same s d p id flags param) ih
  | port_use_buffers s d p buffers _ _ ih =>
    exact same_port_table_inv _ _ (port_use_buffers_same s d p buffers) ih
  | port_set_io s d p id db dr _ ih =>
    exact same_port_table_inv _ _ (port_set_io_same s d p id db dr) ih
  | port_reuse_buffer s p b _ ih =>
    exact same_port_table_inv _ _ (port_reuse_buffer_same s p b) ih
  | process s sse hostmem _ ih =>
    exact same_port_table_inv _ _ (process_same sse hostmem s) ih
  | host_io s d p io hc _ _ ih =>
    exact same_port_table_inv _ _ (same_port_table_SET_PORT s s d p _ hc rfl rfl rfl) ih
  | host_range s d p range hc _ _ ih =>
    exact same_port_table_inv _ _ (same_port_table_SET_PORT s s d p _ hc rfl rfl rfl) ih
  | host_buffer s d p k sb hc _ ih =>
    exact same_port_table_inv _ _ (same_port_table_SET_PORT s s d p _ hc rfl rfl rfl) ih

theorem scan_last_port_eq (f : Nat → port) (n L : Nat) (hL : L ≤ n)
    (hlt : ∀ i, (f i).valid = true → i < L)
    (hlast : 0 < L → (f (L - 1)).valid = true) :
    scan_last_port f n = L := by
  obtain ⟨h1, h2, h3⟩ := scan_last_port_spec f n
  have ha : scan_last_port f n ≤ L := by
    by_cases hr : 0 < scan_last_port f n
    · have := hlt _ (h3 hr)
      omega
    · omega
  have hb : L ≤ scan_last_port f n := by
    by_cases hl : 0 < L
    · have := h2 (L - 1) (by omega) (hlast hl)
      omega
    · omega
  omega

/-- C10: in every reachable state, for every input port id `p < MAX_PORTS`
whose slot is free, `impl_node_add_port(p)` returns 0 and
`impl_node_remove_port(p)` after it returns 0 and gives back the state before
the add, in every field: so `n_formats`, the node's `have_format`, the
watermark `last_port`, `port_count` and the validity of every input port are
what they were. -/
theorem add_remove_port_restores {α : Type} [Add α] [Zero α] (s : impl α) (p : Nat)
    (hr : Reachable s) (hp : p < MAX_PORTS) (hfree : (s.in_ports p).valid = false) :
    (impl_node_add_port s .INPUT p).1 = 0 ∧
    impl_node_remove_port (impl_node_add_port s .INPUT p).2 .INPUT p = (0, s) := by
  obtain ⟨hz, h0, hmax, hlt, hlast⟩ := reachable_inv s hr
  have hzero : s.in_ports p = port.zero := hz p hfree
  have hcf : CHECK_FREE_IN_PORT s .INPUT p = true := by
    simp [CHECK_FREE_IN_PORT, hp, hfree]
  unfold MAX_PORTS at hmax hp
  have hu : toU32 s.last_port = s.last_port.toNat := toU32_of_small _ h0 (by omega)
  have hadd : impl_node_add_port s .INPUT p =
      (0, { s with
        port_count := s.port_count + 1
        last_port := if s.last_port.toNat ≤ p then (p : Int) + 1 else s.last_port
        in_ports := Function.update s.in_ports p
          { port.zero with
            id := p
            props := port_props_reset port.zero.props
            io_volume := true
            io_mute := true
            queue := []
            info_flags := [.CAN_USE_BUFFERS, .REMOVABLE, .OPTIONAL, .IN_PLACE]
            valid := true } }) := by
    unfold impl_node_add_port
    rw [if_pos hcf, hu, hzero]
  rw [hadd]
  refine ⟨rfl, ?_⟩
  have hci : CHECK_IN_PORT
      ({ s with
        port_count := s.port_count + 1
        last_port := if s.last_port.toNat ≤ p then (p : Int) + 1 else s.last_port
        in_ports := Function.update s.in_ports p
          { port.zero with
            id := p
            props := port_props_reset port.zero.props
            io_volume := true
            io_mute := true
            queue := []
            info_flags := [.CAN_USE_BUFFERS, .REMOVABLE, .OPTIONAL, .IN_PLACE]
            valid := true } } : impl α) .INPUT p = true := by
    simp [CHECK_IN_PORT, MAX_PORTS, hp]
  have hback : Function.update (Function.update s.in_ports p
      { port.zero with
        id := p
        props := port_props_reset port.zero.props
        io_volume := true
        io_mute := true
        queue := spa_list_init
        info_flags := [.CAN_USE_BUFFERS, .REMOVABLE, .OPTIONAL, .IN_PLACE]
        valid := true }) p port.zero = s.in_ports := by
    rw [Function.update_idem, ← hzero, Function.update_eq_self]
  have hlast_eq :
      (if p = toU32 ((if s.last_port.toNat ≤ p then (p : Int) + 1 else s.last_port) - 1) then
        (scan_last_port s.in_ports (p + 1) : Int)
      else (if s.last_port.toNat ≤ p then (p : Int) + 1 else s.last_port)) = s.last_port := by
    by_cases hle : s.last_port.toNat ≤ p
    · rw [if_pos hle]
      have hup : toU32 ((p : Int) + 1 - 1) = p := by
        rw [toU32_of_small _ (by omega) (by omega)]
        omega
      rw [if_pos hup.symm]
      have hscan : scan_last_port s.in_ports (p + 1) = s.last_port.toNat := by
        apply scan_last_port_eq
        · omega
        · intro i hi
          have := hlt i hi
          omega
        · intro hpos
          have := hlast (by omega)
          have he : (s.last_port - 1).toNat = s.last_port.toNat - 1 := by omega
          rw [← he]
          exact this
      rw [hscan]
      omega
    · rw [if_neg hle]
      have hpos : 0 < s.last_port := by omega
      have hv := hlast hpos
      have hne : p ≠ toU32 (s.last_port - 1) := by
        rw [toU32_of_small _ (by omega) (by omega)]
        intro h
        rw [← h, hfree] at hv
        exact absurd hv (by decide)
      rw [if_neg hne]
  unfold impl_node_remove_port
  rw [if_pos hci]
  dsimp only
  rw [hback, hlast_eq]
  have hzf : port.zero.have_format = false := rfl
  cases s
  simp [hzf]

/-- Witness of `add_remove_port_restores`: port 5 added to and removed from the
freshly initialised node. -/
theorem add_remove_port_restores_witness :
    (impl_node_add_port (impl_init : impl ℚ) .INPUT 5).1 = 0 ∧
    impl_node_remove_port (impl_node_add_port (impl_init : impl ℚ) .INPUT 5).2 .INPUT 5
      = (0, impl_init) :=
  add_remove_port_restores impl_init 5 Reachable.init (by decide) (by decide)

/-! ## C13, C14: the free queue -/

theorem flag_check_set (f : Nat) :
    SPA_FLAG_CHECK (SPA_FLAG_SET f BUFFER_FLAG_QUEUED) BUFFER_FLAG_QUEUED = true := by
  unfold SPA_FLAG_CHECK SPA_FLAG_SET BUFFER_FLAG_QUEUED
  have h : (f ||| 1) &&& 1 = 1 := by
    apply Nat.eq_of_testBit_eq
    intro i
    rw [Nat.testBit_and, Nat.testBit_or]
    cases i with
    | zero => simp
    | succ j => simp [Nat.testBit_one_eq_true_iff_self_eq_zero]
  simp [h]

theorem flag_check_unset (f : Nat) :
    SPA_FLAG_CHECK (SPA_FLAG_UNSET f BUFFER_FLAG_QUEUED) BUFFER_FLAG_QUEUED = false := by
  unfold SPA_FLAG_CHECK SPA_FLAG_UNSET BUFFER_FLAG_QUEUED
  have h : (f &&& (0xffffffff ^^^ 1)) &&& 1 = 0 := by
    rw [Nat.and_assoc]
    have : (0xffffffff ^^^ 1) &&& 1 = 0 := by decide
    rw [this]
    simp
  simp [h]

theorem queue_buffer_of_queued (pt : port) (idx : Nat)
    (h : is_queued (pt.buffers idx) = true) : queue_buffer pt idx = (-EINVAL, pt) := by
  unfold queue_buffer
  unfold is_queued at h
  simp only [h, if_true]

theorem queue_buffer_of_not_queued (pt : port) (idx : Nat)
    (h : is_queued (pt.buffers idx) = false) :
    queue_buffer pt idx = (0, { pt with
      queue := pt.queue ++ [idx]
      buffers := Function.update pt.buffers idx
        { pt.buffers idx with
          flags := SPA_FLAG_SET (pt.buffers idx).flags BUFFER_FLAG_QUEUED } }) := by
  unfold queue_buffer
  unfold is_queued at h
  simp only [h, Bool.false_eq_true, if_false]

theorem queue_buffer_result (pt : port) (idx : Nat) :
    (queue_buffer pt idx).1 = 0 ∨ (queue_buffer pt idx).1 = -EINVAL := by
  cases h : is_queued (pt.buffers idx)
  · rw [queue_buffer_of_not_queued pt idx h]; exact Or.inl rfl
  · rw [queue_buffer_of_queued pt idx h]; exact Or.inr rfl

theorem queue_buffer_sets_flag (pt : port) (idx : Nat) (h0 : (queue_buffer pt idx).1 = 0) :
    is_queued ((queue_buffer pt idx).2.buffers idx) = true := by
  cases h : is_queued (pt.buffers idx)
  · rw [queue_buffer_of_not_queued pt idx h]
    simp only [Function.update_same]
    exact flag_check_set _
  · rw [queue_buffer_of_queued pt idx h] at h0
    exact absurd h0 (by simp [EINVAL])

/-- Counterexample to C13 as stated: slot 0 of the output port of
`installed_output_state` was enqueued by the installation and is still in the
free queue with its QUEUED flag set (so `queue_buffer` rejects it).  A second
installation, which never calls `dequeue_buffer`, empties the queue in
`clear_buffers`, clears the flags of the slot and enqueues it again: its call
of `queue_buffer` on slot 0 returns 0. -/
theorem enqueued_again_without_dequeue :
    installed_output_state.out_ports.queue = [0] ∧
    is_queued (installed_output_state.out_ports.buffers 0) = true ∧
    (queue_buffer installed_output_state.out_ports 0).1 = -EINVAL ∧
    (queue_buffer
      (install_slot (clear_buffers installed_output_state.out_ports) 0 (host_buffer 5 0)) 0).1
      = 0 ∧
    impl_node_port_use_buffers installed_output_state .OUTPUT 0 [host_buffer 5 0]
      = (0, { installed_output_state with
          out_ports := { (queue_buffer
            (install_slot (clear_buffers installed_output_state.out_ports) 0
              (host_buffer 5 0)) 0).2 with n_buffers := 1 } }) ∧
    (impl_node_port_use_buffers installed_output_state .OUTPUT 0
      [host_buffer 5 0]).2.out_ports.queue = [0] :=
  ⟨by decide, by decide, by decide, by decide, rfl, by decide⟩

/-- C13 (as amended): `queue_buffer` on a slot whose QUEUED flag is set returns
`-EINVAL` and leaves the port (free queue and flag included) unchanged, and on
a slot whose flag is clear it returns 0.  A slot that `queue_buffer` has just
enqueued is therefore rejected on the next attempt, until its flag has been
cleared: `dequeue_buffer` clears it when it returns the slot, and a new
installation clears the flags of every slot it installs, after either of which
`queue_buffer` accepts the slot again.  `impl_node_port_reuse_buffer` returns
`-EINVAL` and leaves the node unchanged both for a queued slot and for a buffer
id that is not below the installed count of the output port. -/
theorem queue_buffer_rejects_queued {α : Type} (this : impl α) (pt : port) (idx : Nat)
    (port_id buffer_id : Nat) (sb : spa_buffer) :
    (is_queued (pt.buffers idx) = true → queue_buffer pt idx = (-EINVAL, pt)) ∧
    (is_queued (pt.buffers idx) = false → (queue_buffer pt idx).1 = 0) ∧
    ((queue_buffer pt idx).1 = 0 →
      queue_buffer (queue_buffer pt idx).2 idx = (-EINVAL, (queue_buffer pt idx).2)) ∧
    ((dequeue_buffer pt).1 = some idx →
      is_queued ((dequeue_buffer pt).2.buffers idx) = false ∧
      (queue_buffer (dequeue_buffer pt).2 idx).1 = 0) ∧
    (is_queued ((install_slot pt idx sb).buffers idx) = false ∧
      (queue_buffer (install_slot pt idx sb) idx).1 = 0) ∧
    (is_queued (this.out_ports.buffers buffer_id) = true →
      impl_node_port_reuse_buffer this port_id buffer_id = (-EINVAL, this)) ∧
    (this.out_ports.n_buffers ≤ buffer_id →
      impl_node_port_reuse_buffer this port_id buffer_id = (-EINVAL, this)) := by
  have hinst : is_queued ((install_slot pt idx sb).buffers idx) = false := by
    unfold install_slot
    simp only [Function.update_same]
    show SPA_FLAG_CHECK 0 BUFFER_FLAG_QUEUED = false
    decide
  refine ⟨queue_buffer_of_queued pt idx, ?_, ?_, ?_, ⟨hinst, ?_⟩, ?_, ?_⟩
  · intro h
    rw [queue_buffer_of_not_queued pt idx h]
  · intro h0
    exact queue_buffer_of_queued _ idx (queue_buffer_sets_flag pt idx h0)
  · intro hd
    cases hq : pt.queue with
    | nil => rw [dequeue_buffer_nil pt hq] at hd; simp at hd
    | cons k rest =>
      rw [dequeue_buffer_cons pt k rest hq] at hd ⊢
      simp only [Option.some.injEq] at hd
      subst hd
      have hclear : is_queued (({ pt with
          queue := rest
          buffers := Function.update pt.buffers k
            { pt.buffers k with
              flags := SPA_FLAG_UNSET (pt.buffers k).flags BUFFER_FLAG_QUEUED } } : port).buffers
          k) = false := by
        simp only [Function.update_same, is_queued]
        exact flag_check_unset _
      refine ⟨hclear, ?_⟩
      rw [queue_buffer_of_not_queued _ k hclear]
  · rw [queue_buffer_of_not_queued _ idx hinst]
  · intro hq
    unfold impl_node_port_reuse_buffer
    split
    · dsimp only
      split
      · rfl
      · rw [queue_buffer_of_queued _ _ hq]
    · rfl
  · intro hn
    unfold impl_node_port_reuse_buffer
    split
    · dsimp only
      rw [if_pos hn]
    · rfl

/-- Witness of `queue_buffer_rejects_queued`: slot 0 of the output port of
`installed_output_state` is queued, so `queue_buffer` and
`impl_node_port_reuse_buffer` reject it; `dequeue_buffer` returns it, after
which it is accepted. -/
theorem queue_buffer_rejects_queued_witness :
    queue_buffer installed_output_state.out_ports 0
      = (-EINVAL, installed_output_state.out_ports) ∧
    (is_queued ((dequeue_buffer installed_output_state.out_ports).2.buffers 0) = false ∧
      (queue_buffer (dequeue_buffer installed_output_state.out_ports).2 0).1 = 0) ∧
    impl_node_port_reuse_buffer installed_output_state 0 0
      = (-EINVAL, installed_output_state) ∧
    impl_node_port_reuse_buffer installed_output_state 0 1
      = (-EINVAL, installed_output_state) :=
  ⟨(queue_buffer_rejects_queued installed_output_state installed_output_state.out_ports 0
      0 0 spa_buffer.zero).1 (by decide),
   (queue_buffer_rejects_queued installed_output_state installed_output_state.out_ports 0
      0 0 spa_buffer.zero).2.2.2.1 (by decide),
   (queue_buffer_rejects_queued installed_output_state installed_output_state.out_ports 0
      0 0 spa_buffer.zero).2.2.2.2.2.1 (by decide),
   (queue_buffer_rejects_queued installed_output_state installed_output_state.out_ports 0
      0 1 spa_buffer.zero).2.2.2.2.2.2 (by decide)⟩

/-- C14: the free queue is first-in first-out.  On a free queue `q` (a list of
slots none of which is linked twice) and for a slot `b` that is not queued
(its QUEUED flag is clear and it is not linked in `q`), `queue_buffer` returns
0, appends the slot at the tail (`q ++ [b]`, again without a slot linked twice)
and sets its QUEUED flag; `dequeue_buffer` on a non-empty queue returns the
head, removes it and clears its QUEUED flag; `dequeue_buffer` on an empty queue
returns `NULL` and changes nothing.  On an empty queue, enqueueing `b` and then
dequeueing returns `b` and leaves the queue empty. -/
theorem queue_fifo (pt : port) (b k : Nat) (rest : List Nat) (hnd : pt.queue.Nodup) :
    (is_queued (pt.buffers b) = false → b ∉ pt.queue →
      (queue_buffer pt b).1 = 0 ∧
      (queue_buffer pt b).2.queue = pt.queue ++ [b] ∧
      (queue_buffer pt b).2.queue.Nodup ∧
      is_queued ((queue_buffer pt b).2.buffers b) = true) ∧
    (pt.queue = k :: rest →
      (dequeue_buffer pt).1 = some k ∧
      (dequeue_buffer pt).2.queue = rest ∧
      k ∉ (dequeue_buffer pt).2.queue ∧
      (dequeue_buffer pt).2.queue.Nodup ∧
      is_queued ((dequeue_buffer pt).2.buffers k) = false) ∧
    (pt.queue = [] → dequeue_buffer pt = (none, pt)) ∧
    (pt.queue = [] → is_queued (pt.buffers b) = false →
      (dequeue_buffer (queue_buffer pt b).2).1 = some b ∧
      (dequeue_buffer (queue_buffer pt b).2).2.queue = []) := by
  refine ⟨?_, ?_, dequeue_buffer_nil pt, ?_⟩
  · intro h hb
    rw [queue_buffer_of_not_queued pt b h]
    refine ⟨rfl, rfl, ?_, ?_⟩
    · show (pt.queue ++ [b]).Nodup
      rw [List.nodup_append]
      refine ⟨hnd, List.nodup_singleton b, ?_⟩
      intro x hx hxb
      rw [List.mem_singleton] at hxb
      subst hxb
      exact hb hx
    · simp only [Function.update_same, is_queued]
      exact flag_check_set _
  · intro hq
    rw [dequeue_buffer_cons pt k rest hq]
    rw [hq, List.nodup_cons] at hnd
    refine ⟨rfl, rfl, hnd.1, hnd.2, ?_⟩
    simp only [Function.update_same, is_queued]
    exact flag_check_unset _
  · intro hq h
    rw [queue_buffer_of_not_queued pt b h]
    have hq1 : ({ pt with
        queue := spa_list_append pt.queue b
        buffers := Function.update pt.buffers b
          { pt.buffers b with
            flags := SPA_FLAG_SET (pt.buffers b).flags BUFFER_FLAG_QUEUED } } : port).queue
        = b :: [] := by
      show pt.queue ++ [b] = [b]
      rw [hq, List.nil_append]
    rw [dequeue_buffer_cons _ b [] hq1]
    exact ⟨rfl, rfl⟩

/-- Witness of `queue_fifo`: slot 0 enqueued on, and dequeued from, the empty
queue of the output port of the freshly initialised node; and the head taken
from the queue of three slots of the concrete scenario. -/
theorem queue_fifo_witness :
    ((queue_buffer (impl_init : impl ℚ).out_ports 0).1 = 0 ∧
      (queue_buffer (impl_init : impl ℚ).out_ports 0).2.queue
        = (impl_init : impl ℚ).out_ports.queue ++ [0] ∧
      (queue_buffer (impl_init : impl ℚ).out_ports 0).2.queue.Nodup ∧
      is_queued ((queue_buffer (impl_init : impl ℚ).out_ports 0).2.buffers 0) = true) ∧
    ((dequeue_buffer (queue_buffer (impl_init : impl ℚ).out_ports 0).2).1 = some 0 ∧
      (dequeue_buffer (queue_buffer (impl_init : impl ℚ).out_ports 0).2).2.queue = []) ∧
    ((dequeue_buffer two_inputs_state.out_ports).1 = some 0 ∧
      (dequeue_buffer two_inputs_state.out_ports).2.queue = [1, 2] ∧
      0 ∉ (dequeue_buffer two_inputs_state.out_ports).2.queue ∧
      (dequeue_buffer two_inputs_state.out_ports).2.queue.Nodup ∧
      is_queued ((dequeue_buffer two_inputs_state.out_ports).2.buffers 0) = false) :=
  ⟨(queue_fifo (impl_init : impl ℚ).out_ports 0 0 [] List.nodup_nil).1 (by decide)
      (List.not_mem_nil 0),
   (queue_fifo (impl_init : impl ℚ).out_ports 0 0 [] List.nodup_nil).2.2.2 (by decide)
      (by decide),
   (queue_fifo two_inputs_state.out_ports 0 0 [1, 2] (by decide)).2.1 (by decide)⟩

/-! ## C19: commands -/

theorem process_started {α : Type} [Add α] [Zero α] (sse : Bool) (hostmem : Nat → Nat → α)
    (this : impl α) (b : Bool) :
    impl_node_process sse hostmem { this with started := b } =
      ((impl_node_process sse hostmem this).1,
        { (impl_node_process sse hostmem this).2 with started := b }) := by
  unfold impl_node_process
  cases hio : this.out_ports.io with
  | none => simp only [hio]
  | some outio =>
    simp only [hio]
    by_cases hst : outio.status = SPA_STATUS_HAVE_BUFFER
    · simp only [hst, if_true]
    · simp only [if_neg hst]
      have hs : scan_inputs { this with started := b } (recycle this.out_ports outio).1
          = scan_inputs this (recycle this.out_ports outio).1 := rfl
      rw [hs]
      cases hd : (dequeue_buffer (recycle this.out_ports outio).1).1 with
      | none => rfl
      | some k => rfl

/-- C19: `impl_node_send_command` with "start" returns 0 and sets `started`,
with "pause" returns 0 and clears `started`, and with any other command id
returns `-ENOTSUP` and changes nothing; in each case no other field of the node
changes.  `impl_node_process` does not read `started`: on two nodes that differ
only in `started` it returns the same status and produces the same node, up to
that flag. -/
theorem send_command_started {α : Type} [Add α] [Zero α] (this : impl α) (code : Nat)
    (sse : Bool) (hostmem : Nat → Nat → α) (b : Bool) :
    impl_node_send_command this .Start = (0, { this with started := true }) ∧
    impl_node_send_command this .Pause = (0, { this with started := false }) ∧
    impl_node_send_command this (.other code) = (-ENOTSUP, this) ∧
    (impl_node_process sse hostmem { this with started := b }).1
      = (impl_node_process sse hostmem this).1 ∧
    (impl_node_process sse hostmem { this with started := b }).2
      = { (impl_node_process sse hostmem this).2 with started := b } := by
  refine ⟨rfl, rfl, rfl, ?_, ?_⟩
  · rw [process_started]
  · rw [process_started]

/-! ## C12: the bound on installed buffers -/

/-- C12 fails on the code: `impl_node_port_use_buffers` has no test of
`n_buffers` against `MAX_BUFFERS`.  With 65 valid buffers on an output port
that holds a format it returns 0, the installed count is 65 and the loop has
written slot 64 (in C: one past the end of `port->buffers`), which it also
links in the free queue. -/
theorem use_buffers_exceeds_max :
    MAX_BUFFERS = 64 ∧
    (GET_PORT output_format_state .OUTPUT 0).have_format = true ∧
    oversized_set.length = 65 ∧
    (∀ b ∈ oversized_set, data_ok b.datas0 = true) ∧
    (impl_node_port_use_buffers output_format_state .OUTPUT 0 oversized_set).1 = 0 ∧
    (impl_node_port_use_buffers output_format_state .OUTPUT 0 oversized_set).2.out_ports.n_buffers
      = 65 ∧
    (output_format_state.out_ports.buffers 64).buffer = spa_buffer.zero ∧
    ((impl_node_port_use_buffers output_format_state .OUTPUT 0
      oversized_set).2.out_ports.buffers 64).buffer = host_buffer 7 0 ∧
    64 ∈ (impl_node_port_use_buffers output_format_state .OUTPUT 0
      oversized_set).2.out_ports.queue := by
  set_option maxRecDepth 4096 in decide

/-! ## C16: a successful installation -/

theorem is_queued_zero_flags (b : buffer) (h : b.flags = 0) : is_queued b = false := by
  unfold is_queued
  rw [h]
  decide

theorem installed_slots_step (direction : spa_direction) (f : Nat → buffer) (sb : spa_buffer)
    (rest : List spa_buffer) (i : Nat) :
    (fun j =>
      if i + 1 ≤ j ∧ j < i + 1 + rest.length then
        installed_slot direction
          (Function.update f i (installed_slot direction (f i) sb i) j)
          (rest.getD (j - (i + 1)) spa_buffer.zero) j
      else Function.update f i (installed_slot direction (f i) sb i) j) =
    fun j =>
      if i ≤ j ∧ j < i + (sb :: rest).length then
        installed_slot direction (f j) ((sb :: rest).getD (j - i) spa_buffer.zero) j
      else f j := by
  funext j
  by_cases hj : j = i
  · subst hj
    have h1 : ¬ (j + 1 ≤ j ∧ j < j + 1 + rest.length) := by omega
    have h2 : j ≤ j ∧ j < j + (sb :: rest).length := by
      simp only [List.length_cons]; omega
    rw [if_neg h1, if_pos h2]
    simp
  · by_cases h1 : i + 1 ≤ j ∧ j < i + 1 + rest.length
    · have h2 : i ≤ j ∧ j < i + (sb :: rest).length := by
        simp only [List.length_cons]; omega
      have h3 : j - i = (j - (i + 1)) + 1 := by omega
      rw [if_pos h1, if_pos h2, Function.update_noteq hj, h3, List.getD_cons_succ]
    · have h2 : ¬ (i ≤ j ∧ j < i + (sb :: rest).length) := by
        simp only [List.length_cons]; omega
      rw [if_neg h1, if_neg h2, Function.update_noteq hj]

/-- The loop of `impl_node_port_use_buffers` over valid buffers, in closed
form. -/
theorem use_buffers_loop_ok (direction : spa_direction) (buffers : List spa_buffer)
    (hok : ∀ b ∈ buffers, data_ok b.datas0 = true) :
    ∀ (i : Nat) (pt : port),
      use_buffers_loop direction buffers i pt =
        (0, { pt with
          queue := pt.queue ++
            (if direction = .OUTPUT then List.range' i buffers.length else [])
          buffers := fun j =>
            if i ≤ j ∧ j < i + buffers.length then
              installed_slot direction (pt.buffers j) (buffers.getD (j - i) spa_buffer.zero) j
            else pt.buffers j }) := by
  induction buffers with
  | nil =>
    intro i pt
    unfold use_buffers_loop
    have hb : (fun j =>
        if i ≤ j ∧ j < i + ([] : List spa_buffer).length then
          installed_slot direction (pt.buffers j)
            (([] : List spa_buffer).getD (j - i) spa_buffer.zero) j
        else pt.buffers j) = pt.buffers := by
      funext j
      have : ¬ (i ≤ j ∧ j < i + ([] : List spa_buffer).length) := by
        simp only [List.length_nil]; omega
      rw [if_neg this]
    rw [hb]
    cases direction <;> simp
  | cons sb rest ih =>
    intro i pt
    have hsb : data_ok sb.datas0 = true := hok sb (List.mem_cons_self _ _)
    have hrest : ∀ b ∈ rest, data_ok b.datas0 = true :=
      fun b hb => hok b (List.mem_cons_of_mem _ hb)
    unfold use_buffers_loop
    simp only [hsb, Bool.not_true, Bool.false_eq_true, if_false]
    rw [ih hrest, ← installed_slots_step direction pt.buffers sb rest i]
    cases direction with
    | INPUT =>
      simp only [reduceCtorEq, if_false, List.append_nil]
      rfl
    | OUTPUT =>
      have hq : is_queued ((install_slot pt i sb).buffers i) = false := by
        apply is_queued_zero_flags
        simp [install_slot]
      simp only [if_true]
      rw [queue_buffer_of_not_queued _ _ hq]
      simp only [install_slot, Function.update_same, Function.update_idem, List.length_cons,
        List.range'_succ, List.append_assoc, List.singleton_append]
      rfl

/-- C16 fails on the code: after an installation on the output port was
rejected for its second buffer (slot 0 stays linked, the installed count stays
0), `clear_buffers` does not reset the queue, because it only does so when
`n_buffers > 0`.  A following installation of one valid buffer returns 0 and
sets the installed count to 1, but appends slot 0 while it is still linked
(in C this corrupts the list): the free queue is not exactly slot 0. -/
theorem use_buffers_after_rejected_set :
    (GET_PORT failed_install_state .OUTPUT 0).have_format = true ∧
    failed_install_state.out_ports.n_buffers = 0 ∧
    failed_install_state.out_ports.queue = [0] ∧
    data_ok (host_buffer 3 0).datas0 = true ∧
    (impl_node_port_use_buffers failed_install_state .OUTPUT 0 [host_buffer 3 0]).1 = 0 ∧
    (impl_node_port_use_buffers failed_install_state .OUTPUT 0
      [host_buffer 3 0]).2.out_ports.n_buffers = 1 ∧
    (impl_node_port_use_buffers failed_install_state .OUTPUT 0
      [host_buffer 3 0]).2.out_ports.queue = [0, 0] := by
  decide

/-! ## C15: queue membership and the QUEUED flag -/

theorem same_pool_inv (a b : port) (h : same_pool a b) (ha : pool_inv a) : pool_inv b := by
  obtain ⟨hq, hn, hf⟩ := h
  obtain ⟨h1, h2, h3⟩ := ha
  unfold pool_inv is_queued
  rw [hq, hn]
  refine ⟨h1, h2, ?_⟩
  intro k hk
  rw [hf k]
  exact h3 k hk

theorem pool_inv_zero : pool_inv port.zero := by
  refine ⟨List.nodup_nil, ?_, ?_⟩
  · intro k hk; simp [port.zero] at hk
  · intro k hk; simp [port.zero] at hk

theorem pool_inv_queue_nil (pt : port) (h : pool_inv pt) (hn : pt.n_buffers = 0) :
    pt.queue = [] := by
  obtain ⟨_, h2, _⟩ := h
  cases hq : pt.queue with
  | nil => rfl
  | cons k rest =>
    have := h2 k (by rw [hq]; exact List.mem_cons_self _ _)
    omega

theorem clear_buffers_pool_inv (pt : port) (h : pool_inv pt) : pool_inv (clear_buffers pt) := by
  unfold clear_buffers
  split
  · refine ⟨List.nodup_nil, ?_, ?_⟩
    · intro k hk; simp at hk
    · intro k hk; simp at hk
  · exact h

theorem queue_buffer_pool_inv (pt : port) (idx : Nat) (h : pool_inv pt)
    (hidx : idx < pt.n_buffers) : pool_inv (queue_buffer pt idx).2 := by
  cases hq : is_queued (pt.buffers idx)
  · rw [queue_buffer_of_not_queued pt idx hq]
    obtain ⟨h1, h2, h3⟩ := h
    have hnot : idx ∉ pt.queue := by
      intro hm
      have := (h3 idx hidx).mp hm
      rw [hq] at this
      exact absurd this (by decide)
    refine ⟨?_, ?_, ?_⟩
    · show (pt.queue ++ [idx]).Nodup
      rw [List.nodup_append]
      refine ⟨h1, List.nodup_singleton _, ?_⟩
      intro a ha hb
      rw [List.mem_singleton] at hb
      subst hb
      exact hnot ha
    · intro k hk
      show k < pt.n_buffers
      have hk' : k ∈ pt.queue ++ [idx] := hk
      rw [List.mem_append, List.mem_singleton] at hk'
      rcases hk' with hk' | hk'
      · exact h2 k hk'
      · rw [hk']; exact hidx
    · intro k hk
      show k ∈ pt.queue ++ [idx] ↔ _
      by_cases hki : k = idx
      · subst hki
        simp only [Function.update_same, List.mem_append, List.mem_singleton, or_true, true_iff]
        exact flag_check_set _
      · simp only [Function.update_noteq hki, List.mem_append, List.mem_singleton, hki, or_false]
        exact h3 k hk
  · rw [queue_buffer_of_queued pt idx hq]
    exact h

theorem dequeue_buffer_pool_inv (pt : port) (h : pool_inv pt) :
    pool_inv (dequeue_buffer pt).2 := by
  cases hq : pt.queue with
  | nil => rw [dequeue_buffer_nil pt hq]; exact h
  | cons k rest =>
    rw [dequeue_buffer_cons pt k rest hq]
    obtain ⟨h1, h2, h3⟩ := h
    rw [hq] at h1 h2
    have hk : k ∉ rest := (List.nodup_cons.mp h1).1
    refine ⟨(List.nodup_cons.mp h1).2, ?_, ?_⟩
    · intro j hj
      exact h2 j (List.mem_cons_of_mem _ hj)
    · intro j hj
      show j ∈ rest ↔ _
      by_cases hjk : j = k
      · subst hjk
        simp only [Function.update_same, is_queued, flag_check_unset]
        simp [hk]
      · simp only [Function.update_noteq hjk]
        have := h3 j hj
        rw [hq, List.mem_cons] at this
        simp only [hjk, false_or] at this
        exact this

theorem clear_buffers_queue_nil (pt : port) (h : pool_inv pt) :
    (clear_buffers pt).queue = [] := by
  unfold clear_buffers
  split
  · rfl
  · exact pool_inv_queue_nil pt h (by omega)

theorem use_buffers_pool_inv (direction : spa_direction) (buffers : List spa_buffer)
    (hok : ∀ b ∈ buffers, data_ok b.datas0 = true) (pt : port) (h : pool_inv pt) :
    pool_inv { (use_buffers_loop direction buffers 0 (clear_buffers pt)).2 with
      n_buffers := buffers.length } := by
  rw [use_buffers_loop_ok direction buffers hok]
  simp only [clear_buffers_queue_nil pt h, List.nil_append, Nat.zero_add, Nat.zero_le, true_and,
    Nat.sub_zero]
  cases direction with
  | INPUT =>
    refine ⟨?_, ?_, ?_⟩
    · simp
    · intro k hk; simp at hk
    · intro k hk
      have hk' : k < buffers.length := hk
      simp only [reduceCtorEq, if_false, hk', if_true, installed_slot]
      simp [is_queued, SPA_FLAG_CHECK, BUFFER_FLAG_QUEUED]
  | OUTPUT =>
    refine ⟨?_, ?_, ?_⟩
    · simp only [if_true]
      exact List.nodup_range' 0 buffers.length
    · intro k hk
      simp only [if_true, List.mem_range'_1] at hk
      show k < buffers.length
      omega
    · intro k hk
      have hk' : k < buffers.length := hk
      simp only [if_true, hk', installed_slot, List.mem_range'_1]
      simp only [is_queued, flag_check_set]
      simp [hk']

theorem queue_inv_SET_PORT {α : Type} (s s1 : impl α) (d : spa_direction) (p : Nat) (q : port)
    (h : queue_inv s) (hin : s1.in_ports = s.in_ports) (hout : s1.out_ports = s.out_ports)
    (hq : pool_inv q) : queue_inv (SET_PORT s1 d p q) := by
  obtain ⟨ho, hi⟩ := h
  cases d with
  | OUTPUT =>
    refine ⟨hq, fun i => ?_⟩
    simp only [SET_PORT, hin]
    exact hi i
  | INPUT =>
    refine ⟨?_, fun i => ?_⟩
    · simp only [SET_PORT, hout]; exact ho
    · simp only [SET_PORT, hin]
      by_cases hip : i = p
      · subst hip; simp only [Function.update_same]; exact hq
      · simp only [Function.update_noteq hip]; exact hi i

theorem queue_inv_GET_PORT {α : Type} (s : impl α) (d : spa_direction) (p : Nat)
    (h : queue_inv s) : pool_inv (GET_PORT s d p) := by
  cases d with
  | OUTPUT => exact h.1
  | INPUT => exact h.2 p

theorem port_set_format_queue_inv {α : Type} (s : impl α) (d : spa_direction) (p : Nat)
    (flags : Nat) (param : Option spa_pod_format) (h : queue_inv s) :
    queue_inv (port_set_format s d p flags param).2 := by
  have hp := queue_inv_GET_PORT s d p h
  unfold port_set_format
  cases param with
  | none =>
    dsimp only
    split
    · exact queue_inv_SET_PORT s _ d p _ h rfl rfl
        (clear_buffers_pool_inv _ (same_pool_inv (GET_PORT s d p) _ ⟨rfl, rfl, fun _ => rfl⟩ hp))
    · exact h
  | some f =>
    dsimp only
    repeat' split
    all_goals first
      | exact h
      | exact queue_inv_SET_PORT s _ d p _ h rfl rfl
          (same_pool_inv (GET_PORT s d p) _ ⟨rfl, rfl, fun _ => rfl⟩ hp)

theorem port_set_param_queue_inv {α : Type} (s : impl α) (d : spa_direction) (p : Nat)
    (id : spa_param_type) (flags : Nat) (param : Option spa_pod_format) (h : queue_inv s) :
    queue_inv (impl_node_port_set_param s d p id flags param).2 := by
  unfold impl_node_port_set_param
  split
  · split
    · exact port_set_format_queue_inv s d p flags param h
    · exact h
  · exact h

theorem port_use_buffers_queue_inv {α : Type} (s : impl α) (d : spa_direction) (p : Nat)
    (buffers : List spa_buffer) (hok : ∀ b ∈ buffers, data_ok b.datas0 = true)
    (h : queue_inv s) : queue_inv (impl_node_port_use_buffers s d p buffers).2 := by
  have hp := queue_inv_GET_PORT s d p h
  unfold impl_node_port_use_buffers
  split
  · dsimp only
    split
    · have h0 : (use_buffers_loop d buffers 0 (clear_buffers (GET_PORT s d p))).1 = 0 := by
        rw [use_buffers_loop_ok d buffers hok]
      rw [if_pos h0]
      exact queue_inv_SET_PORT s s d p _ h rfl rfl (use_buffers_pool_inv d buffers hok _ hp)
    · exact h
  · exact h

theorem port_set_io_queue_inv {α : Type} (s : impl α) (d : spa_direction) (p : Nat)
    (id : spa_io_type) (data_buffers : Option spa_io_buffers)
    (data_range : Option spa_io_range) (h : queue_inv s) :
    queue_inv (impl_node_port_set_io s d p id data_buffers data_range).2 := by
  have hp := queue_inv_GET_PORT s d p h
  unfold impl_node_port_set_io
  split
  · cases id
    · exact queue_inv_SET_PORT s s d p _ h rfl rfl
        (same_pool_inv (GET_PORT s d p) _ ⟨rfl, rfl, fun _ => rfl⟩ hp)
    · exact queue_inv_SET_PORT s s d p _ h rfl rfl
        (same_pool_inv (GET_PORT s d p) _ ⟨rfl, rfl, fun _ => rfl⟩ hp)
    · exact h
    · exact h
  · exact h

theorem port_reuse_buffer_queue_inv {α : Type} (s : impl α) (p : Nat) (buffer_id : Nat)
    (h : queue_inv s) : queue_inv (impl_node_port_reuse_buffer s p buffer_id).2 := by
  unfold impl_node_port_reuse_buffer
  split
  · dsimp only
    split
    · exact h
    · rename_i hlt
      exact ⟨queue_buffer_pool_inv _ _ h.1 (by omega), h.2⟩
  · exact h

theorem recycle_pool_inv (pt : port) (outio : spa_io_buffers) (h : pool_inv pt) :
    pool_inv (recycle pt outio).1 := by
  unfold recycle
  split
  · rename_i hlt
    exact queue_buffer_pool_inv pt _ h hlt
  · exact h

theorem produce_flags {α : Type} [Add α] [Zero α] (sse : Bool) (hostmem : Nat → Nat → α)
    (empty : Nat → α) (outb : buffer) (buffers : List buffer) (maxsize : Nat) :
    (produce sse hostmem empty outb buffers maxsize).1.flags = outb.flags := by
  unfold produce
  dsimp only
  split
  · rfl
  · split <;> rfl

theorem consumed_same_pool (pt : port) : same_pool pt (consumed pt) := by
  unfold consumed
  cases pt.io <;> exact ⟨rfl, rfl, fun _ => rfl⟩

theorem process_queue_inv {α : Type} [Add α] [Zero α] (sse : Bool) (hostmem : Nat → Nat → α)
    (s : impl α) (h : queue_inv s) : queue_inv (impl_node_process sse hostmem s).2 := by
  have hin : ∀ (outport : port) (i : Nat), pool_inv ((scan_inputs s outport).in_ports i) := by
    intro outport i
    rw [scan_inputs_eq]
    dsimp only
    split
    · exact same_pool_inv _ _ (consumed_same_pool _) (h.2 i)
    · exact h.2 i
  unfold impl_node_process
  split
  · exact h
  · rename_i outio hio
    split
    · exact h
    · dsimp only
      have hdq := dequeue_buffer_pool_inv _ (recycle_pool_inv s.out_ports outio h.1)
      split
      · exact ⟨same_pool_inv (dequeue_buffer (recycle s.out_ports outio).1).2 _
          ⟨rfl, rfl, fun _ => rfl⟩ hdq, hin _⟩
      · rename_i k hk
        refine ⟨same_pool_inv (dequeue_buffer (recycle s.out_ports outio).1).2 _
          ⟨rfl, rfl, fun j => ?_⟩ hdq, hin _⟩
        by_cases hj : j = k
        · subst hj
          simp only [Function.update_same]
          exact produce_flags _ _ _ _ _ _
        · simp only [Function.update_noteq hj]

theorem clean_reachable_reachable {α : Type} [Add α] [Zero α] (s : impl α)
    (h : CleanReachable s) : Reachable s := by
  induction h with
  | init => exact Reachable.init
  | send_command s c _ ih => exact Reachable.send_command s c ih
  | add_port s d p _ ih => exact Reachable.add_port s d p ih
  | remove_port s d p _ ih => exact Reachable.remove_port s d p ih
  | port_set_param s d p id flags param _ ih =>
    exact Reachable.port_set_param s d p id flags param ih
  | port_use_buffers s d p buffers hl _ _ ih => exact Reachable.port_use_buffers s d p buffers hl ih
  | port_set_io s d p id db dr _ ih => exact Reachable.port_set_io s d p id db dr ih
  | port_reuse_buffer s p b _ ih => exact Reachable.port_reuse_buffer s p b ih
  | process s sse hostmem _ ih => exact Reachable.process s sse hostmem ih
  | host_io s d p io hc hio _ ih => exact Reachable.host_io s d p io hc hio ih
  | host_range s d p range hc hr _ ih => exact Reachable.host_range s d p range hc hr ih
  | host_buffer s d p k sb hc _ ih => exact Reachable.host_buffer s d p k sb hc ih

theorem add_port_queue_inv {α : Type} (s : impl α) (d : spa_direction) (p : Nat)
    (hz : port_table_inv s) (h : queue_inv s) : queue_inv (impl_node_add_port s d p).2 := by
  unfold impl_node_add_port
  split
  · rename_i hc
    have hfree : (s.in_ports p).valid = false := by
      simp [CHECK_FREE_IN_PORT] at hc
      exact hc.2
    have hzero : s.in_ports p = port.zero := hz.1 p hfree
    refine ⟨h.1, fun i => ?_⟩
    dsimp only
    by_cases hip : i = p
    · subst hip
      simp only [Function.update_same]
      rw [hzero]
      refine ⟨List.nodup_nil, ?_, ?_⟩
      · intro k hk; simp at hk
      · intro k hk; simp [port.zero] at hk
    · simp only [Function.update_noteq hip]
      exact h.2 i
  · exact h

theorem remove_port_queue_inv {α : Type} (s : impl α) (d : spa_direction) (p : Nat)
    (h : queue_inv s) : queue_inv (impl_node_remove_port s d p).2 := by
  unfold impl_node_remove_port
  split
  · refine ⟨h.1, fun i => ?_⟩
    dsimp only
    by_cases hip : i = p
    · subst hip
      simp only [Function.update_same]
      exact pool_inv_zero
    · simp only [Function.update_noteq hip]
      exact h.2 i
  · exact h

theorem impl_init_queue_inv {α : Type} [Zero α] : queue_inv (impl_init : impl α) := by
  refine ⟨?_, fun _ => pool_inv_zero⟩
  refine ⟨List.nodup_nil, ?_, ?_⟩
  · intro k hk; simp [impl_init] at hk
  · intro k hk; simp [impl_init, port.zero] at hk

/-- C15 (as amended): in every state reached from initialisation through the
public operations and host writes, in runs where every buffer handed to
`impl_node_port_use_buffers` is valid, the pool of every port is consistent:
an installed slot (index below the installed count) is linked in the port's
free queue if and only if its QUEUED flag is set, no slot is linked more than
once, and only installed slots are linked. -/
theorem queue_flag_consistent {α : Type} [Add α] [Zero α] (s : impl α)
    (h : CleanReachable s) :
    pool_inv s.out_ports ∧ ∀ i, pool_inv (s.in_ports i) := by
  induction h with
  | init => exact impl_init_queue_inv
  | send_command s c _ ih => cases c <;> exact ih
  | add_port s d p hs ih =>
    exact add_port_queue_inv s d p (reachable_inv s (clean_reachable_reachable s hs)) ih
  | remove_port s d p _ ih => exact remove_port_queue_inv s d p ih
  | port_set_param s d p id flags param _ ih =>
    exact port_set_param_queue_inv s d p id flags param ih
  | port_use_buffers s d p buffers _ hok _ ih =>
    exact port_use_buffers_queue_inv s d p buffers hok ih
  | port_set_io s d p id db dr _ ih => exact port_set_io_queue_inv s d p id db dr ih
  | port_reuse_buffer s p b _ ih => exact port_reuse_buffer_queue_inv s p b ih
  | process s sse hostmem _ ih => exact process_queue_inv sse hostmem s ih
  | host_io s d p io hc _ _ ih =>
    exact queue_inv_SET_PORT s s d p _ ih rfl rfl
      (same_pool_inv (GET_PORT s d p) _ ⟨rfl, rfl, fun _ => rfl⟩ (queue_inv_GET_PORT s d p ih))
  | host_range s d p range hc _ _ ih =>
    exact queue_inv_SET_PORT s s d p _ ih rfl rfl
      (same_pool_inv (GET_PORT s d p) _ ⟨rfl, rfl, fun _ => rfl⟩ (queue_inv_GET_PORT s d p ih))
  | host_buffer s d p k sb hc _ ih =>
    refine queue_inv_SET_PORT s s d p _ ih rfl rfl
      (same_pool_inv (GET_PORT s d p) _ ⟨rfl, rfl, fun j => ?_⟩ (queue_inv_GET_PORT s d p ih))
    by_cases hj : j = k
    · subst hj; simp only [Function.update_same]
    · simp only [Function.update_noteq hj]

/-- Witness of `queue_flag_consistent`: the output port after a format and one
valid buffer. -/
theorem queue_flag_consistent_witness :
    pool_inv installed_output_state.out_ports ∧
    ∀ i, pool_inv (installed_output_state.in_ports i) :=
  queue_flag_consistent installed_output_state
    (CleanReachable.port_use_buffers _ .OUTPUT 0 [host_buffer 2 0] (by decide) (by decide)
      (CleanReachable.port_set_param impl_init .OUTPUT 0 .Format 0 (some f32_mono)
        CleanReachable.init))

/-- C15 (as stated) fails, in two reachable states.  In `reinstalled_state`
(three buffers installed on the output port, then one) slot 1 of the output
port has its QUEUED flag set and is not linked in the free queue.  In
`relinked_state` (an installation rejected for its second buffer, then one
valid buffer installed) slot 0 of the output port, an installed slot, is
linked twice. -/
theorem queue_flag_inconsistent :
    Reachable reinstalled_state ∧
    is_queued (reinstalled_state.out_ports.buffers 1) = true ∧
    1 ∉ reinstalled_state.out_ports.queue ∧
    Reachable relinked_state ∧
    0 < relinked_state.out_ports.n_buffers ∧
    relinked_state.out_ports.queue.count 0 = 2 := by
  refine ⟨?_, by decide, by decide, ?_, by decide, by decide⟩
  · exact Reachable.port_use_buffers _ .OUTPUT 0 [host_buffer 5 0] (by decide)
      (Reachable.port_use_buffers _ .OUTPUT 0
        [host_buffer 2 0, host_buffer 3 0, host_buffer 4 0] (by decide)
        (Reachable.port_set_param impl_init .OUTPUT 0 .Format 0 (some f32_mono)
          Reachable.init))
  · exact Reachable.port_use_buffers _ .OUTPUT 0 [host_buffer 3 0] (by decide)
      (Reachable.port_use_buffers _ .OUTPUT 0 [host_buffer 2 0, null_data_buffer] (by decide)
        (Reachable.port_set_param impl_init .OUTPUT 0 .Format 0 (some f32_mono)
          Reachable.init))

/-! ## C20: the recycling of the delivered buffer -/

theorem recycle_n_buffers (pt : port) (outio : spa_io_buffers) :
    (recycle pt outio).1.n_buffers = pt.n_buffers := by
  unfold recycle
  split
  · exact queue_buffer_n_buffers pt _
  · rfl

theorem dequeue_buffer_n_buffers (pt : port) :
    (dequeue_buffer pt).2.n_buffers = pt.n_buffers := by
  unfold dequeue_buffer
  split <;> rfl

theorem dequeue_buffer_slot_id (pt : port) (j : Nat) :
    ((dequeue_buffer pt).2.buffers j).id = (pt.buffers j).id := by
  cases hq : pt.queue with
  | nil => rw [dequeue_buffer_nil pt hq]
  | cons k rest =>
    rw [dequeue_buffer_cons pt k rest hq]
    dsimp only
    by_cases hj : j = k
    · subst hj; simp only [Function.update_same]
    · simp only [Function.update_noteq hj]

theorem produce_id {α : Type} [Add α] [Zero α] (sse : Bool) (hostmem : Nat → Nat → α)
    (empty : Nat → α) (outb : buffer) (buffers : List buffer) (maxsize : Nat) :
    (produce sse hostmem empty outb buffers maxsize).1.id = outb.id ∧
    (produce sse hostmem empty outb buffers maxsize).1.buffer.id = outb.id := by
  unfold produce
  dsimp only
  split
  · exact ⟨rfl, rfl⟩
  · split <;> exact ⟨rfl, rfl⟩

/-- After the recycle step of a recycling run every installed slot is in the
free queue; the slot the IO region named is among them and the region names no
buffer any more. -/
theorem recycle_refills (pt : port) (outio : spa_io_buffers) (hinv : pool_inv pt)
    (hall : ∀ k, k < pt.n_buffers → k ∈ pt.queue ∨ k = outio.buffer_id) :
    (∀ k, k < pt.n_buffers → k ∈ (recycle pt outio).1.queue) ∧
    (outio.buffer_id < pt.n_buffers →
      outio.buffer_id ∈ (recycle pt outio).1.queue ∧
      (recycle pt outio).2.buffer_id = SPA_ID_INVALID) := by
  unfold recycle
  by_cases hlt : outio.buffer_id < pt.n_buffers
  · rw [if_pos hlt]
    dsimp only
    cases hq : is_queued (pt.buffers outio.buffer_id)
    · rw [queue_buffer_of_not_queued pt _ hq]
      dsimp only
      refine ⟨?_, fun _ => ⟨by simp, rfl⟩⟩
      intro k hk
      rcases hall k hk with h | h
      · exact List.mem_append_left _ h
      · rw [h]; simp
    · rw [queue_buffer_of_queued pt _ hq]
      dsimp only
      have hmem : outio.buffer_id ∈ pt.queue := (hinv.2.2 _ hlt).mpr hq
      refine ⟨?_, fun _ => ⟨hmem, rfl⟩⟩
      intro k hk
      rcases hall k hk with h | h
      · exact h
      · rw [h]; exact hmem
  · rw [if_neg hlt]
    dsimp only
    refine ⟨?_, fun h => absurd h hlt⟩
    intro k hk
    rcases hall k hk with h | h
    · exact h
    · omega

/-- One cycle of a recycling run succeeds and, after the host's reset, leaves
the output side ready for the next one, the IO region naming an installed
slot. -/
theorem fed_cycle_succeeds {α : Type} [Add α] [Zero α] (sse : Bool) (s : impl α)
    (f : host_feed α) (h : recycling_inv s) :
    (fed_cycle sse s f).1 = 3 ∧
    recycling_inv (host_reset_output (fed_cycle sse s f).2) ∧
    (host_reset_output (fed_cycle sse s f).2).out_ports.n_buffers = s.out_ports.n_buffers ∧
    (∃ outio, (host_reset_output (fed_cycle sse s f).2).out_ports.io = some outio ∧
      outio.status = SPA_STATUS_NEED_BUFFER ∧ outio.buffer_id < s.out_ports.n_buffers) := by
  obtain ⟨outio, hio, hst, hn, hids, hinv, hall⟩ := h
  have hfill := (recycle_refills s.out_ports outio hinv hall).1
  have hrinv := recycle_pool_inv s.out_ports outio hinv
  have hrn := recycle_n_buffers s.out_ports outio
  obtain ⟨k0, rest, hq⟩ : ∃ k0 rest, (recycle s.out_ports outio).1.queue = k0 :: rest := by
    cases hq : (recycle s.out_ports outio).1.queue with
    | nil =>
      have := hfill 0 (by omega)
      rw [hq] at this
      simp at this
    | cons k0 rest => exact ⟨k0, rest, rfl⟩
  have hk0 : k0 < s.out_ports.n_buffers := by
    have := hrinv.2.1 k0 (by rw [hq]; exact List.mem_cons_self _ _)
    omega
  have hdinv := dequeue_buffer_pool_inv _ hrinv
  have hdeq := dequeue_buffer_cons _ k0 rest hq
  have hdn : (dequeue_buffer (recycle s.out_ports outio).1).2.n_buffers
      = s.out_ports.n_buffers := by
    rw [dequeue_buffer_n_buffers, hrn]
  have hdq : (dequeue_buffer (recycle s.out_ports outio).1).2.queue = rest := by
    rw [hdeq]
  have hslot := (dequeued_slot s.out_ports outio k0 rest hq).1
  have hdid : ∀ j, ((dequeue_buffer (recycle s.out_ports outio).1).2.buffers j).id
      = (s.out_ports.buffers j).id := by
    intro j
    rw [dequeue_buffer_slot_id]
    exact (recycle_slot s.out_ports outio j).1
  unfold fed_cycle
  rw [process_output_stage sse f.hostmem
    { s with in_ports := f.in_ports, last_port := f.last_port } outio k0 rest hio hst hq]
  have hbid := (produce_id sse f.hostmem s.empty
    ((dequeue_buffer (recycle s.out_ports outio).1).2.buffers k0)
    (cycle_inputs { s with in_ports := f.in_ports, last_port := f.last_port })
    (cycle_maxsize { s with in_ports := f.in_ports, last_port := f.last_port } outio))
  have hdeliv : (produce sse f.hostmem s.empty
      ((dequeue_buffer (recycle s.out_ports outio).1).2.buffers k0)
      (cycle_inputs { s with in_ports := f.in_ports, last_port := f.last_port })
      (cycle_maxsize { s with in_ports := f.in_ports, last_port := f.last_port }
        outio)).1.buffer.id = k0 := by
    rw [hbid.2, hslot, hids k0 hk0]
  refine ⟨rfl, ?_, hdn, ?_⟩
  · refine ⟨⟨SPA_STATUS_NEED_BUFFER, k0⟩, ?_,
      by simp [SPA_STATUS_NEED_BUFFER, SPA_STATUS_HAVE_BUFFER], ?_, ?_, ?_, ?_⟩
    · simp only [host_reset_output, Option.map_some', hdeliv]
    · show 1 ≤ (dequeue_buffer (recycle s.out_ports outio).1).2.n_buffers
      rw [hdn]; exact hn
    · intro j hj
      have hj' : j < s.out_ports.n_buffers := by
        have : j < (dequeue_buffer (recycle s.out_ports outio).1).2.n_buffers := hj
        rw [hdn] at this; exact this
      show (Function.update (dequeue_buffer (recycle s.out_ports outio).1).2.buffers k0 _ j).id
        = j
      by_cases hjk : j = k0
      · subst hjk
        simp only [Function.update_same]
        rw [hbid.1, hslot]
        exact hids j hj'
      · simp only [Function.update_noteq hjk]
        rw [hdid]
        exact hids j hj'
    · refine same_pool_inv (dequeue_buffer (recycle s.out_ports outio).1).2 _
        ⟨rfl, rfl, fun j => ?_⟩ hdinv
      show (Function.update (dequeue_buffer (recycle s.out_ports outio).1).2.buffers k0 _ j).flags
        = _
      by_cases hjk : j = k0
      · subst hjk
        simp only [Function.update_same]
        exact produce_flags _ _ _ _ _ _
      · simp only [Function.update_noteq hjk]
    · intro j hj
      have hj' : j < s.out_ports.n_buffers := by
        have : j < (dequeue_buffer (recycle s.out_ports outio).1).2.n_buffers := hj
        rw [hdn] at this; exact this
      show j ∈ (dequeue_buffer (recycle s.out_ports outio).1).2.queue ∨ j = k0
      rw [hdq]
      have := hfill j hj'
      rw [hq, List.mem_cons] at this
      rcases this with h | h
      · exact Or.inr h
      · exact Or.inl h
  · refine ⟨⟨SPA_STATUS_NEED_BUFFER, k0⟩, ?_, rfl, hk0⟩
    simp only [host_reset_output, Option.map_some', hdeliv]

theorem recycling_run_inv {α : Type} [Add α] [Zero α] (sse : Bool) (fs : List (host_feed α)) :
    ∀ s : impl α, recycling_inv s →
      recycling_inv (recycling_run sse fs s) ∧
      (fs ≠ [] → ∃ outio, (recycling_run sse fs s).out_ports.io = some outio ∧
        outio.status = SPA_STATUS_NEED_BUFFER ∧
        outio.buffer_id < (recycling_run sse fs s).out_ports.n_buffers) := by
  induction fs with
  | nil =>
    intro s h
    exact ⟨h, fun hne => absurd rfl hne⟩
  | cons f fs ih =>
    intro s h
    obtain ⟨_, h1, hn, outio, hio, hst, hlt⟩ := fed_cycle_succeeds sse s f h
    obtain ⟨ih1, ih2⟩ := ih _ h1
    refine ⟨ih1, fun _ => ?_⟩
    cases fs with
    | nil => exact ⟨outio, hio, hst, by rw [← hn] at hlt; exact hlt⟩
    | cons g gs => exact ih2 (by simp)

/-- C20: on a node whose output IO region is bound (status other than "have
buffer") and whose output pool is as an installation leaves it (at least one
buffer, slot `k` carrying id `k`, every installed slot in the free queue),
consider any run in which, after each cycle, the host only resets the output IO
status to "need buffer", whatever it supplies on the input side.  Every cycle
of the run returns "have buffer | need buffer", never `-EPIPE`; and at the start
of every cycle after the first the output IO region names an installed slot,
which the recycle step puts into the free queue while clearing the id. -/
theorem recycling_run_never_starves {α : Type} [Add α] [Zero α] (sse : Bool) (s0 : impl α)
    (outio0 : spa_io_buffers) (fs : List (host_feed α)) (f : host_feed α)
    (hio : s0.out_ports.io = some outio0)
    (hst : outio0.status ≠ SPA_STATUS_HAVE_BUFFER)
    (hn : 1 ≤ s0.out_ports.n_buffers)
    (hids : ∀ k, k < s0.out_ports.n_buffers → (s0.out_ports.buffers k).id = k)
    (hinv : pool_inv s0.out_ports)
    (hfull : ∀ k, k < s0.out_ports.n_buffers → k ∈ s0.out_ports.queue) :
    (fed_cycle sse (recycling_run sse fs s0) f).1 = 3 ∧
    (fed_cycle sse (recycling_run sse fs s0) f).1 ≠ -EPIPE ∧
    (fs ≠ [] → ∃ outio, (recycling_run sse fs s0).out_ports.io = some outio ∧
      outio.status = SPA_STATUS_NEED_BUFFER ∧
      outio.buffer_id < (recycling_run sse fs s0).out_ports.n_buffers ∧
      outio.buffer_id ∈ (recycle (recycling_run sse fs s0).out_ports outio).1.queue ∧
      (recycle (recycling_run sse fs s0).out_ports outio).2.buffer_id = SPA_ID_INVALID) := by
  have h0 : recycling_inv s0 :=
    ⟨outio0, hio, hst, hn, hids, hinv, fun k hk => Or.inl (hfull k hk)⟩
  obtain ⟨hr, hdel⟩ := recycling_run_inv sse fs s0 h0
  have h3 := (fed_cycle_succeeds sse _ f hr).1
  refine ⟨h3, ?_, ?_⟩
  · rw [h3]; decide
  · intro hne
    obtain ⟨outio, hio1, hst1, hlt⟩ := hdel hne
    obtain ⟨outio2, hio2, _, _, _, hinv2, hall2⟩ := hr
    have he : outio2 = outio := by
      rw [hio1] at hio2
      exact (Option.some.inj hio2).symm
    subst he
    obtain ⟨hin, hclr⟩ := (recycle_refills _ outio2 hinv2 hall2).2 hlt
    exact ⟨outio2, hio1, hst1, hlt, hin, hclr⟩

/-- Witness of `recycling_run_never_starves`: the third cycle of a run on a
one-buffer output pool. -/
theorem recycling_run_never_starves_witness :
    (fed_cycle false (recycling_run false [silent_feed, silent_feed] single_buffer_state)
      silent_feed).1 = 3 ∧
    (fed_cycle false (recycling_run false [silent_feed, silent_feed] single_buffer_state)
      silent_feed).1 ≠ -EPIPE :=
  have h := recycling_run_never_starves false single_buffer_state
    ⟨SPA_STATUS_NEED_BUFFER, SPA_ID_INVALID⟩ [silent_feed, silent_feed] silent_feed
    (by decide) (by decide) (by decide) (by decide) (by unfold pool_inv; decide) (by decide)
  ⟨h.1, h.2.1⟩

/-! ## C17: enumeration of port ids -/

theorem write_list_nil (ids : Nat → Nat) (start : Nat) : write_list ids start [] = ids := by
  funext j
  unfold write_list
  have : ¬ (start ≤ j ∧ j < start + ([] : List Nat).length) := by
    simp only [List.length_nil]; omega
  rw [if_neg this]

theorem write_list_cons (ids : Nat → Nat) (start i : Nat) (l : List Nat) :
    write_list (Function.update ids start i) (start + 1) l = write_list ids start (i :: l) := by
  funext j
  unfold write_list
  by_cases hj : j = start
  · subst hj
    have h1 : ¬ (j + 1 ≤ j ∧ j < j + 1 + l.length) := by omega
    have h2 : j ≤ j ∧ j < j + (i :: l).length := by
      simp only [List.length_cons]; omega
    rw [if_neg h1, if_pos h2]
    simp
  · by_cases h1 : start + 1 ≤ j ∧ j < start + 1 + l.length
    · have h2 : start ≤ j ∧ j < start + (i :: l).length := by
        simp only [List.length_cons]; omega
      have h3 : j - start = (j - (start + 1)) + 1 := by omega
      rw [if_pos h1, if_pos h2, h3, List.getD_cons_succ]
    · have h2 : ¬ (start ≤ j ∧ j < start + (i :: l).length) := by
        simp only [List.length_cons]; omega
      rw [if_neg h1, if_neg h2, Function.update_noteq hj]

/-- The loop of `impl_node_get_port_ids` in closed form, when the fuel does not
reach past `last_port`. -/
theorem get_port_ids_loop_eq (in_ports : Nat → port) (last_port : Int) (n : Nat) :
    ∀ (fuel i idx : Nat) (ids : Nat → Nat),
      ((i : Int) + fuel ≤ last_port) → idx ≤ n →
      (get_port_ids_loop in_ports last_port n fuel i idx ids).2 =
        write_list ids idx
          (((List.range' i fuel).filter (fun i => (in_ports i).valid)).take (n - idx)) := by
  intro fuel
  induction fuel with
  | zero =>
    intro i idx ids _ _
    simp [get_port_ids_loop, write_list_nil]
  | succ fuel ih =>
    intro i idx ids hle hidx
    unfold get_port_ids_loop
    have hi : (i : Int) < last_port := by omega
    by_cases hn : idx < n
    · rw [if_pos ⟨hi, hn⟩]
      have hsub : n - idx = (n - (idx + 1)) + 1 := by omega
      by_cases hv : (in_ports i).valid = true
      · rw [if_pos hv, ih (i + 1) (idx + 1) _ (by push_cast; omega) (by omega)]
        rw [write_list_cons, List.range'_succ, List.filter_cons_of_pos (by simpa using hv),
          hsub, List.take_succ_cons]
      · rw [if_neg hv, ih (i + 1) idx _ (by push_cast; omega) hidx]
        rw [List.range'_succ (s := i), List.filter_cons_of_neg (by simpa using hv)]
    · have hcond : ¬ ((i : Int) < last_port ∧ idx < n) := fun h => hn h.2
      rw [if_neg hcond]
      have : n - idx = 0 := by omega
      rw [this, List.take_zero, write_list_nil]

theorem valid_ids_below_last_port {α : Type} (s : impl α) (hinv : port_table_inv s) :
    (List.range' 0 s.last_port.toNat).filter (fun i => (s.in_ports i).valid)
      = valid_input_ids s := by
  obtain ⟨_, h0, hmax, hlt, _⟩ := hinv
  unfold valid_input_ids
  unfold MAX_PORTS at hmax ⊢
  have hsplit : List.range 128
      = List.range' 0 s.last_port.toNat ++ List.range' s.last_port.toNat
          (128 - s.last_port.toNat) := by
    have h := List.range'_append_1 0 s.last_port.toNat (128 - s.last_port.toNat)
    rw [Nat.zero_add] at h
    rw [List.range_eq_range', h]
    congr 1
    omega
  rw [hsplit, List.filter_append]
  have hnil : (List.range' s.last_port.toNat (128 - s.last_port.toNat)).filter
      (fun i => (s.in_ports i).valid) = [] := by
    rw [List.filter_eq_nil_iff]
    intro i hi hv
    rw [List.mem_range'_1] at hi
    have := hlt i hv
    omega
  rw [hnil, List.append_nil]

theorem mem_valid_input_ids {α : Type} (s : impl α) (hinv : port_table_inv s) (i : Nat) :
    i ∈ valid_input_ids s ↔ (s.in_ports i).valid = true := by
  obtain ⟨_, h0, hmax, hlt, _⟩ := hinv
  unfold valid_input_ids
  rw [List.mem_filter, List.mem_range]
  constructor
  · intro h; exact h.2
  · intro hv
    refine ⟨?_, hv⟩
    have := hlt i hv
    unfold MAX_PORTS at hmax ⊢
    omega

/-- C17: in every reachable state, `impl_node_get_port_ids` returns 0; it
writes the first `min(n, k)` entries of the caller's input array, with the
`min(n, k)` smallest valid input port ids in ascending order (`k` being the
number of valid input ports), and no entry from index `min(n, k)` on, so none
past the capacity `n`; it writes id 0 to entry 0 of the output array when its
capacity is at least 1, and no other entry. -/
theorem get_port_ids_lists_valid {α : Type} [Add α] [Zero α] (s : impl α) (hr : Reachable s)
    (input_ids output_ids : Nat → Nat) (n m : Nat) :
    impl_node_get_port_ids s (some input_ids) n (some output_ids) m =
      (0, some (write_list input_ids 0 ((valid_input_ids s).take n)),
        some (if 0 < m then Function.update output_ids 0 0 else output_ids)) ∧
    (∀ i, i ∈ valid_input_ids s ↔ (s.in_ports i).valid = true) ∧
    (valid_input_ids s).Pairwise (fun a b => a < b) ∧
    (∀ j, j < min n (valid_input_ids s).length →
      write_list input_ids 0 ((valid_input_ids s).take n) j = (valid_input_ids s).getD j 0) ∧
    (∀ j, min n (valid_input_ids s).length ≤ j →
      write_list input_ids 0 ((valid_input_ids s).take n) j = input_ids j) ∧
    (0 < m → (if 0 < m then Function.update output_ids 0 0 else output_ids) 0 = 0) ∧
    (∀ j, 0 < j ∨ m = 0 →
      (if 0 < m then Function.update output_ids 0 0 else output_ids) j = output_ids j) := by
  have hinv := reachable_inv s hr
  refine ⟨?_, mem_valid_input_ids s hinv, ?_, ?_, ?_, ?_, ?_⟩
  · unfold impl_node_get_port_ids
    dsimp only
    rw [get_port_ids_loop_eq s.in_ports s.last_port n s.last_port.toNat 0 0 input_ids
      (by have := hinv.2.1; omega) (Nat.zero_le _)]
    rw [valid_ids_below_last_port s hinv, Nat.sub_zero]
    by_cases hm : 0 < m
    · simp [hm]
    · simp [hm]
  · unfold valid_input_ids
    exact List.Pairwise.filter _ (List.pairwise_lt_range _)
  · intro j hj
    unfold write_list
    have hlen : ((valid_input_ids s).take n).length = min n (valid_input_ids s).length :=
      List.length_take _ _
    have hc : 0 ≤ j ∧ j < 0 + ((valid_input_ids s).take n).length := by
      rw [hlen]; omega
    rw [if_pos hc, Nat.sub_zero]
    have hjn : j < n := by omega
    simp only [List.getD_eq_getElem?_getD]
    rw [List.getElem?_take_of_lt hjn]
  · intro j hj
    unfold write_list
    have hlen : ((valid_input_ids s).take n).length = min n (valid_input_ids s).length :=
      List.length_take _ _
    have hc : ¬ (0 ≤ j ∧ j < 0 + ((valid_input_ids s).take n).length) := by
      rw [hlen]; omega
    rw [if_neg hc]
  · intro hm
    rw [if_pos hm, Function.update_same]
  · intro j hj
    rcases hj with hj | hj
    · split
      · exact Function.update_noteq (by omega) _ _
      · rfl
    · have : ¬ 0 < m := by omega
      rw [if_neg this]

/-- Witness of `get_port_ids_lists_valid`: input ports 3 and 1 and a capacity of
four give `[1, 3]`. -/
theorem get_port_ids_lists_valid_witness :
    write_list (fun _ => 99) 0 ((valid_input_ids sparse_ports_state).take 4) 0 = 1 ∧
    write_list (fun _ => 99) 0 ((valid_input_ids sparse_ports_state).take 4) 1 = 3 ∧
    write_list (fun _ => 99) 0 ((valid_input_ids sparse_ports_state).take 4) 2 = 99 ∧
    (impl_node_get_port_ids sparse_ports_state (some (fun _ => 99)) 4
      (some (fun _ => 99)) 1).1 = 0 := by
  have h := get_port_ids_lists_valid sparse_ports_state
    (Reachable.add_port _ .INPUT 1 (Reachable.add_port _ .INPUT 3 Reachable.init))
    (fun _ => 99) (fun _ => 99) 4 1
  have hk : (valid_input_ids sparse_ports_state).length = 2 := by decide
  refine ⟨?_, ?_, ?_, ?_⟩
  · rw [h.2.2.2.1 0 (by rw [hk]; decide)]; decide
  · rw [h.2.2.2.1 1 (by rw [hk]; decide)]; decide
  · rw [h.2.2.2.2.1 2 (by rw [hk]; decide)]
  · rw [h.1]

/-! ## C18: the enumeration cursor -/

/-- For a port that holds a format and a supported category, the `switch`
leaves a candidate exactly for the cursor values below the end of the list, and
returns 0 for the others. -/
theorem build_param_cases {α : Type} (this : impl α) (pt : port) (id : spa_param_type)
    (index : Nat) (hf : pt.have_format = true) (hid : ∀ code, id ≠ .other code) :
    (index < params_end id → ∃ p, build_param this pt id index = .candidate p) ∧
    (params_end id ≤ index → build_param this pt id index = .ret 0) := by
  cases id with
  | other code => exact absurd rfl (hid code)
  | ParamList =>
    constructor
    · intro h
      simp only [params_end] at h
      unfold build_param
      match index, h with
      | 0, _ => exact ⟨_, rfl⟩
      | 1, _ => exact ⟨_, rfl⟩
      | 2, _ => exact ⟨_, rfl⟩
      | 3, _ => exact ⟨_, rfl⟩
      | 4, _ => exact ⟨_, rfl⟩
    · intro h
      simp only [params_end] at h
      unfold build_param
      have : [spa_param_type.EnumFormat, .Format, .Buffers, .Meta, .ParamIo][index]? = none := by
        rw [List.getElem?_eq_none_iff]
        exact h
      rw [this]
  | EnumFormat =>
    constructor
    · intro h
      simp only [params_end] at h
      have : index = 0 := by omega
      subst this
      unfold build_param port_enum_formats
      cases this.have_format <;> exact ⟨_, rfl⟩
    · intro h
      simp only [params_end] at h
      unfold build_param port_enum_formats
      match index, h with
      | k + 1, _ => rfl
  | Format =>
    constructor
    · intro h
      simp only [params_end] at h
      have : index = 0 := by omega
      subst this
      unfold build_param port_get_format
      simp [hf]
    · intro h
      simp only [params_end] at h
      unfold build_param port_get_format
      have : index > 0 := by omega
      simp [hf, this]
  | Buffers =>
    constructor
    · intro h
      simp only [params_end] at h
      have : index = 0 := by omega
      subst this
      unfold build_param
      simp [hf]
    · intro h
      simp only [params_end] at h
      unfold build_param
      have : index > 0 := by omega
      simp [hf, this]
  | Meta =>
    constructor
    · intro h
      simp only [params_end] at h
      have : index = 0 := by omega
      subst this
      unfold build_param
      simp [hf]
    · intro h
      simp only [params_end] at h
      unfold build_param
      match index, h with
      | k + 1, _ => simp [hf]
  | ParamIo =>
    constructor
    · intro h
      simp only [params_end] at h
      unfold build_param
      match index, h with
      | 0, _ => exact ⟨_, rfl⟩
      | 1, _ => exact ⟨_, rfl⟩
      | 2, _ => exact ⟨_, rfl⟩
    · intro h
      simp only [params_end] at h
      unfold build_param
      match index, h with
      | k + 3, _ => rfl

/-- The passes of the enumerator in closed form: with enough fuel they end,
either with 0 at the end of the list, every candidate from the entry cursor on
having been rejected, or with 1 at the first candidate the filter accepts. -/
theorem enum_params_next_spec {α : Type} (filter_res : param_object → Int) (this : impl α)
    (pt : port) (id : spa_param_type) (hf : pt.have_format = true)
    (hid : ∀ code, id ≠ .other code) :
    ∀ (fuel index : Nat), params_end id ≤ index + fuel →
      ∃ res cursor out,
        enum_params_next filter_res this pt id (fuel + 1) index = some (res, cursor, out) ∧
        ((res = 0 ∧ out = none ∧ cursor = max index (params_end id) ∧
            ∀ j, index ≤ j → j < params_end id →
              ∃ q, build_param this pt id j = .candidate q ∧ filter_res q < 0) ∨
          (res = 1 ∧ index < cursor ∧ cursor ≤ params_end id ∧
            (∃ p, out = some p ∧ build_param this pt id (cursor - 1) = .candidate p ∧
              0 ≤ filter_res p) ∧
            ∀ j, index ≤ j → j < cursor - 1 →
              ∃ q, build_param this pt id j = .candidate q ∧ filter_res q < 0)) := by
  intro fuel
  induction fuel with
  | zero =>
    intro index hle
    have hret := (build_param_cases this pt id index hf hid).2 (by omega)
    refine ⟨0, index, none, ?_, Or.inl ⟨rfl, rfl, ?_, ?_⟩⟩
    · unfold enum_params_next
      rw [hret]
    · omega
    · intro j h1 h2; omega
  | succ fuel ih =>
    intro index hle
    by_cases hend : params_end id ≤ index
    · have hret := (build_param_cases this pt id index hf hid).2 hend
      refine ⟨0, index, none, ?_, Or.inl ⟨rfl, rfl, ?_, ?_⟩⟩
      · unfold enum_params_next
        rw [hret]
      · omega
      · intro j h1 h2; omega
    · obtain ⟨p, hp⟩ := (build_param_cases this pt id index hf hid).1 (by omega)
      by_cases hrej : filter_res p < 0
      · obtain ⟨res, cursor, out, hrun, hcase⟩ := ih (index + 1) (by omega)
        refine ⟨res, cursor, out, ?_, ?_⟩
        · rw [← hrun]
          conv => lhs; unfold enum_params_next
          rw [hp]
          simp only [hrej, if_true]
        · rcases hcase with ⟨h1, h2, h3, h4⟩ | ⟨h1, h2, h3, h4, h5⟩
          · refine Or.inl ⟨h1, h2, by omega, ?_⟩
            intro j hj1 hj2
            by_cases hji : j = index
            · subst hji; exact ⟨p, hp, hrej⟩
            · exact h4 j (by omega) hj2
          · refine Or.inr ⟨h1, by omega, h3, h4, ?_⟩
            intro j hj1 hj2
            by_cases hji : j = index
            · subst hji; exact ⟨p, hp, hrej⟩
            · exact h5 j (by omega) hj2
      · refine ⟨1, index + 1, some p, ?_, Or.inr ⟨rfl, by omega, by omega, ?_, ?_⟩⟩
        · unfold enum_params_next
          rw [hp]
          simp only [hrej, if_false]
        · exact ⟨p, rfl, by simpa using hp, by omega⟩
        · intro j h1 h2
          simp at h2
          omega

/-- C18 (as amended): for a valid port that holds a format, a supported
category, any entry cursor and any filter, `impl_node_port_enum_params` ends
(six passes suffice).  When it returns 1 the cursor is greater than on entry
and at most the end of the list: it is one more than the index of the
candidate returned, the first one from the entry cursor on that the filter
accepts.  When the filter accepts the candidate at the entry cursor, the call
returns 1 with the cursor exactly one greater.  When the entry cursor is at or
past the end of the list, the call returns 0 with no result and the cursor
unchanged. -/
theorem enum_params_cursor {α : Type} (this : impl α) (direction : spa_direction)
    (port_id : Nat) (id : spa_param_type) (index : Nat) (filter_res : param_object → Int)
    (fuel : Nat)
    (hc : CHECK_PORT this direction port_id = true)
    (hf : (GET_PORT this direction port_id).have_format = true)
    (hid : ∀ code, id ≠ .other code)
    (hfuel : 6 ≤ fuel) :
    ∃ res cursor out,
      impl_node_port_enum_params this direction port_id id index filter_res fuel
        = some (res, cursor, out) ∧
      (res = 1 →
        index < cursor ∧ cursor ≤ params_end id ∧
        (∃ p, out = some p ∧
          build_param this (GET_PORT this direction port_id) id (cursor - 1) = .candidate p ∧
          0 ≤ filter_res p) ∧
        ∀ j, index ≤ j → j < cursor - 1 →
          ∃ q, build_param this (GET_PORT this direction port_id) id j = .candidate q ∧
            filter_res q < 0) ∧
      (∀ p, build_param this (GET_PORT this direction port_id) id index = .candidate p →
        0 ≤ filter_res p → res = 1 ∧ cursor = index + 1 ∧ out = some p) ∧
      (params_end id ≤ index → res = 0 ∧ cursor = index ∧ out = none) := by
  have hend : params_end id ≤ 5 := by
    cases id <;> simp [params_end]
  obtain ⟨f, rfl⟩ : ∃ f, fuel = f + 1 := ⟨fuel - 1, by omega⟩
  obtain ⟨res, cursor, out, hrun, hcase⟩ :=
    enum_params_next_spec filter_res this (GET_PORT this direction port_id) id hf hid f index
      (by omega)
  refine ⟨res, cursor, out, ?_, ?_, ?_, ?_⟩
  · unfold impl_node_port_enum_params
    rw [if_pos hc, hrun]
  · intro h1
    rcases hcase with ⟨h0, _⟩ | ⟨_, h2, h3, h4, h5⟩
    · rw [h0] at h1; exact absurd h1 (by decide)
    · exact ⟨h2, h3, h4, h5⟩
  · intro p hp hacc
    have hlt : index < params_end id := by
      by_contra hge
      have := (build_param_cases this (GET_PORT this direction port_id) id index hf hid).2
        (by omega)
      rw [this] at hp
      exact absurd hp (by simp)
    rcases hcase with ⟨_, _, _, h4⟩ | ⟨h1, h2, h3, ⟨q, hq1, hq2, hq3⟩, h5⟩
    · obtain ⟨q, hq, hrej⟩ := h4 index (Nat.le_refl _) hlt
      rw [hp] at hq
      have : p = q := by injection hq
      subst this
      omega
    · have hci : cursor = index + 1 := by
        by_contra hne
        obtain ⟨r, hr, hrej⟩ := h5 index (Nat.le_refl _) (by omega)
        rw [hp] at hr
        have : p = r := by injection hr
        subst this
        omega
      subst hci
      simp only [Nat.add_sub_cancel] at hq2
      rw [hp] at hq2
      have : p = q := by injection hq2
      subst this
      exact ⟨h1, rfl, hq1⟩
  · intro hge
    rcases hcase with ⟨h1, h2, h3, _⟩ | ⟨_, h2, h3, _, _⟩
    · exact ⟨h1, by omega, h2⟩
    · omega

/-- Witness of `enum_params_cursor`: the parameter list of the output port of
`negotiated_state`, from cursor 0, with a filter that accepts everything. -/
theorem enum_params_cursor_witness :
    impl_node_port_enum_params negotiated_state .OUTPUT 0 .ParamList 0 accept_all 6
      = some (1, 1, some (.param_list .EnumFormat)) := by
  obtain ⟨res, cursor, out, hrun, _, h2, _⟩ :=
    enum_params_cursor negotiated_state .OUTPUT 0 .ParamList 0 accept_all 6
      (by decide) (by decide) (by intro code h; cases h) (by decide)
  obtain ⟨h1, hc, ho⟩ := h2 (.param_list .EnumFormat) (by decide) (by decide)
  rw [hrun, h1, hc, ho]

/-- C18 (as stated) fails: on the output port of `negotiated_state`, which
holds a format, the parameter list enumerated from cursor 0 with a filter that
rejects the first entry returns 1 (the second entry) and leaves the cursor at
2, two greater than on entry. -/
theorem enum_params_cursor_skips :
    CHECK_PORT negotiated_state .OUTPUT 0 = true ∧
    (GET_PORT negotiated_state .OUTPUT 0).have_format = true ∧
    impl_node_port_enum_params negotiated_state .OUTPUT 0 .ParamList 0 reject_first_entry 6
      = some (1, 2, some (.param_list .Format)) ∧
    ∀ fuel, 2 ≤ fuel →
      impl_node_port_enum_params negotiated_state .OUTPUT 0 .ParamList 0 reject_first_entry fuel
        = some (1, 2, some (.param_list .Format)) := by
  refine ⟨by decide, by decide, by decide, ?_⟩
  intro fuel hf
  obtain ⟨f, rfl⟩ : ∃ f, fuel = f + 2 := ⟨fuel - 2, by omega⟩
  rfl

/-! ## C11: the order of format negotiation -/

theorem countP_range_update (f : Nat → port) (p : Nat) (q : port) :
    ∀ n, (List.range n).countP (fun i => (Function.update f p q i).have_format) +
        (if p < n then (f p).have_format.toNat else 0) =
      (List.range n).countP (fun i => (f i).have_format) +
        (if p < n then q.have_format.toNat else 0) := by
  intro n
  induction n with
  | zero => simp
  | succ n ih =>
    rw [List.range_succ, List.countP_append, List.countP_append]
    simp only [List.countP_cons, List.countP_nil, Nat.zero_add]
    by_cases hpn : p = n
    · subst hpn
      have h1 : ¬ p < p := by omega
      have h2 : p < p + 1 := by omega
      simp only [h1, if_false, Nat.add_zero] at ih
      simp only [h2, if_true, Function.update_same, ih]
      cases (f p).have_format <;> cases q.have_format <;> simp
    · simp only [Function.update_noteq (Ne.symm hpn)]
      by_cases hlt : p < n
      · have h2 : p < n + 1 := by omega
        simp only [hlt, if_true] at ih
        simp only [h2, if_true]
        omega
      · have h2 : ¬ p < n + 1 := by omega
        simp only [hlt, if_false, Nat.add_zero] at ih
        simp only [h2, if_false, Nat.add_zero, ih]

theorem format_count_congr {α : Type} (s t : impl α)
    (ho : t.out_ports.have_format = s.out_ports.have_format)
    (hi : ∀ i, (t.in_ports i).have_format = (s.in_ports i).have_format) :
    format_count t = format_count s := by
  unfold format_count
  rw [ho]
  congr 2
  funext i
  exact hi i

theorem same_formats_refl {α : Type} (s : impl α) : same_formats s s :=
  ⟨rfl, rfl, rfl, fun _ => rfl⟩

theorem same_formats_inv {α : Type} (s t : impl α) (h : same_formats s t)
    (hinv : format_inv s) : format_inv t := by
  obtain ⟨h1, h2, h3, h4⟩ := h
  unfold format_inv
  rw [h1, h2, format_count_congr s t h3 h4]
  exact hinv

theorem same_formats_SET_PORT {α : Type} (s s1 : impl α) (d : spa_direction) (p : Nat)
    (q : port) (hq : q.have_format = (GET_PORT s d p).have_format)
    (hn : s1.n_formats = s.n_formats) (hf : s1.have_format = s.have_format)
    (hin : s1.in_ports = s.in_ports) (hout : s1.out_ports = s.out_ports) :
    same_formats s (SET_PORT s1 d p q) := by
  cases d with
  | OUTPUT =>
    refine ⟨hn, hf, hq, fun i => ?_⟩
    simp [SET_PORT, hin]
  | INPUT =>
    refine ⟨hn, hf, ?_, fun i => ?_⟩
    · simp [SET_PORT, hout]
    · by_cases hi : i = p
      · subst hi
        simp only [SET_PORT, Function.update_same]
        exact hq
      · simp [SET_PORT, Function.update_noteq hi, hin]

/-- The count of format holders after a write to one existing port. -/
theorem format_count_SET_PORT {α : Type} (s s1 : impl α) (d : spa_direction) (p : Nat)
    (q : port) (hc : CHECK_PORT s d p = true)
    (hin : s1.in_ports = s.in_ports) (hout : s1.out_ports = s.out_ports) :
    format_count (SET_PORT s1 d p q) + (GET_PORT s d p).have_format.toNat
      = format_count s + q.have_format.toNat := by
  cases d with
  | OUTPUT =>
    simp only [format_count, SET_PORT, GET_PORT, hin]
    omega
  | INPUT =>
    have hp : p < MAX_PORTS := by
      simp [CHECK_PORT, CHECK_OUT_PORT, CHECK_IN_PORT] at hc
      exact hc.1
    have h := countP_range_update s.in_ports p q MAX_PORTS
    simp only [hp, if_true] at h
    simp only [format_count, SET_PORT, GET_PORT, hin, hout]
    omega

theorem clear_buffers_have_format (pt : port) :
    (clear_buffers pt).have_format = pt.have_format := by
  unfold clear_buffers
  split <;> rfl

theorem queue_buffer_have_format (pt : port) (idx : Nat) :
    (queue_buffer pt idx).2.have_format = pt.have_format := by
  unfold queue_buffer
  dsimp only
  split <;> rfl

theorem dequeue_buffer_have_format (pt : port) :
    (dequeue_buffer pt).2.have_format = pt.have_format := by
  unfold dequeue_buffer
  split <;> rfl

theorem recycle_have_format (pt : port) (outio : spa_io_buffers) :
    (recycle pt outio).1.have_format = pt.have_format := by
  unfold recycle
  split
  · exact queue_buffer_have_format pt _
  · rfl

theorem use_buffers_loop_have_format (direction : spa_direction) (buffers : List spa_buffer) :
    ∀ (i : Nat) (pt : port),
      (use_buffers_loop direction buffers i pt).2.have_format = pt.have_format := by
  induction buffers with
  | nil => intro i pt; rfl
  | cons sb rest ih =>
    intro i pt
    unfold use_buffers_loop
    dsimp only
    split
    · rfl
    · rw [ih]
      split
      · rw [queue_buffer_have_format]; rfl
      · rfl

theorem consumed_have_format (pt : port) : (consumed pt).have_format = pt.have_format := by
  unfold consumed
  cases pt.io <;> rfl

theorem add_port_same_formats {α : Type} (s : impl α) (d : spa_direction) (p : Nat) :
    same_formats s (impl_node_add_port s d p).2 := by
  unfold impl_node_add_port
  split
  · refine ⟨rfl, rfl, rfl, fun i => ?_⟩
    dsimp only
    by_cases hi : i = p
    · subst hi; simp only [Function.update_same]
    · simp only [Function.update_noteq hi]
  · exact same_formats_refl s

theorem port_use_buffers_same_formats {α : Type} (s : impl α) (d : spa_direction) (p : Nat)
    (buffers : List spa_buffer) :
    same_formats s (impl_node_port_use_buffers s d p buffers).2 := by
  unfold impl_node_port_use_buffers
  split
  · dsimp only
    split
    · split
      · exact same_formats_SET_PORT s s d p _
          (by simp only [use_buffers_loop_have_format, clear_buffers_have_format])
          rfl rfl rfl rfl
      · exact same_formats_SET_PORT s s d p _
          (by simp only [use_buffers_loop_have_format, clear_buffers_have_format])
          rfl rfl rfl rfl
    · exact same_formats_refl s
  · exact same_formats_refl s

theorem port_set_io_same_formats {α : Type} (s : impl α) (d : spa_direction) (p : Nat)
    (id : spa_io_type) (data_buffers : Option spa_io_buffers)
    (data_range : Option spa_io_range) :
    same_formats s (impl_node_port_set_io s d p id data_buffers data_range).2 := by
  unfold impl_node_port_set_io
  split
  · cases id
    · exact same_formats_SET_PORT s s d p _ rfl rfl rfl rfl rfl
    · exact same_formats_SET_PORT s s d p _ rfl rfl rfl rfl rfl
    · exact same_formats_refl s
    · exact same_formats_refl s
  · exact same_formats_refl s

theorem port_reuse_buffer_same_formats {α : Type} (s : impl α) (p : Nat) (buffer_id : Nat) :
    same_formats s (impl_node_port_reuse_buffer s p buffer_id).2 := by
  unfold impl_node_port_reuse_buffer
  split
  · dsimp only
    split
    · exact same_formats_refl s
    · exact ⟨rfl, rfl, queue_buffer_have_format _ _, fun _ => rfl⟩
  · exact same_formats_refl s

theorem process_same_formats {α : Type} [Add α] [Zero α] (sse : Bool)
    (hostmem : Nat → Nat → α) (s : impl α) :
    same_formats s (impl_node_process sse hostmem s).2 := by
  have hin : ∀ (outport : port) (i : Nat),
      ((scan_inputs s outport).in_ports i).have_format = (s.in_ports i).have_format := by
    intro outport i
    rw [scan_inputs_eq]
    dsimp only
    split
    · exact consumed_have_format _
    · rfl
  have hout : ∀ outio : spa_io_buffers,
      (dequeue_buffer (recycle s.out_ports outio).1).2.have_format
        = s.out_ports.have_format := by
    intro outio
    rw [dequeue_buffer_have_format, recycle_have_format]
  unfold impl_node_process
  split
  · exact same_formats_refl s
  · rename_i outio hio
    split
    · exact same_formats_refl s
    · dsimp only
      split
      · exact ⟨rfl, rfl, hout outio, hin _⟩
      · exact ⟨rfl, rfl, hout outio, hin _⟩

theorem SET_PORT_fields {α : Type} (s : impl α) (d : spa_direction) (p : Nat) (q : port) :
    (SET_PORT s d p q).n_formats = s.n_formats ∧
    (SET_PORT s d p q).have_format = s.have_format ∧
    (SET_PORT s d p q).format = s.format ∧
    (SET_PORT s d p q).stride = s.stride := by
  cases d <;> exact ⟨rfl, rfl, rfl, rfl⟩

/-- The first accepted proposal on a node without a format. -/
theorem port_set_format_first {α : Type} (s : impl α) (d : spa_direction) (p : Nat)
    (flags : Nat) (f : spa_pod_format) (hp : parses_as_raw_audio f)
    (hf32 : f.raw.format = .F32) (hs : s.have_format = false)
    (hpt : (GET_PORT s d p).have_format = false) :
    port_set_format s d p flags (some f) =
      (0, SET_PORT { s with
          stride := sizeof_float, have_format := true, format := parsed_info f,
          n_formats := s.n_formats + 1 } d p
        { GET_PORT s d p with have_format := true }) := by
  obtain ⟨h1, h2, h3, h4⟩ := hp
  have hpi : parsed_info f = ⟨.audio, .raw, f.raw⟩ := by
    unfold parsed_info
    rw [h2, h3]
  rw [hpi]
  unfold port_set_format
  simp only [not_lt.mpr h1, not_lt.mpr h4, if_false, h2, h3, ne_eq, not_true_eq_false,
    or_self, hs, Bool.false_eq_true, hf32, hpt, Bool.not_false, if_true]

/-- An accepted proposal on a node that holds the same format. -/
theorem port_set_format_again {α : Type} (s : impl α) (d : spa_direction) (p : Nat)
    (flags : Nat) (f : spa_pod_format) (hp : parses_as_raw_audio f)
    (hs : s.have_format = true) (heq : parsed_info f = s.format)
    (hpt : (GET_PORT s d p).have_format = false) :
    port_set_format s d p flags (some f) =
      (0, SET_PORT { s with n_formats := s.n_formats + 1 } d p
        { GET_PORT s d p with have_format := true }) := by
  obtain ⟨h1, h2, h3, h4⟩ := hp
  have heq' : (⟨f.media_type, f.media_subtype, f.raw⟩ : spa_audio_info) = s.format := heq
  unfold port_set_format
  simp only [not_lt.mpr h1, not_lt.mpr h4, if_false, h2, h3, ne_eq, not_true_eq_false,
    or_self, hs, if_true, hpt, Bool.not_false]
  rw [← h2, ← h3, heq']
  simp

theorem format_holder_counted {α : Type} (s : impl α) (d : spa_direction) (p : Nat)
    (hc : CHECK_PORT s d p = true) (hpt : (GET_PORT s d p).have_format = true) :
    1 ≤ format_count s := by
  have h := format_count_SET_PORT s s d p { GET_PORT s d p with have_format := false } hc
    rfl rfl
  rw [hpt] at h
  simp at h
  omega

theorem port_set_format_format_inv {α : Type} (s : impl α) (d : spa_direction) (p : Nat)
    (flags : Nat) (param : Option spa_pod_format) (hc : CHECK_PORT s d p = true)
    (hinv : format_inv s) : format_inv (port_set_format s d p flags param).2 := by
  obtain ⟨hn, hiff⟩ := hinv
  cases param with
  | none =>
    unfold port_set_format
    dsimp only
    by_cases hpt : (GET_PORT s d p).have_format = true
    · rw [if_pos hpt]
      have hcnt := format_count_SET_PORT s
        { s with n_formats := s.n_formats - 1,
                 have_format := if s.n_formats - 1 = 0 then false else s.have_format }
        d p (clear_buffers { GET_PORT s d p with have_format := false }) hc rfl rfl
      rw [clear_buffers_have_format, hpt] at hcnt
      simp only [Bool.toNat_true, Bool.toNat_false, Nat.add_zero] at hcnt
      unfold format_inv
      simp only [(SET_PORT_fields _ d p _).1, (SET_PORT_fields _ d p _).2.1]
      refine ⟨by omega, ?_⟩
      by_cases h0 : s.n_formats - 1 = 0
      · simp [h0]
      · simp only [h0, if_false]
        have hpos : 0 < s.n_formats := by omega
        constructor
        · intro _; omega
        · intro _; exact hiff.mpr hpos
    · rw [if_neg hpt]
      exact ⟨hn, hiff⟩
  | some f =>
    by_cases hparse : parses_as_raw_audio f
    · cases hpt : (GET_PORT s d p).have_format
      · cases hs : s.have_format
        · by_cases hf32 : f.raw.format = .F32
          · rw [port_set_format_first s d p flags f hparse hf32 hs hpt]
            have hcnt := format_count_SET_PORT s
              { s with stride := sizeof_float, have_format := true, format := parsed_info f,
                       n_formats := s.n_formats + 1 }
              d p { GET_PORT s d p with have_format := true } hc rfl rfl
            rw [hpt] at hcnt
            simp only [Bool.toNat_true, Bool.toNat_false, Nat.add_zero] at hcnt
            unfold format_inv
            simp only [(SET_PORT_fields _ d p _).1, (SET_PORT_fields _ d p _).2.1]
            have hz : ¬ 0 < s.n_formats := by
              intro h
              have := hiff.mpr h
              rw [hs] at this
              exact absurd this (by decide)
            refine ⟨by omega, ?_⟩
            constructor
            · intro _; omega
            · intro _; trivial
          · have : port_set_format s d p flags (some f) = (-EINVAL, s) := by
              obtain ⟨h1, h2, h3, h4⟩ := hparse
              unfold port_set_format
              simp only [not_lt.mpr h1, not_lt.mpr h4, if_false, h2, h3, ne_eq,
                not_true_eq_false, or_self, hs, Bool.false_eq_true, hf32, not_false_eq_true,
                if_true]
            rw [this]
            exact ⟨hn, hiff⟩
        · by_cases heq : parsed_info f = s.format
          · rw [port_set_format_again s d p flags f hparse hs heq hpt]
            have hcnt := format_count_SET_PORT s { s with n_formats := s.n_formats + 1 }
              d p { GET_PORT s d p with have_format := true } hc rfl rfl
            rw [hpt] at hcnt
            simp only [Bool.toNat_true, Bool.toNat_false, Nat.add_zero] at hcnt
            unfold format_inv
            simp only [(SET_PORT_fields _ d p _).1, (SET_PORT_fields _ d p _).2.1]
            refine ⟨by omega, ?_⟩
            constructor
            · intro _; omega
            · intro _; exact hs
          · have : port_set_format s d p flags (some f) = (-EINVAL, s) := by
              obtain ⟨h1, h2, h3, h4⟩ := hparse
              have heq' : ¬ (⟨spa_media_type.audio, spa_media_subtype.raw, f.raw⟩
                  : spa_audio_info) = s.format := by
                intro h
                apply heq
                unfold parsed_info
                rw [h2, h3]
                exact h
              unfold port_set_format
              simp only [not_lt.mpr h1, not_lt.mpr h4, if_false, h2, h3, ne_eq,
                not_true_eq_false, or_self, hs, if_true, heq', not_false_eq_true]
            rw [this]
            exact ⟨hn, hiff⟩
      · -- the port holds the format already: nothing but a rejection can happen
        have hcnt := format_holder_counted s d p hc hpt
        have hs : s.have_format = true := hiff.mpr (by omega)
        have : (port_set_format s d p flags (some f)).2 = s := by
          obtain ⟨h1, h2, h3, h4⟩ := hparse
          unfold port_set_format
          simp only [not_lt.mpr h1, not_lt.mpr h4, if_false, h2, h3, ne_eq,
            not_true_eq_false, or_self, hs, if_true, hpt, Bool.not_true, Bool.false_eq_true]
          split <;> rfl
        rw [this]
        exact ⟨hn, hiff⟩
    · have : (port_set_format s d p flags (some f)).2 = s := by
        unfold port_set_format
        dsimp only
        by_cases h1 : f.parse_res < 0
        · rw [if_pos h1]
        · rw [if_neg h1]
          by_cases h2 : f.media_type ≠ .audio ∨ f.media_subtype ≠ .raw
          · rw [if_pos h2]
          · rw [if_neg h2]
            by_cases h4 : f.raw_res < 0
            · rw [if_pos h4]
            · exfalso
              apply hparse
              simp only [ne_eq, not_or, not_not] at h2
              exact ⟨by omega, h2.1, h2.2, by omega⟩
      rw [this]
      exact ⟨hn, hiff⟩

theorem remove_port_fields {α : Type} (s : impl α) (d : spa_direction) (p : Nat)
    (hc : CHECK_IN_PORT s d p = true) :
    (impl_node_remove_port s d p).2.in_ports = Function.update s.in_ports p port.zero ∧
    (impl_node_remove_port s d p).2.out_ports = s.out_ports ∧
    (impl_node_remove_port s d p).2.n_formats
      = (if (s.in_ports p).have_format && s.have_format then s.n_formats - 1
         else s.n_formats) ∧
    (impl_node_remove_port s d p).2.have_format
      = (if (s.in_ports p).have_format && s.have_format &&
            decide ((if (s.in_ports p).have_format && s.have_format then s.n_formats - 1
              else s.n_formats) = 0)
         then false else s.have_format) := by
  unfold impl_node_remove_port
  rw [if_pos hc]
  exact ⟨rfl, rfl, rfl, rfl⟩

theorem remove_port_format_inv {α : Type} (s : impl α) (d : spa_direction) (p : Nat)
    (hinv : format_inv s) : format_inv (impl_node_remove_port s d p).2 := by
  obtain ⟨hn, hiff⟩ := hinv
  by_cases hc : CHECK_IN_PORT s d p = true
  · obtain ⟨h1, h2, h3, h4⟩ := remove_port_fields s d p hc
    have hcp : CHECK_PORT s .INPUT p = true := by
      simp [CHECK_IN_PORT] at hc
      simp [CHECK_PORT, CHECK_IN_PORT, CHECK_OUT_PORT, hc.1.2, hc.2]
    have hcnt := format_count_SET_PORT s s .INPUT p port.zero hcp rfl rfl
    have hz : port.zero.have_format.toNat = 0 := rfl
    rw [hz, Nat.add_zero] at hcnt
    simp only [GET_PORT] at hcnt
    have hfc : format_count (impl_node_remove_port s d p).2
        = format_count (SET_PORT s .INPUT p port.zero) :=
      format_count_congr _ _ (by rw [h2]; rfl) (fun i => by rw [h1]; rfl)
    unfold format_inv
    rw [h3, h4, hfc]
    cases hpt : (s.in_ports p).have_format
    · rw [hpt] at hcnt
      simp only [Bool.toNat_false, Nat.add_zero] at hcnt
      simp only [Bool.false_and, Bool.false_eq_true, if_false]
      exact ⟨by omega, hiff⟩
    · rw [hpt] at hcnt
      simp only [Bool.toNat_true] at hcnt
      have hpos : 0 < s.n_formats := by omega
      have hs : s.have_format = true := hiff.mpr hpos
      simp only [hs, Bool.and_self, if_true, Bool.true_and, decide_eq_true_eq]
      refine ⟨by omega, ?_⟩
      by_cases h0 : s.n_formats - 1 = 0
      · simp [h0]
      · simp only [h0, if_false]
        constructor
        · intro _; omega
        · intro _; trivial
  · have : (impl_node_remove_port s d p).2 = s := by
      unfold impl_node_remove_port
      rw [if_neg hc]
    rw [this]
    exact ⟨hn, hiff⟩

theorem impl_init_format_inv {α : Type} [Zero α] : format_inv (impl_init : impl α) := by
  have hc : format_count (impl_init : impl α) = 0 := by
    unfold format_count
    have : (List.range MAX_PORTS).countP
        (fun i => ((impl_init : impl α).in_ports i).have_format) = 0 := by
      rw [List.countP_eq_zero]
      intro i _
      simp [impl_init, port.zero]
    rw [this]
    rfl
  unfold format_inv
  rw [hc]
  simp [impl_init]

theorem reachable_format_inv {α : Type} [Add α] [Zero α] (s : impl α) (h : Reachable s) :
    format_inv s := by
  induction h with
  | init => exact impl_init_format_inv
  | send_command s c _ ih =>
    cases c <;> exact same_formats_inv _ _ ⟨rfl, rfl, rfl, fun _ => rfl⟩ ih
  | add_port s d p _ ih => exact same_formats_inv _ _ (add_port_same_formats s d p) ih
  | remove_port s d p _ ih => exact remove_port_format_inv s d p ih
  | port_set_param s d p id flags param _ ih =>
    unfold impl_node_port_set_param
    split
    · rename_i hc
      split
      · exact port_set_format_format_inv s d p flags param hc ih
      · exact ih
    · exact ih
  | port_use_buffers s d p buffers _ _ ih =>
    exact same_formats_inv _ _ (port_use_buffers_same_formats s d p buffers) ih
  | port_set_io s d p id db dr _ ih =>
    exact same_formats_inv _ _ (port_set_io_same_formats s d p id db dr) ih
  | port_reuse_buffer s p b _ ih =>
    exact same_formats_inv _ _ (port_reuse_buffer_same_formats s p b) ih
  | process s sse hostmem _ ih =>
    exact same_formats_inv _ _ (process_same_formats sse hostmem s) ih
  | host_io s d p io hc _ _ ih =>
    exact same_formats_inv _ _ (same_formats_SET_PORT s s d p _ rfl rfl rfl rfl rfl) ih
  | host_range s d p range hc _ _ ih =>
    exact same_formats_inv _ _ (same_formats_SET_PORT s s d p _ rfl rfl rfl rfl rfl) ih
  | host_buffer s d p k sb hc _ ih =>
    exact same_formats_inv _ _ (same_formats_SET_PORT s s d p _ rfl rfl rfl rfl rfl) ih

theorem GET_PORT_SET_PORT_other {α : Type} (s : impl α) (dp dq : spa_direction) (p q : Nat)
    (x : port) (hcp : CHECK_PORT s dp p = true) (hcq : CHECK_PORT s dq q = true)
    (hne : (dp, p) ≠ (dq, q)) :
    GET_PORT (SET_PORT s dp p x) dq q = GET_PORT s dq q := by
  cases dp <;> cases dq
  · have hpq : q ≠ p := by
      intro h
      apply hne
      rw [h]
    simp [GET_PORT, SET_PORT, Function.update_noteq hpq]
  · rfl
  · rfl
  · exfalso
    apply hne
    simp [CHECK_PORT, CHECK_OUT_PORT, CHECK_IN_PORT] at hcp hcq
    rw [hcp, hcq]

/-- The node after the proposal `f` was set on the port `(dp, p)` and then on
the port `(dq, q)`. -/
theorem port_set_format_twice {α : Type} (s : impl α) (dp dq : spa_direction) (p q : Nat)
    (flags : Nat) (f : spa_pod_format)
    (hs : s.have_format = false)
    (hcp : CHECK_PORT s dp p = true) (hcq : CHECK_PORT s dq q = true)
    (hne : (dp, p) ≠ (dq, q))
    (hpp : (GET_PORT s dp p).have_format = false)
    (hpq : (GET_PORT s dq q).have_format = false)
    (hparse : parses_as_raw_audio f) (hf32 : f.raw.format = .F32) :
    (port_set_format s dp p flags (some f)).1 = 0 ∧
    port_set_format (port_set_format s dp p flags (some f)).2 dq q flags (some f) =
      (0, SET_PORT (SET_PORT { s with
          stride := sizeof_float, have_format := true, format := parsed_info f,
          n_formats := s.n_formats + 1 + 1 } dp p { GET_PORT s dp p with have_format := true })
        dq q { GET_PORT s dq q with have_format := true }) := by
  rw [port_set_format_first s dp p flags f hparse hf32 hs hpp]
  refine ⟨rfl, ?_⟩
  have hget : GET_PORT (SET_PORT { s with
      stride := sizeof_float, have_format := true, format := parsed_info f,
      n_formats := s.n_formats + 1 } dp p { GET_PORT s dp p with have_format := true }) dq q
      = GET_PORT s dq q :=
    GET_PORT_SET_PORT_other { s with
      stride := sizeof_float, have_format := true, format := parsed_info f,
      n_formats := s.n_formats + 1 } dp dq p q _ hcp hcq hne
  rw [port_set_format_again _ dq q flags f hparse
    (by rw [(SET_PORT_fields _ dp p _).2.1])
    (by rw [(SET_PORT_fields _ dp p _).2.2.1])
    (by rw [hget]; exact hpq)]
  rw [hget]
  cases dp <;> cases dq <;> rfl

theorem SET_PORT_comm {α : Type} (s t : impl α) (dp dq : spa_direction) (p q : Nat)
    (a b : port) (hcp : CHECK_PORT s dp p = true) (hcq : CHECK_PORT s dq q = true)
    (hne : (dp, p) ≠ (dq, q)) :
    SET_PORT (SET_PORT t dp p a) dq q b = SET_PORT (SET_PORT t dq q b) dp p a := by
  cases dp <;> cases dq
  · have hpq : p ≠ q := by
      intro h
      apply hne
      rw [h]
    simp only [SET_PORT]
    rw [Function.update_comm hpq]
  · rfl
  · rfl
  · exfalso
    apply hne
    simp [CHECK_PORT, CHECK_OUT_PORT, CHECK_IN_PORT] at hcp hcq
    rw [hcp, hcq]

theorem GET_PORT_SET_PORT_twice {α : Type} (s t : impl α) (dp dq : spa_direction) (p q : Nat)
    (a b : port) (hcp : CHECK_PORT s dp p = true) (hcq : CHECK_PORT s dq q = true)
    (hne : (dp, p) ≠ (dq, q)) :
    GET_PORT (SET_PORT (SET_PORT t dp p a) dq q b) dp p = a ∧
    GET_PORT (SET_PORT (SET_PORT t dp p a) dq q b) dq q = b := by
  refine ⟨?_, GET_SET_PORT _ dq q b⟩
  rw [SET_PORT_comm s t dp dq p q a b hcp hcq hne]
  exact GET_SET_PORT _ dp p a

/-- C11: in a reachable state without an established format, for two distinct
valid ports without a format and a raw-audio proposal `f` with 32-bit float
samples that both parsers accept, setting `f` on the first port and then on the
second succeeds both times, and so does the other order; the two orders end in
the same node state, in which the node format is `f`, the stride is 4, the
reference count is 2 and both ports hold the format. -/
theorem set_format_order_independent {α : Type} [Add α] [Zero α] (s : impl α)
    (hr : Reachable s) (dp dq : spa_direction) (p q : Nat) (flags : Nat) (f : spa_pod_format)
    (hs : s.have_format = false)
    (hcp : CHECK_PORT s dp p = true) (hcq : CHECK_PORT s dq q = true)
    (hne : (dp, p) ≠ (dq, q))
    (hpp : (GET_PORT s dp p).have_format = false)
    (hpq : (GET_PORT s dq q).have_format = false)
    (hparse : parses_as_raw_audio f) (hf32 : f.raw.format = .F32) :
    (port_set_format s dp p flags (some f)).1 = 0 ∧
    (port_set_format (port_set_format s dp p flags (some f)).2 dq q flags (some f)).1 = 0 ∧
    (port_set_format s dq q flags (some f)).1 = 0 ∧
    (port_set_format (port_set_format s dq q flags (some f)).2 dp p flags (some f)).1 = 0 ∧
    (port_set_format (port_set_format s dp p flags (some f)).2 dq q flags (some f)).2
      = (port_set_format (port_set_format s dq q flags (some f)).2 dp p flags (some f)).2 ∧
    (port_set_format (port_set_format s dp p flags (some f)).2 dq q flags
      (some f)).2.format = parsed_info f ∧
    (port_set_format (port_set_format s dp p flags (some f)).2 dq q flags
      (some f)).2.stride = 4 ∧
    (port_set_format (port_set_format s dp p flags (some f)).2 dq q flags
      (some f)).2.n_formats = 2 ∧
    (port_set_format (port_set_format s dp p flags (some f)).2 dq q flags
      (some f)).2.have_format = true ∧
    (GET_PORT (port_set_format (port_set_format s dp p flags (some f)).2 dq q flags
      (some f)).2 dp p).have_format = true ∧
    (GET_PORT (port_set_format (port_set_format s dp p flags (some f)).2 dq q flags
      (some f)).2 dq q).have_format = true := by
  obtain ⟨hn, hiff⟩ := reachable_format_inv s hr
  have hn0 : s.n_formats = 0 := by
    have hz : ¬ 0 < s.n_formats := by
      intro h
      have := hiff.mpr h
      rw [hs] at this
      exact absurd this (by decide)
    omega
  obtain ⟨h1, h12⟩ := port_set_format_twice s dp dq p q flags f hs hcp hcq hne hpp hpq hparse hf32
  obtain ⟨h2, h21⟩ := port_set_format_twice s dq dp q p flags f hs hcq hcp (Ne.symm hne) hpq hpp
    hparse hf32
  rw [h12, h21]
  obtain ⟨hg1, hg2⟩ := GET_PORT_SET_PORT_twice s
    { s with stride := sizeof_float, have_format := true, format := parsed_info f,
             n_formats := s.n_formats + 1 + 1 }
    dp dq p q { GET_PORT s dp p with have_format := true }
    { GET_PORT s dq q with have_format := true } hcp hcq hne
  refine ⟨h1, rfl, h2, rfl, ?_, ?_, ?_, ?_, ?_, ?_, ?_⟩
  · exact SET_PORT_comm s _ dp dq p q _ _ hcp hcq hne
  · simp only [(SET_PORT_fields _ _ _ _).2.2.1]
  · simp only [(SET_PORT_fields _ _ _ _).2.2.2]
    rfl
  · simp only [(SET_PORT_fields _ _ _ _).1, hn0]
    rfl
  · simp only [(SET_PORT_fields _ _ _ _).2.1]
  · show (GET_PORT (SET_PORT (SET_PORT _ dp p _) dq q _) dp p).have_format = true
    rw [hg1]
  · show (GET_PORT (SET_PORT (SET_PORT _ dp p _) dq q _) dq q).have_format = true
    rw [hg2]

/-- Witness of `set_format_order_independent`: the proposal `f32_mono` on the
input ports 0 and 1 of a node without a format. -/
theorem set_format_order_independent_witness :
    (port_set_format (port_set_format two_ports_state .INPUT 0 0 (some f32_mono)).2
      .INPUT 1 0 (some f32_mono)).2
      = (port_set_format (port_set_format two_ports_state .INPUT 1 0 (some f32_mono)).2
          .INPUT 0 0 (some f32_mono)).2 ∧
    (port_set_format (port_set_format two_ports_state .INPUT 0 0 (some f32_mono)).2
      .INPUT 1 0 (some f32_mono)).2.n_formats = 2 :=
  have h := set_format_order_independent two_ports_state
    (Reachable.add_port _ .INPUT 1 (Reachable.add_port _ .INPUT 0 Reachable.init))
    .INPUT .INPUT 0 1 0 f32_mono (by decide) (by decide) (by decide) (by decide) (by decide)
    (by decide) (by unfold parses_as_raw_audio; decide) (by decide)
  ⟨h.2.2.2.2.1, h.2.2.2.2.2.2.2.1⟩

/-! ## C23: the bound on the scratch array -/

theorem mixed_above {α : Type} [Add α] (m : Mem α) (dst src1 src2 p : DataPtr) (n i : Nat)
    (hi : n ≤ i) : mixed m dst src1 src2 0 n p i = m p i := by
  unfold mixed
  have : ¬ (p = dst ∧ 0 ≤ i ∧ i < n) := by omega
  rw [if_neg this]

theorem mix_buffers_above {α : Type} [Add α] (sse : Bool) (m : Mem α) (buffers : List buffer)
    (n i : Nat) (p : DataPtr) (hi : n ≤ i) : mix_buffers sse m buffers n p i = m p i := by
  unfold mix_buffers
  have hfold : ∀ (l : List buffer) (m1 : Mem α),
      (l.foldl (fun m b => mix_2_compiled sse m .scratch .scratch b.buffer.datas0.data n) m1) p i
        = m1 p i := by
    intro l
    induction l with
    | nil => intro m1; rfl
    | cons b rest ih =>
      intro m1
      rw [List.foldl_cons, ih, mix_2_compiled_eq, mixed_above _ _ _ _ _ _ _ hi]
  rw [hfold, mix_2_compiled_eq, mixed_above _ _ _ _ _ _ _ hi]

/-- The output stage writes the scratch array only below `n_samples`. -/
theorem produce_empty_above {α : Type} [Add α] [Zero α] (sse : Bool) (hostmem : Nat → Nat → α)
    (empty : Nat → α) (outb : buffer) (buffers : List buffer) (maxsize i : Nat)
    (hi : maxsize / sizeof_float ≤ i) :
    (produce sse hostmem empty outb buffers maxsize).2 i = empty i := by
  unfold produce
  dsimp only
  split
  · rfl
  · split
    · show memset_zero (node_mem hostmem empty) .scratch (maxsize / sizeof_float) .scratch i
        = empty i
      unfold memset_zero
      have : ¬ (DataPtr.scratch = DataPtr.scratch ∧ i < maxsize / sizeof_float) := by omega
      rw [if_neg this]
      rfl
    · show mix_buffers sse (node_mem hostmem empty) buffers (maxsize / sizeof_float) .scratch i
        = empty i
      rw [mix_buffers_above sse _ buffers _ i .scratch hi]
      rfl

theorem cycle_maxsize_le {α : Type} (this : impl α) (outio : spa_io_buffers) :
    cycle_maxsize this outio ≤ MAX_SAMPLES * sizeof_float := by
  rw [cycle_maxsize_eq]
  refine Nat.le_trans (foldl_min_le_init _ _) ?_
  unfold initial_maxsize
  cases this.out_ports.range with
  | none => exact Nat.le_refl _
  | some r => exact Nat.min_le_right _ _

/-- C23: in every cycle, whatever the `max_size` of the range hint and the chunk
sizes of the inputs are, `maxsize` is at most 4096 and `n_samples` at most
`MAX_SAMPLES` (both are unsigned here, so at least 0); the cycle changes the
scratch array only at indices below `n_samples`, hence at no index from
`MAX_SAMPLES` on: neither the silence fill nor `mix_2` writes past the array. -/
theorem scratch_writes_bounded {α : Type} [Add α] [Zero α] (sse : Bool)
    (hostmem : Nat → Nat → α) (this : impl α) :
    (∀ outio, cycle_maxsize this outio ≤ 4096 ∧ cycle_n_samples this outio ≤ MAX_SAMPLES) ∧
    (∀ outio, this.out_ports.io = some outio →
      ∀ i, cycle_n_samples this outio ≤ i →
        (impl_node_process sse hostmem this).2.empty i = this.empty i) ∧
    (∀ i, MAX_SAMPLES ≤ i → (impl_node_process sse hostmem this).2.empty i = this.empty i) := by
  have hmax : ∀ outio, cycle_maxsize this outio ≤ 4096 ∧
      cycle_n_samples this outio ≤ MAX_SAMPLES := by
    intro outio
    have h := cycle_maxsize_le this outio
    unfold MAX_SAMPLES sizeof_float at h
    unfold cycle_n_samples MAX_SAMPLES sizeof_float
    omega
  have hbelow : ∀ outio, this.out_ports.io = some outio →
      ∀ i, cycle_n_samples this outio ≤ i →
        (impl_node_process sse hostmem this).2.empty i = this.empty i := by
    intro outio hio i hi
    unfold impl_node_process
    simp only [hio]
    by_cases hst : outio.status = SPA_STATUS_HAVE_BUFFER
    · simp only [hst, if_true]
    · simp only [if_neg hst]
      cases hd : (dequeue_buffer (recycle this.out_ports outio).1).1 with
      | none => rfl
      | some k => exact produce_empty_above sse hostmem this.empty _ _ _ i hi
  refine ⟨hmax, hbelow, ?_⟩
  intro i hi
  cases hio : this.out_ports.io with
  | none =>
    unfold impl_node_process
    simp only [hio]
  | some outio =>
    exact hbelow outio hio i (Nat.le_trans (hmax outio).2 hi)

/-- Witness of `scratch_writes_bounded`: the two-input scenario, whose cycle
mixes 4 samples. -/
theorem scratch_writes_bounded_witness :
    cycle_n_samples two_inputs_state ⟨SPA_STATUS_NEED_BUFFER, SPA_ID_INVALID⟩ = 4 ∧
    ∀ i, cycle_n_samples two_inputs_state ⟨SPA_STATUS_NEED_BUFFER, SPA_ID_INVALID⟩ ≤ i →
      (impl_node_process true scenario_host two_inputs_state).2.empty i
        = two_inputs_state.empty i :=
  ⟨by decide,
   (scratch_writes_bounded true scenario_host two_inputs_state).2.1
     ⟨SPA_STATUS_NEED_BUFFER, SPA_ID_INVALID⟩ (by decide)⟩

/-! ## C21: the format reference count over the valid ports -/

/-- In a port table whose free slots are zeroed only valid input ports hold
the format. -/
theorem format_holders_eq {α : Type} (s : impl α) (hinv : port_table_inv s) :
    format_holders s = format_count s := by
  unfold format_holders format_count
  congr 2
  funext i
  cases hv : (s.in_ports i).valid with
  | true => simp
  | false =>
    have hz := hinv.1 i hv
    rw [hz]
    rfl

/-- An accepted proposal on a port that holds the format of the node. -/
theorem port_set_format_held {α : Type} (s : impl α) (d : spa_direction) (p : Nat)
    (flags : Nat) (f : spa_pod_format) (hp : parses_as_raw_audio f)
    (hs : s.have_format = true) (heq : parsed_info f = s.format)
    (hpt : (GET_PORT s d p).have_format = true) :
    port_set_format s d p flags (some f) = (0, s) := by
  obtain ⟨h1, h2, h3, h4⟩ := hp
  have heq' : (⟨f.media_type, f.media_subtype, f.raw⟩ : spa_audio_info) = s.format := heq
  unfold port_set_format
  simp only [not_lt.mpr h1, not_lt.mpr h4, if_false, h2, h3, ne_eq, not_true_eq_false,
    or_self, hs, if_true, hpt, Bool.not_true]
  rw [← h2, ← h3, heq']
  simp

/-- After an accepted proposal the node holds the parsed format and the port
holds the format. -/
theorem port_set_format_accepted {α : Type} (s : impl α) (d : spa_direction) (p : Nat)
    (flags : Nat) (f : spa_pod_format)
    (h0 : (port_set_format s d p flags (some f)).1 = 0) :
    parses_as_raw_audio f ∧
    (port_set_format s d p flags (some f)).2.have_format = true ∧
    (port_set_format s d p flags (some f)).2.format = parsed_info f ∧
    (GET_PORT (port_set_format s d p flags (some f)).2 d p).have_format = true := by
  by_cases h1 : f.parse_res < 0
  · exfalso
    unfold port_set_format at h0
    simp only [h1, if_true] at h0
    omega
  by_cases h2 : f.media_type ≠ .audio ∨ f.media_subtype ≠ .raw
  · exfalso
    unfold port_set_format at h0
    simp only [h1, if_false, h2, if_true] at h0
    simp [EINVAL] at h0
  by_cases h4 : f.raw_res < 0
  · exfalso
    unfold port_set_format at h0
    simp only [h1, if_false, h2, h4, if_true] at h0
    simp [EINVAL] at h0
  have hp : parses_as_raw_audio f := by
    refine ⟨by omega, ?_, ?_, by omega⟩
    · by_contra hc; exact h2 (Or.inl hc)
    · by_contra hc; exact h2 (Or.inr hc)
  refine ⟨hp, ?_⟩
  cases hs : s.have_format with
  | true =>
    by_cases heq : parsed_info f = s.format
    · cases hpt : (GET_PORT s d p).have_format with
      | true =>
        rw [port_set_format_held s d p flags f hp hs heq hpt]
        exact ⟨hs, heq.symm, hpt⟩
      | false =>
        rw [port_set_format_again s d p flags f hp hs heq hpt]
        refine ⟨?_, ?_, ?_⟩
        · rw [(SET_PORT_fields _ d p _).2.1]
          exact hs
        · rw [(SET_PORT_fields _ d p _).2.2.1]
          exact heq.symm
        · rw [GET_SET_PORT]
    · exfalso
      have heq' : (⟨f.media_type, f.media_subtype, f.raw⟩ : spa_audio_info) ≠ s.format := heq
      unfold port_set_format at h0
      simp only [h1, if_false, h2, h4, hs, if_true, heq', ne_eq, not_false_eq_true] at h0
      simp [EINVAL] at h0
  | false =>
    by_cases hf32 : f.raw.format = .F32
    · cases hpt : (GET_PORT s d p).have_format with
      | true =>
        have hr : port_set_format s d p flags (some f) =
            (0, { s with stride := sizeof_float, have_format := true,
                         format := parsed_info f }) := by
          unfold port_set_format
          simp only [h1, if_false, h2, h4, hs, Bool.false_eq_true, hf32, ne_eq,
            not_true_eq_false, hpt, Bool.not_true]
          rfl
        rw [hr]
        refine ⟨rfl, rfl, ?_⟩
        cases d <;> exact hpt
      | false =>
        rw [port_set_format_first s d p flags f hp hf32 hs hpt]
        refine ⟨?_, ?_, ?_⟩
        · rw [(SET_PORT_fields _ d p _).2.1]
        · rw [(SET_PORT_fields _ d p _).2.2.1]
        · rw [GET_SET_PORT]
    · exfalso
      unfold port_set_format at h0
      simp only [h1, if_false, h2, h4, hs, Bool.false_eq_true, ne_eq, hf32,
        not_false_eq_true, if_true] at h0
      simp [EINVAL] at h0

/-- Setting through `SET_PORT` a port that keeps its `valid` flag keeps the
port check. -/
theorem CHECK_PORT_of_set_format {α : Type} (s : impl α) (d : spa_direction) (p : Nat)
    (flags : Nat) (param : Option spa_pod_format) (hc : CHECK_PORT s d p = true) :
    CHECK_PORT (port_set_format s d p flags param).2 d p = true := by
  have hsame := port_set_format_same s d p flags param hc
  cases d with
  | OUTPUT => exact hc
  | INPUT =>
    have hc1 : decide (p < MAX_PORTS) = true ∧ (s.in_ports p).valid = true := by
      simpa [CHECK_PORT, CHECK_OUT_PORT, CHECK_IN_PORT] using hc
    have hv : ((port_set_format s .INPUT p flags param).2.in_ports p).valid = true := by
      rcases hsame.2 p with h | h
      · rw [h]; exact hc1.2
      · exact h.2
    simp [CHECK_PORT, CHECK_OUT_PORT, CHECK_IN_PORT, hv, hc1.1]

/-- C21: in every reachable state of the node (reached from `impl_init` by any
sequence of the public operations, among them add port, remove port, set format
and clear format) `n_formats` is the number of ports whose `have_format` flag
is set, counted over the output port and the valid input ports, and the
`have_format` flag of the node is set exactly when `n_formats > 0`.  In
particular a format that was accepted on a port and is set again on that port
is accepted again and leaves the node, hence the count, as it was, and clearing
the format of a port that has none changes nothing. -/
theorem format_refcount {α : Type} [Add α] [Zero α] (s : impl α) (h : Reachable s)
    (d : spa_direction) (p : Nat) (flags : Nat) (f : spa_pod_format) :
    s.n_formats = (format_holders s : Int) ∧
    (s.have_format = true ↔ 0 < s.n_formats) ∧
    ((impl_node_port_set_param s d p .Format flags (some f)).1 = 0 →
      impl_node_port_set_param (impl_node_port_set_param s d p .Format flags (some f)).2
          d p .Format flags (some f)
        = (0, (impl_node_port_set_param s d p .Format flags (some f)).2)) ∧
    ((GET_PORT s d p).have_format = false →
      (impl_node_port_set_param s d p .Format flags none).2 = s) := by
  have hf := reachable_format_inv s h
  have hinv := reachable_inv s h
  refine ⟨?_, hf.2, ?_, ?_⟩
  · rw [format_holders_eq s hinv]
    exact hf.1
  · intro h0
    cases hc : CHECK_PORT s d p with
    | false =>
      exfalso
      unfold impl_node_port_set_param at h0
      simp only [hc, Bool.false_eq_true, if_false] at h0
      simp [EINVAL] at h0
    | true =>
      have hr : impl_node_port_set_param s d p .Format flags (some f)
          = port_set_format s d p flags (some f) := by
        unfold impl_node_port_set_param
        simp only [hc, if_true]
      rw [hr] at h0 ⊢
      obtain ⟨hp, hs1, hfmt, hpt1⟩ := port_set_format_accepted s d p flags f h0
      have hc1 := CHECK_PORT_of_set_format s d p flags (some f) hc
      unfold impl_node_port_set_param
      simp only [hc1, if_true]
      exact port_set_format_held _ d p flags f hp hs1 hfmt.symm hpt1
  · intro hpt
    unfold impl_node_port_set_param
    cases hc : CHECK_PORT s d p with
    | false => simp
    | true =>
      simp only [if_true]
      unfold port_set_format
      simp only [hpt, Bool.false_eq_true, if_false]

/-- Witness of `format_refcount`: the node whose output port established
`f32_mono` counts one holder; input port 0 takes the format (count 2), taking
it once more changes nothing, and so does clearing input port 0 before it has
the format. -/
theorem format_refcount_witness :
    Reachable negotiated_state ∧
    negotiated_state.n_formats = (format_holders negotiated_state : Int) ∧
    format_holders negotiated_state = 1 ∧
    (impl_node_port_set_param negotiated_state .INPUT 0 .Format 0 (some f32_mono)).1 = 0 ∧
    (impl_node_port_set_param negotiated_state .INPUT 0 .Format 0 (some f32_mono)).2.n_formats
      = 2 ∧
    impl_node_port_set_param
        (impl_node_port_set_param negotiated_state .INPUT 0 .Format 0 (some f32_mono)).2
        .INPUT 0 .Format 0 (some f32_mono)
      = (0, (impl_node_port_set_param negotiated_state .INPUT 0 .Format 0 (some f32_mono)).2) ∧
    (impl_node_port_set_param negotiated_state .INPUT 0 .Format 0 none).2 = negotiated_state :=
  have hr : Reachable negotiated_state :=
    Reachable.port_set_param _ .OUTPUT 0 .Format 0 (some f32_mono)
      (Reachable.add_port _ .INPUT 0 Reachable.init)
  have h := format_refcount negotiated_state hr .INPUT 0 0 f32_mono
  ⟨hr, h.1, by decide, by decide, by decide, h.2.2.1 (by decide), h.2.2.2 (by decide)⟩

/-! ## C22: the watermark and the port counter -/

theorem countP_range_update_valid (f : Nat → port) (p : Nat) (q : port) :
    ∀ n, (List.range n).countP (fun i => (Function.update f p q i).valid) +
        (if p < n then (f p).valid.toNat else 0) =
      (List.range n).countP (fun i => (f i).valid) +
        (if p < n then q.valid.toNat else 0) := by
  intro n
  induction n with
  | zero => simp
  | succ n ih =>
    rw [List.range_succ, List.countP_append, List.countP_append]
    simp only [List.countP_cons, List.countP_nil, Nat.zero_add]
    by_cases hpn : p = n
    · subst hpn
      have h1 : ¬ p < p := by omega
      have h2 : p < p + 1 := by omega
      simp only [h1, if_false, Nat.add_zero] at ih
      simp only [h2, if_true, Function.update_same, ih]
      cases (f p).valid <;> cases q.valid <;> simp
    · simp only [Function.update_noteq (Ne.symm hpn)]
      by_cases hlt : p < n
      · have h2 : p < n + 1 := by omega
        simp only [hlt, if_true] at ih
        simp only [h2, if_true]
        omega
      · have h2 : ¬ p < n + 1 := by omega
        simp only [hlt, if_false, Nat.add_zero] at ih
        simp only [h2, if_false, Nat.add_zero, ih]

theorem valid_input_ids_length {α : Type} (s : impl α) :
    (valid_input_ids s).length
      = (List.range MAX_PORTS).countP (fun i => (s.in_ports i).valid) := by
  unfold valid_input_ids
  rw [List.countP_eq_length_filter]

theorem valid_input_ids_congr {α : Type} (s t : impl α)
    (h : ∀ i, (t.in_ports i).valid = (s.in_ports i).valid) :
    valid_input_ids t = valid_input_ids s := by
  unfold valid_input_ids
  congr 1
  funext i
  exact h i

theorem same_port_table_valid {α : Type} (s t : impl α) (h : same_port_table s t) (i : Nat) :
    (t.in_ports i).valid = (s.in_ports i).valid := by
  rcases h.2 i with h1 | ⟨h1, h2⟩
  · rw [h1]
  · rw [h1, h2]

/-- An operation that keeps the port table and the counter keeps the invariant
of the counter. -/
theorem same_port_table_count {α : Type} (s t : impl α) (h : same_port_table s t)
    (hc : t.port_count = s.port_count) (hinv : port_count_inv s) : port_count_inv t := by
  unfold port_count_inv at hinv ⊢
  rw [hc, hinv, valid_input_ids_congr s t (same_port_table_valid s t h)]

theorem SET_PORT_port_count {α : Type} (s : impl α) (d : spa_direction) (p : Nat) (q : port) :
    (SET_PORT s d p q).port_count = s.port_count := by
  cases d <;> rfl

theorem port_set_param_port_count {α : Type} (s : impl α) (d : spa_direction) (p : Nat)
    (id : spa_param_type) (flags : Nat) (param : Option spa_pod_format) :
    (impl_node_port_set_param s d p id flags param).2.port_count = s.port_count := by
  unfold impl_node_port_set_param
  split
  · split
    · unfold port_set_format
      cases param with
      | none =>
        dsimp only
        split
        · rw [SET_PORT_port_count]
        · rfl
      | some f =>
        dsimp only
        repeat' split
        all_goals first
          | rfl
          | rw [SET_PORT_port_count]
    · rfl
  · rfl

theorem port_use_buffers_port_count {α : Type} (s : impl α) (d : spa_direction) (p : Nat)
    (buffers : List spa_buffer) :
    (impl_node_port_use_buffers s d p buffers).2.port_count = s.port_count := by
  unfold impl_node_port_use_buffers
  split
  · dsimp only
    split
    · split
      · rw [SET_PORT_port_count]
      · rw [SET_PORT_port_count]
    · rfl
  · rfl

theorem port_set_io_port_count {α : Type} (s : impl α) (d : spa_direction) (p : Nat)
    (id : spa_io_type) (data_buffers : Option spa_io_buffers)
    (data_range : Option spa_io_range) :
    (impl_node_port_set_io s d p id data_buffers data_range).2.port_count = s.port_count := by
  unfold impl_node_port_set_io
  split
  · cases id
    · rw [SET_PORT_port_count]
    · rw [SET_PORT_port_count]
    · rfl
    · rfl
  · rfl

theorem port_reuse_buffer_port_count {α : Type} (s : impl α) (p : Nat) (buffer_id : Nat) :
    (impl_node_port_reuse_buffer s p buffer_id).2.port_count = s.port_count := by
  unfold impl_node_port_reuse_buffer
  split
  · dsimp only
    split
    · rfl
    · rfl
  · rfl

theorem process_port_count {α : Type} [Add α] [Zero α] (sse : Bool)
    (hostmem : Nat → Nat → α) (s : impl α) :
    (impl_node_process sse hostmem s).2.port_count = s.port_count := by
  unfold impl_node_process
  split
  · rfl
  · split
    · rfl
    · dsimp only
      split
      · rfl
      · rfl

theorem add_port_port_count {α : Type} (s : impl α) (d : spa_direction) (p : Nat)
    (hinv : port_count_inv s) : port_count_inv (impl_node_add_port s d p).2 := by
  unfold impl_node_add_port
  split
  · rename_i hc
    have hp : p < MAX_PORTS ∧ (s.in_ports p).valid = false := by
      simp [CHECK_FREE_IN_PORT] at hc
      exact ⟨hc.1.2, hc.2⟩
    unfold port_count_inv at hinv ⊢
    rw [valid_input_ids_length] at hinv ⊢
    dsimp only
    have h := countP_range_update_valid s.in_ports p
      { s.in_ports p with
        id := p
        props := port_props_reset (s.in_ports p).props
        io_volume := true
        io_mute := true
        queue := spa_list_init
        info_flags := [.CAN_USE_BUFFERS, .REMOVABLE, .OPTIONAL, .IN_PLACE]
        valid := true } MAX_PORTS
    rw [if_pos hp.1, if_pos hp.1, hp.2] at h
    simp only [Bool.toNat_false, Nat.add_zero, Bool.toNat_true] at h
    rw [hinv]
    have h2 : ((List.range MAX_PORTS).countP (fun i => (Function.update s.in_ports p
      { s.in_ports p with
        id := p
        props := port_props_reset (s.in_ports p).props
        io_volume := true
        io_mute := true
        queue := spa_list_init
        info_flags := [.CAN_USE_BUFFERS, .REMOVABLE, .OPTIONAL, .IN_PLACE]
        valid := true } i).valid) : Int)
        = ((List.range MAX_PORTS).countP (fun i => (s.in_ports i).valid) : Int) + 1 := by
      rw [h]
      push_cast
      rfl
    exact h2.symm
  · exact hinv

theorem remove_port_port_count {α : Type} (s : impl α) (d : spa_direction) (p : Nat)
    (hinv : port_count_inv s) : port_count_inv (impl_node_remove_port s d p).2 := by
  unfold impl_node_remove_port
  split
  · rename_i hc
    have hp : p < MAX_PORTS ∧ (s.in_ports p).valid = true := by
      simp [CHECK_IN_PORT] at hc
      exact ⟨hc.1.2, hc.2⟩
    unfold port_count_inv at hinv ⊢
    rw [valid_input_ids_length] at hinv ⊢
    dsimp only
    have h := countP_range_update_valid s.in_ports p port.zero MAX_PORTS
    rw [if_pos hp.1, if_pos hp.1, hp.2] at h
    have hz : port.zero.valid = false := rfl
    rw [hz] at h
    simp only [Bool.toNat_false, Nat.add_zero, Bool.toNat_true] at h
    rw [hinv, ← h]
    push_cast
    omega
  · exact hinv

theorem impl_init_port_count {α : Type} [Zero α] : port_count_inv (impl_init : impl α) := by
  unfold port_count_inv
  rw [valid_input_ids_length]
  have h : (List.range MAX_PORTS).countP
      (fun i => (((impl_init : impl α)).in_ports i).valid) = 0 := by
    rw [List.countP_eq_zero]
    intro i _
    simp [impl_init, port.zero]
  rw [h]
  rfl

/-- In every reachable state `port_count` is the number of valid input ports. -/
theorem reachable_port_count {α : Type} [Add α] [Zero α] (s : impl α) (h : Reachable s) :
    port_count_inv s := by
  induction h with
  | init => exact impl_init_port_count
  | send_command s c _ ih =>
    exact same_port_table_count _ _ (send_command_same s c) (by cases c <;> rfl) ih
  | add_port s d p _ ih => exact add_port_port_count s d p ih
  | remove_port s d p _ ih => exact remove_port_port_count s d p ih
  | port_set_param s d p id flags param _ ih =>
    exact same_port_table_count _ _ (port_set_param_same s d p id flags param)
      (port_set_param_port_count s d p id flags param) ih
  | port_use_buffers s d p buffers _ _ ih =>
    exact same_port_table_count _ _ (port_use_buffers_same s d p buffers)
      (port_use_buffers_port_count s d p buffers) ih
  | port_set_io s d p id db dr _ ih =>
    exact same_port_table_count _ _ (port_set_io_same s d p id db dr)
      (port_set_io_port_count s d p id db dr) ih
  | port_reuse_buffer s p b _ ih =>
    exact same_port_table_count _ _ (port_reuse_buffer_same s p b)
      (port_reuse_buffer_port_count s p b) ih
  | process s sse hostmem _ ih =>
    exact same_port_table_count _ _ (process_same sse hostmem s)
      (process_port_count sse hostmem s) ih
  | host_io s d p io hc _ _ ih =>
    exact same_port_table_count _ _ (same_port_table_SET_PORT s s d p _ hc rfl rfl rfl)
      (SET_PORT_port_count s d p _) ih
  | host_range s d p range hc _ _ ih =>
    exact same_port_table_count _ _ (same_port_table_SET_PORT s s d p _ hc rfl rfl rfl)
      (SET_PORT_port_count s d p _) ih
  | host_buffer s d p k sb hc _ ih =>
    exact same_port_table_count _ _ (same_port_table_SET_PORT s s d p _ hc rfl rfl rfl)
      (SET_PORT_port_count s d p _) ih

theorem get_port_ids_loop_count (in_ports : Nat → port) (last_port : Int) (n : Nat) :
    ∀ (fuel i idx : Nat) (ids : Nat → Nat),
      ((i : Int) + fuel ≤ last_port) → idx ≤ n →
      (get_port_ids_loop in_ports last_port n fuel i idx ids).1 =
        idx + (((List.range' i fuel).filter (fun i => (in_ports i).valid)).take
          (n - idx)).length := by
  intro fuel
  induction fuel with
  | zero =>
    intro i idx ids _ _
    simp [get_port_ids_loop]
  | succ fuel ih =>
    intro i idx ids hle hidx
    unfold get_port_ids_loop
    have hi : (i : Int) < last_port := by omega
    by_cases hn : idx < n
    · rw [if_pos ⟨hi, hn⟩]
      have hsub : n - idx = (n - (idx + 1)) + 1 := by omega
      by_cases hv : (in_ports i).valid = true
      · rw [if_pos hv, ih (i + 1) (idx + 1) _ (by push_cast; omega) (by omega)]
        rw [List.range'_succ, List.filter_cons_of_pos (by simpa using hv),
          hsub, List.take_succ_cons, List.length_cons]
        omega
      · rw [if_neg hv, ih (i + 1) idx _ (by push_cast; omega) hidx]
        rw [List.range'_succ (s := i), List.filter_cons_of_neg (by simpa using hv)]
    · have hcond : ¬ ((i : Int) < last_port ∧ idx < n) := fun h => hn h.2
      rw [if_neg hcond]
      have : n - idx = 0 := by omega
      rw [this, List.take_zero, List.length_nil]
      rfl

theorem map_write_list (ids : Nat → Nat) (l : List Nat) :
    (List.range l.length).map (write_list ids 0 l) = l := by
  apply List.ext_getElem
  · simp
  · intro j h1 h2
    simp only [List.getElem_map, List.getElem_range]
    unfold write_list
    have hj : 0 ≤ j ∧ j < 0 + l.length := by omega
    rw [if_pos hj, Nat.sub_zero, List.getD_eq_getElem?_getD, List.getElem?_eq_getElem h2]
    rfl

/-- The ids `impl_node_get_port_ids` writes are the first `n` valid input port
ids, in ascending order. -/
theorem reported_input_ids_eq {α : Type} (s : impl α) (hinv : port_table_inv s) (n : Nat) :
    reported_input_ids s n = (valid_input_ids s).take n := by
  unfold reported_input_ids
  dsimp only
  have hle : ((0 : Nat) : Int) + (s.last_port.toNat : Nat) ≤ s.last_port := by
    have := hinv.2.1
    omega
  rw [get_port_ids_loop_count s.in_ports s.last_port n _ 0 0 _ hle (Nat.zero_le _),
    get_port_ids_loop_eq s.in_ports s.last_port n _ 0 0 _ hle (Nat.zero_le _),
    valid_ids_below_last_port s hinv, Nat.zero_add, Nat.sub_zero]
  exact map_write_list _ _

/-- Counterexample to C22 as stated: the node with the input ports 0 and 1 is
reached by two calls of add port; asked for the input ids with a capacity of
one entry, the loop of `impl_node_get_port_ids` ends once `idx` has reached the
capacity, after port 0: the valid port 1 is not visited and its id is not
written, whatever the caller's array held. -/
theorem get_port_ids_scan_cut_short :
    Reachable two_ports_state ∧
    (two_ports_state.in_ports 1).valid = true ∧
    reported_input_ids two_ports_state 1 = [0] ∧
    1 ∉ reported_input_ids two_ports_state 1 ∧
    ∀ ids : Nat → Nat,
      get_port_ids_loop two_ports_state.in_ports two_ports_state.last_port 1
        two_ports_state.last_port.toNat 0 0 ids = (1, Function.update ids 0 0) :=
  ⟨Reachable.add_port _ .INPUT 1 (Reachable.add_port _ .INPUT 0 Reachable.init),
   by decide, by decide, by decide, fun _ => rfl⟩

/-- C22 (as amended): in every reachable state of the node (reached from
`impl_init` by any sequence of the public operations, among them add port and
remove port) `last_port` is one plus the largest valid input port id, and 0
when no input port is valid; `port_count` is the number of valid input ports
(`valid_input_ids` lists exactly the valid ones).  Hence every valid input port
has an id below `last_port` and lies in the range the scan of
`impl_node_process` runs over, which consumes it and takes its buffer when it
is ready; and `impl_node_get_port_ids` writes the first `n` valid ids, so it
reaches every valid input port when the capacity `n` of the caller's array is
at least the number of valid input ports. -/
theorem port_table_watermark {α : Type} [Add α] [Zero α] (s : impl α) (h : Reachable s) :
    ((∀ i, (s.in_ports i).valid = false) → s.last_port = 0) ∧
    (∀ m, (s.in_ports m).valid = true → (∀ i, (s.in_ports i).valid = true → i ≤ m) →
      s.last_port = (m : Int) + 1) ∧
    s.port_count = ((valid_input_ids s).length : Int) ∧
    (∀ i, i ∈ valid_input_ids s ↔ (s.in_ports i).valid = true) ∧
    (∀ i, (s.in_ports i).valid = true →
      (i : Int) < s.last_port ∧ i ∈ List.range s.last_port.toNat ∧
      ∀ outport, input_ready (s.in_ports i) = true →
        (scan_inputs s outport).in_ports i = consumed (s.in_ports i) ∧
        named_buffer (s.in_ports i) ∈ (scan_inputs s outport).buffers) ∧
    (∀ n, reported_input_ids s n = (valid_input_ids s).take n) ∧
    (∀ n i, (valid_input_ids s).length ≤ n → (s.in_ports i).valid = true →
      i ∈ reported_input_ids s n) := by
  have hinv := reachable_inv s h
  have hcount := reachable_port_count s h
  obtain ⟨hz, h0, hmax, hlt, hlast⟩ := hinv
  have hrange : ∀ i, (s.in_ports i).valid = true → i < s.last_port.toNat := by
    intro i hv
    have := hlt i hv
    omega
  refine ⟨?_, ?_, hcount, mem_valid_input_ids s (reachable_inv s h), ?_, ?_, ?_⟩
  · intro hnone
    by_contra hne
    have hpos : 0 < s.last_port := by omega
    have hv := hlast hpos
    rw [hnone] at hv
    exact absurd hv (by simp)
  · intro m hm hmaxm
    have h1 := hlt m hm
    have hpos : 0 < s.last_port := by omega
    have h2 := hmaxm _ (hlast hpos)
    omega
  · intro i hv
    refine ⟨hlt i hv, List.mem_range.mpr (hrange i hv), ?_⟩
    intro outport hr
    rw [scan_inputs_eq]
    dsimp only
    refine ⟨by rw [if_pos ⟨hrange i hv, hr⟩], ?_⟩
    unfold ready_buffers ready_ids
    exact List.mem_map.mpr ⟨i, List.mem_filter.mpr ⟨List.mem_range.mpr (hrange i hv), hr⟩, rfl⟩
  · intro n
    exact reported_input_ids_eq s (reachable_inv s h) n
  · intro n i hn hv
    rw [reported_input_ids_eq s (reachable_inv s h) n, List.take_of_length_le hn]
    exact (mem_valid_input_ids s (reachable_inv s h) i).mpr hv

/-- Witness of `port_table_watermark`: after adding the input ports 3 and 1
the watermark is 3 + 1, the counter is 2, and a capacity of 2 entries lets
`impl_node_get_port_ids` reach port 3. -/
theorem port_table_watermark_witness :
    Reachable sparse_ports_state ∧
    sparse_ports_state.last_port = 3 + 1 ∧
    sparse_ports_state.port_count = 2 ∧
    3 ∈ reported_input_ids sparse_ports_state 2 :=
  have hr : Reachable sparse_ports_state :=
    Reachable.add_port _ .INPUT 1 (Reachable.add_port _ .INPUT 3 Reachable.init)
  have h := port_table_watermark sparse_ports_state hr
  ⟨hr,
   h.2.1 3 (by decide) (fun i hv => by
     have hlt := (h.2.2.2.2.1 i hv).1
     have hl : sparse_ports_state.last_port = 4 := by decide
     omega),
   h.2.2.1.trans (by decide),
   h.2.2.2.2.2.2 2 3 (by decide) (by decide)⟩

/-! ## C4: an input that is the scratch array -/

theorem mix_buffers_three {α : Type} [Add α] (sse : Bool) (m : Mem α) (b0 b1 b2 : buffer)
    (n : Nat) :
    mix_buffers sse m [b0, b1, b2] n =
      mixed (mixed m .scratch b0.buffer.datas0.data b1.buffer.datas0.data 0 n)
        .scratch .scratch b2.buffer.datas0.data 0 n := by
  unfold mix_buffers
  simp only [List.getD_cons_zero, List.getD_cons_succ, List.drop_succ_cons, List.drop_zero,
    List.foldl_cons, List.foldl_nil, mix_2_compiled_eq]

theorem scratch_input_reachable : Reachable scratch_input_state :=
  Reachable.port_set_io _ .OUTPUT 0 .Buffers _ none
  (Reachable.port_set_io _ .INPUT 2 .Buffers _ none
  (Reachable.port_set_io _ .INPUT 1 .Buffers _ none
  (Reachable.port_set_io _ .INPUT 0 .Buffers _ none
  (Reachable.port_use_buffers _ .OUTPUT 0 [host_buffer 10 0] (by decide)
  (Reachable.port_use_buffers _ .INPUT 2 [scratch_buffer 16] (by decide)
  (Reachable.port_use_buffers _ .INPUT 1 [host_buffer 2 16] (by decide)
  (Reachable.port_use_buffers _ .INPUT 0 [host_buffer 1 16] (by decide)
  (Reachable.port_set_param _ .OUTPUT 0 .Format 0 (some f32_mono)
  (Reachable.port_set_param _ .INPUT 2 .Format 0 (some f32_mono)
  (Reachable.port_set_param _ .INPUT 1 .Format 0 (some f32_mono)
  (Reachable.port_set_param _ .INPUT 0 .Format 0 (some f32_mono)
  (Reachable.add_port _ .INPUT 2
  (Reachable.add_port _ .INPUT 1
  (Reachable.add_port _ .INPUT 0 Reachable.init))))))))))))))

theorem scratch_input_inputs :
    cycle_inputs scratch_input_state =
      [named_buffer (scratch_input_state.in_ports 0),
       named_buffer (scratch_input_state.in_ports 1),
       named_buffer (scratch_input_state.in_ports 2)] ∧
    (named_buffer (scratch_input_state.in_ports 0)).buffer.datas0.data = .host 1 ∧
    (named_buffer (scratch_input_state.in_ports 1)).buffer.datas0.data = .host 2 ∧
    (named_buffer (scratch_input_state.in_ports 2)).buffer.datas0.data = .scratch := by
  decide

/-- The cycle of `scratch_input_state`: the scratch array holds
`(src0[i] + src1[i]) + (src0[i] + src1[i])` below the sample count, because the
third input is read from the scratch array after the first two were stored
there. -/
theorem scratch_input_cycle (sse : Bool) (i : Nat) (hi : i < 4) :
    (impl_node_process sse scenario_host scratch_input_state).2.empty i = 2 * (i : ℚ) + 3 := by
  rw [process_output_stage sse scenario_host scratch_input_state
    ⟨SPA_STATUS_NEED_BUFFER, SPA_ID_INVALID⟩ 0 [] (by decide) (by decide) (by decide)]
  obtain ⟨hin, hd0, hd1, hd2⟩ := scratch_input_inputs
  have hm : cycle_maxsize scratch_input_state ⟨SPA_STATUS_NEED_BUFFER, SPA_ID_INVALID⟩ = 16 := by
    decide
  dsimp only
  rw [hin, hm]
  unfold produce
  simp only [List.length_cons, List.length_nil]
  rw [if_neg (by decide), if_neg (by decide), mix_buffers_three, hd0, hd1, hd2]
  have h4 : i < 16 / 4 := by omega
  simp only [mixed, node_mem, sizeof_float, scenario_host, h4]
  norm_num
  ring

/-- The sum C4 promises for `scratch_input_state`, over the three inputs as
they are when the cycle starts. -/
theorem scratch_input_sum (i : Nat) :
    sum_left ((cycle_inputs scratch_input_state).map
      (fun b => input_sample scenario_host scratch_input_state.empty b i)) = (i : ℚ) + 3 / 2 := by
  obtain ⟨hin, hd0, hd1, hd2⟩ := scratch_input_inputs
  rw [hin]
  simp only [List.map_cons, List.map_nil, input_sample, hd0, hd1, hd2]
  have he : scratch_input_state.empty i = 0 := rfl
  simp only [sum_left, node_mem, scenario_host, he]
  norm_num
  ring

/-- Counterexample to C4 as stated: `scratch_input_state` is reached through
the public operations; exactly three input ports are ready, a free output
buffer exists, the sample count of the cycle is 4 and every ready input has a
chunk of 16 bytes.  The third input's data block is the scratch array of the
node, which `impl_node_port_use_buffers` accepts.  The cycle returns "have
buffer | need buffer" with the scratch array as the output data block, but its
samples are `[3, 5, 7, 9]` (shown at 0 and 3, for both variants of `mix_2`),
not the sum `[3/2, 5/2, 7/2, 9/2]` of the three inputs: the first `mix_2`
overwrites the scratch array before the third input is read from it. -/
theorem process_mix_scratch_input :
    Reachable scratch_input_state ∧
    ready_ids scratch_input_state.in_ports scratch_input_state.last_port.toNat = [0, 1, 2] ∧
    (recycle scratch_input_state.out_ports
      ⟨SPA_STATUS_NEED_BUFFER, SPA_ID_INVALID⟩).1.queue = [0] ∧
    cycle_n_samples scratch_input_state ⟨SPA_STATUS_NEED_BUFFER, SPA_ID_INVALID⟩ = 4 ∧
    (cycle_inputs scratch_input_state).map chunk_size = [16, 16, 16] ∧
    (cycle_inputs scratch_input_state).map (fun b => b.buffer.datas0.data)
      = [DataPtr.host 1, DataPtr.host 2, DataPtr.scratch] ∧
    (impl_node_process false scenario_host scratch_input_state).1 = 3 ∧
    io_status (impl_node_process false scenario_host scratch_input_state).2.out_ports.io
      = some SPA_STATUS_HAVE_BUFFER ∧
    ((impl_node_process false scenario_host scratch_input_state).2.out_ports.buffers
      0).buffer.datas0.data = DataPtr.scratch ∧
    (impl_node_process false scenario_host scratch_input_state).2.empty 0 = 3 ∧
    sum_left ((cycle_inputs scratch_input_state).map
      (fun b => input_sample scenario_host scratch_input_state.empty b 0)) = 3 / 2 ∧
    (impl_node_process false scenario_host scratch_input_state).2.empty 3 = 9 ∧
    sum_left ((cycle_inputs scratch_input_state).map
      (fun b => input_sample scenario_host scratch_input_state.empty b 3)) = 9 / 2 ∧
    (impl_node_process true scenario_host scratch_input_state).2.empty 0 = 3 ∧
    (impl_node_process true scenario_host scratch_input_state).2.empty 3 = 9 := by
  refine ⟨scratch_input_reachable, by decide, by decide, by decide, by decide, by decide,
    by decide, by decide, by decide, ?_, ?_, ?_, ?_, ?_, ?_⟩
  · rw [scratch_input_cycle false 0 (by decide)]; norm_num
  · rw [scratch_input_sum 0]; norm_num
  · rw [scratch_input_cycle false 3 (by decide)]; norm_num
  · rw [scratch_input_sum 3]; norm_num
  · rw [scratch_input_cycle true 0 (by decide)]; norm_num
  · rw [scratch_input_cycle true 3 (by decide)]; norm_num

end Floatmix
